import Mathlib

/-!
Verification of the CodeCSI robot-soccer simulator (models/robot.py,
models/ball.py, models/team.py, models/world.py, simulation/collisions.py,
actions/planning.py) against its natural-language specification.

The Python code computes with IEEE floats; this development embeds it over
the real numbers, keeping the source's control flow, operation order and
names.  Python's `%` on floats with a positive divisor is `a - m * ⌊a / m⌋`;
`math.hypot x y` is `Real.sqrt (x^2 + y^2)`; `math.atan2 y x` is
`Complex.arg ⟨x, y⟩` (both have range `(-π, π]` with the same quadrant
conventions); `random.shuffle` and `random.random` are modelled by an
explicit stream of choices (`Rnd`) that the statements quantify over or
instantiate.
-/

noncomputable section

open Real

/-- Python `max(lo, min(hi, x))`, the `_clamp` helper of robot.py and
collisions.py. -/
def clampf (x lo hi : ℝ) : ℝ := max lo (min hi x)

/-- Python `a % m` for real `a` and positive real `m` (result has the sign
of the divisor). -/
def pymod (a m : ℝ) : ℝ := a - m * (⌊a / m⌋ : ℤ)

/-- `_wrap_pi` of models/robot.py: `(a + math.pi) % (2.0 * math.pi) - math.pi`. -/
def wrap_pi (a : ℝ) : ℝ := pymod (a + π) (2 * π) - π

/-- Python `math.radians`. -/
def radians (d : ℝ) : ℝ := d * π / 180

/-- Python `math.hypot`. -/
def hypot (x y : ℝ) : ℝ := Real.sqrt (x ^ 2 + y ^ 2)

/-- Python `math.atan2 y x`, embedded as the argument of the complex number
`x + y*I`; both have range `(-π, π]` and the same quadrant conventions. -/
def atan2 (y x : ℝ) : ℝ := Complex.arg ⟨x, y⟩

/-- The `Robot` dataclass of models/robot.py (field defaults are the
dataclass defaults). -/
structure Robot where
  robot_id : ℕ := 0
  team_id : ℕ := 0
  x : ℝ := 0
  y : ℝ := 0
  theta : ℝ := 0
  vx : ℝ := 0
  vy : ℝ := 0
  omega : ℝ := 0
  desired_vx : ℝ := 0
  desired_vy : ℝ := 0
  desired_omega : ℝ := 0
  side_len : ℝ := 0.45
  max_speed : ℝ := 2.5
  max_omega : ℝ := 6.0
  max_accel : ℝ := 4.0
  max_alpha : ℝ := 20.0
  tau_v : ℝ := 0.12
  tau_w : ℝ := 0.10
  active : Bool := true
  has_ball : Bool := false

/-- `Robot.speed`. -/
def Robot.speed (r : Robot) : ℝ := hypot r.vx r.vy

/-- `Robot.half_side`. -/
def Robot.half_side (r : Robot) : ℝ := 0.5 * r.side_len

/-- `Robot.outer_radius` (half diagonal of the square footprint). -/
def Robot.outer_radius (r : Robot) : ℝ := hypot r.half_side r.half_side

/-- `Robot.half_extents_xy`: half width of the current OBB projected on the
axes, `e = h * (|cos θ| + |sin θ|)` for both axes. -/
def Robot.half_extents_xy (r : Robot) : ℝ × ℝ :=
  let e := r.half_side * (|Real.cos r.theta| + |Real.sin r.theta|)
  (e, e)

/-- `Robot.set_pose` (wraps the angle). -/
def Robot.set_pose (r : Robot) (x y theta : ℝ) : Robot :=
  { r with x := x, y := y, theta := wrap_pi theta }

/-- `Robot.set_vel`. -/
def Robot.set_vel (r : Robot) (vx vy omega : ℝ) : Robot :=
  { r with vx := vx, vy := vy, omega := omega }

/-- `Robot.stop`: zeroes the desired command. -/
def Robot.stop (r : Robot) : Robot :=
  { r with desired_vx := 0, desired_vy := 0, desired_omega := 0 }

/-- `Robot.command_velocity`: scales the linear command down to `max_speed`
preserving direction, clamps the angular command to `±max_omega`. -/
def Robot.command_velocity (r : Robot) (vx vy omega : ℝ) : Robot :=
  let sp := hypot vx vy
  let k := r.max_speed / sp
  let vx' := if sp > 1e-9 ∧ sp > r.max_speed then vx * k else vx
  let vy' := if sp > 1e-9 ∧ sp > r.max_speed then vy * k else vy
  { r with desired_vx := vx', desired_vy := vy',
           desired_omega := clampf omega (-r.max_omega) r.max_omega }

/-- `Robot.command_move_towards` (the `speed is None` default is
`max_speed`). -/
def Robot.command_move_towards (r : Robot) (tx ty : ℝ) (speed : Option ℝ) : Robot :=
  let sp := speed.getD r.max_speed
  let dx := tx - r.x
  let dy := ty - r.y
  let d := hypot dx dy
  if d < 1e-6 then r.command_velocity 0 0 r.desired_omega
  else r.command_velocity (dx / d * sp) (dy / d * sp) r.desired_omega

/-- Python truthiness of `max_rate or self.max_omega`: `None` and `0.0` are
falsy and select `max_omega`. -/
def pyOrRate (max_rate : Option ℝ) (default_rate : ℝ) : ℝ :=
  match max_rate with
  | none => default_rate
  | some v => if v = 0 then default_rate else v

/-- `Robot.command_face_point`: proportional heading control writing only
`desired_omega`. -/
def Robot.command_face_point (r : Robot) (tx ty : ℝ) (kp : ℝ) (max_rate : Option ℝ) :
    Robot :=
  let err := wrap_pi (atan2 (ty - r.y) (tx - r.x) - r.theta)
  let w := kp * err
  let rate := pyOrRate max_rate r.max_omega
  { r with desired_omega := clampf w (-rate) rate }

/-- `Robot._alpha`: first-order tracking gain `1 - exp (-dt / tau)`. -/
def alphaOf (tau dt : ℝ) : ℝ :=
  if tau ≤ 0 then 1 else 1 - Real.exp (-dt / tau)

/-- First half of `Robot.update`: the lag-tracked linear velocity target
`(vx_tgt, vy_tgt)`, scaled down to `max_speed` when it exceeds it
(`if sp > self.max_speed > 0.0`). -/
def Robot.vel_target (r : Robot) (dt : ℝ) : ℝ × ℝ :=
  let av := alphaOf r.tau_v dt
  let vx0 := r.vx + av * (r.desired_vx - r.vx)
  let vy0 := r.vy + av * (r.desired_vy - r.vy)
  let sp := hypot vx0 vy0
  if sp > r.max_speed ∧ r.max_speed > 0
  then (vx0 * (r.max_speed / sp), vy0 * (r.max_speed / sp))
  else (vx0, vy0)

/-- The per-step acceleration scale of `Robot.update`: the velocity change
towards the target is multiplied by `max_dv / dv` when it exceeds
`max_accel * dt` (`if dv > max_dv > 0.0`), else applied in full. -/
def Robot.accel_scale (r : Robot) (dt : ℝ) : ℝ :=
  let dv := hypot ((r.vel_target dt).1 - r.vx) ((r.vel_target dt).2 - r.vy)
  let max_dv := r.max_accel * dt
  if dv > max_dv ∧ max_dv > 0 then max_dv / dv else 1

/-- `Robot.update`: first-order command tracking, total-speed clamp,
per-step acceleration clamp (via `vel_target` and `accel_scale`), the
angular-rate clamps, Euler pose integration, angle wrap. -/
def Robot.update (r : Robot) (dt : ℝ) : Robot :=
  if r.active = false ∨ dt ≤ 0 then r else
  let tgt := r.vel_target dt
  let s := r.accel_scale dt
  let vx' := r.vx + s * (tgt.1 - r.vx)
  let vy' := r.vy + s * (tgt.2 - r.vy)
  let aw := alphaOf r.tau_w dt
  let w_tgt := clampf (r.omega + aw * (r.desired_omega - r.omega)) (-r.max_omega) r.max_omega
  let omega' := r.omega + clampf (w_tgt - r.omega) (-(r.max_alpha * dt)) (r.max_alpha * dt)
  { r with vx := vx', vy := vy', omega := omega',
           x := r.x + vx' * dt, y := r.y + vy' * dt,
           theta := wrap_pi (r.theta + omega' * dt) }

/-- `Robot.ball_relative`: distance and wrapped bearing error to the ball. -/
def Robot.ball_relative (r : Robot) (bx by_ : ℝ) : ℝ × ℝ :=
  let dx := bx - r.x
  let dy := by_ - r.y
  (hypot dx dy, wrap_pi (atan2 dy dx - r.theta))

/-- `Robot.sees_ball_front`: the ball is within `max_dist` and within
`±half_angle_deg` of the heading. -/
def Robot.sees_ball_front (r : Robot) (bx by_ max_dist half_angle_deg : ℝ) : Prop :=
  (r.ball_relative bx by_).1 ≤ max_dist ∧
    |(r.ball_relative bx by_).2| ≤ radians half_angle_deg

/-- `Robot.dribble_anchor`: anchored ball position and velocity at the
robot's nose, `(ax, ay, avx, avy)`. -/
def Robot.dribble_anchor (r : Robot) (ball_radius gap : ℝ) : ℝ × ℝ × ℝ × ℝ :=
  let front := r.half_side + ball_radius + gap
  let c := Real.cos r.theta
  let s := Real.sin r.theta
  let ax := r.x + c * front
  let ay := r.y + s * front
  let rx := c * front
  let ry := s * front
  (ax, ay, r.vx - r.omega * ry, r.vy + r.omega * rx)

/-- Boundary handling mode of models/ball.py. -/
inductive BoundaryMode where
  | clip
  | bounce

/-- The `Ball` dataclass of models/ball.py. -/
structure Ball where
  x : ℝ := 0
  y : ℝ := 0
  vx : ℝ := 0
  vy : ℝ := 0
  radius : ℝ := 0.11
  min_speed : ℝ := 0.05
  lin_drag_per_s : ℝ := 1.5
  restitution : ℝ := 0.25

/-- `Ball.set_pos`. -/
def Ball.set_pos (b : Ball) (x y : ℝ) : Ball := { b with x := x, y := y }

/-- `Ball.set_vel`. -/
def Ball.set_vel (b : Ball) (vx vy : ℝ) : Ball := { b with vx := vx, vy := vy }

/-- `Ball.set_speed_dir`. -/
def Ball.set_speed_dir (b : Ball) (speed theta : ℝ) : Ball :=
  { b with vx := speed * Real.cos theta, vy := speed * Real.sin theta }

/-- `Ball.kick` delegates to `set_speed_dir`. -/
def Ball.kick (b : Ball) (speed theta : ℝ) : Ball := b.set_speed_dir speed theta

/-- `Ball._time_invariant_damping`: `exp (-max 0 lin_drag * dt)`. -/
def Ball.damping (b : Ball) (dt : ℝ) : ℝ := Real.exp (-(max 0 b.lin_drag_per_s) * dt)

/-- `Ball.update` with field parameters present (as called from
`World.update`): Euler position step, FPS-invariant damping, stop below
`min_speed`, then boundary handling. -/
def Ball.update (b : Ball) (dt field_half_w field_half_h : ℝ)
    (mode : BoundaryMode := BoundaryMode.clip) : Ball :=
  if dt ≤ 0 then b else
  let x1 := b.x + b.vx * dt
  let y1 := b.y + b.vy * dt
  let damp := b.damping dt
  let vx1 := b.vx * damp
  let vy1 := b.vy * damp
  let stop := vx1 * vx1 + vy1 * vy1 < b.min_speed * b.min_speed
  let vx2 := if stop then 0 else vx1
  let vy2 := if stop then 0 else vy1
  let max_x := field_half_w - b.radius
  let max_y := field_half_h - b.radius
  match mode with
  | BoundaryMode.clip =>
      let (x3, vx3) := if x1 > max_x then (max_x, 0) else
                       if x1 < -max_x then (-max_x, 0) else (x1, vx2)
      let (y3, vy3) := if y1 > max_y then (max_y, 0) else
                       if y1 < -max_y then (-max_y, 0) else (y1, vy2)
      { b with x := x3, y := y3, vx := vx3, vy := vy3 }
  | BoundaryMode.bounce =>
      let (x3, vx3) := if x1 > max_x then (max_x, -vx2 * b.restitution) else
                       if x1 < -max_x then (-max_x, -vx2 * b.restitution) else (x1, vx2)
      let (y3, vy3) := if y1 > max_y then (max_y, -vy2 * b.restitution) else
                       if y1 < -max_y then (-max_y, -vy2 * b.restitution) else (y1, vy2)
      { b with x := x3, y := y3, vx := vx3, vy := vy3 }

/-- Team side of models/team.py: `"left"` defends the goal at `x = -11`. -/
inductive Side where
  | left
  | right
deriving DecidableEq

/-- The `Team` dataclass of models/team.py.  The Python `robots` dict
(insertion-ordered, keyed by robot id) is an association list in insertion
order. -/
structure Team where
  team_id : ℕ := 0
  name : String := "Team"
  side : Side := Side.left
  max_size : ℕ := 5
  robots : List (ℕ × Robot) := []
  goalie_id : Option ℕ := none
  next_robot_id : ℕ := 1

/-- The `dict.values()` view of a team's robots (insertion order). -/
def Team.vals (t : Team) : List Robot := t.robots.map Prod.snd

/-- `Team.attack_sign` as a real (+1 attacks +x). -/
def Team.attack_sign (t : Team) : ℝ :=
  match t.side with
  | Side.left => 1
  | Side.right => -1

/-- `Team.own_goal_x` (hard-coded full-size field in the source). -/
def Team.own_goal_x (t : Team) : ℝ :=
  match t.side with
  | Side.left => -11
  | Side.right => 11

/-- `Team.add_robot` with no robot argument and no explicit id: creates a
default robot under the next allocated id, first robot becomes goalie. -/
def Team.add_robot (t : Team) : Team :=
  let rid := t.next_robot_id
  let r : Robot := { robot_id := rid, team_id := t.team_id }
  { t with robots := t.robots ++ [(rid, r)],
           next_robot_id := rid + 1,
           goalie_id := match t.goalie_id with
                        | none => some rid
                        | some g => some g }

/-- `Team.ensure_size`, restricted to the growing direction used by the
claims (the shrinking branch removes the largest ids). -/
def Team.ensure_size (t : Team) (n : ℕ) : Team :=
  Nat.rec t (fun _ acc => acc.add_robot) (max 1 n - t.robots.length)

/-- `Team.update`: update every robot. -/
def Team.update (t : Team) (dt : ℝ) : Team :=
  { t with robots := t.robots.map (fun p => (p.1, p.2.update dt)) }

/-- Match state of models/world.py. -/
inductive GameState where
  | stopped
  | playing
  | kickoff_left
  | kickoff_right
  | goal
  | halt
deriving DecidableEq

/-- The `ScoreBoard` dataclass. -/
structure ScoreBoard where
  left : ℕ := 0
  right : ℕ := 0

/-- The `World` dataclass of models/world.py with its defaults. -/
structure World where
  field_w : ℝ := 22
  field_h : ℝ := 14
  t : ℝ := 0
  ball : Ball := {}
  team_left : Team := { team_id := 0, name := "Blue", side := Side.left, max_size := 5 }
  team_right : Team := { team_id := 1, name := "Red", side := Side.right, max_size := 5 }
  score : ScoreBoard := {}
  state : GameState := GameState.stopped
  cone_dist_on : ℝ := 0.35
  cone_angle_on_deg : ℝ := 40
  cone_dist_off : ℝ := 0.45
  cone_angle_off_deg : ℝ := 60
  sticky_enabled : Bool := true
  sticky_ball_radius : ℝ := 0.11
  sticky_gap : ℝ := 0.015
  sticky_clip_field : Bool := true
  kick_cooldown : ℝ := 0

/-- `World.half_w`. -/
def World.half_w (w : World) : ℝ := 0.5 * w.field_w

/-- `World.half_h`. -/
def World.half_h (w : World) : ℝ := 0.5 * w.field_h

/-- `World.all_robots()` flattened to values: left team's robots then right
team's, in dict insertion order. -/
def World.allRobotVals (w : World) : List Robot :=
  w.team_left.vals ++ w.team_right.vals

/-- The wide "off" cone test used to keep possession. -/
def World.seesOff (w : World) (bx by_ : ℝ) (r : Robot) : Prop :=
  r.sees_ball_front bx by_ w.cone_dist_off w.cone_angle_off_deg

/-- The narrow "on" cone test used to acquire possession. -/
def World.seesOn (w : World) (bx by_ : ℝ) (r : Robot) : Prop :=
  r.sees_ball_front bx by_ w.cone_dist_on w.cone_angle_on_deg

instance (r : Robot) (bx by_ m h : ℝ) : Decidable (r.sees_ball_front bx by_ m h) :=
  inferInstanceAs (Decidable (_ ∧ _))

instance (w : World) (bx by_ : ℝ) (r : Robot) : Decidable (w.seesOff bx by_ r) :=
  inferInstanceAs (Decidable (r.sees_ball_front bx by_ w.cone_dist_off w.cone_angle_off_deg))

instance (w : World) (bx by_ : ℝ) (r : Robot) : Decidable (w.seesOn bx by_ r) :=
  inferInstanceAs (Decidable (r.sees_ball_front bx by_ w.cone_dist_on w.cone_angle_on_deg))

/-- Squared robot-to-ball distance used for the nearest-candidate choice. -/
def d2ball (bx by_ : ℝ) (r : Robot) : ℝ := (r.x - bx) ^ 2 + (r.y - by_) ^ 2

/-- One step of the nearest-in-on-cone fold (`best_d2` starts at infinity,
so the first candidate always wins; later ones only on strictly smaller
squared distance). -/
def acquireStep (w : World) (bx by_ : ℝ) (acc : Option (ℕ × ℝ)) (p : ℕ × Robot) :
    Option (ℕ × ℝ) :=
  if p.2.active = true ∧ w.seesOn bx by_ p.2 then
    let d2 := d2ball bx by_ p.2
    match acc with
    | none => some (p.1, d2)
    | some q => if d2 < q.2 then some (p.1, d2) else acc
  else acc

/-- The candidate chosen by step 2 of `_update_possession_and_anchor`:
first active robot in the on-cone at strictly minimal squared distance
(iteration order = combined dict order). -/
def World.acquireHolder (w : World) (bx by_ : ℝ) : Option (ℕ × ℝ) :=
  (w.allRobotVals).enum.foldl (acquireStep w bx by_) none

/-- Index of the first robot satisfying `p` (the `break` of the Python
loops). -/
def firstIdx (p : Robot → Bool) : List Robot → Option ℕ
  | [] => none
  | r :: rest => if p r = true then some 0 else (firstIdx p rest).map (· + 1)

/-- Step 1 of `_update_possession_and_anchor`: the first robot (combined
order) that already has the ball and still passes the wide cone. -/
def World.keepHolder (w : World) (bx by_ : ℝ) : Option ℕ :=
  firstIdx (fun r => r.has_ball && decide (w.seesOff bx by_ r)) w.allRobotVals

/-- Write `has_ball := (index == holder)` across both teams, indices taken
in the combined (left ++ right) order. -/
def World.setFlags (w : World) (holder : Option ℕ) : World :=
  let nL := w.team_left.robots.length
  { w with
    team_left := { w.team_left with
      robots := w.team_left.robots.enum.map
        (fun q => (q.2.1, { q.2.2 with has_ball := decide (holder = some q.1) })) },
    team_right := { w.team_right with
      robots := w.team_right.robots.enum.map
        (fun q => (q.2.1, { q.2.2 with has_ball := decide (holder = some (nL + q.1)) })) } }

/-- Clear every robot's `has_ball` on both teams. -/
def World.clearHasBall (w : World) : World :=
  { w with
    team_left := { w.team_left with
      robots := w.team_left.robots.map (fun p => (p.1, { p.2 with has_ball := false })) },
    team_right := { w.team_right with
      robots := w.team_right.robots.map (fun p => (p.1, { p.2 with has_ball := false })) } }

/-- `World._update_possession_and_anchor`: count down the cooldown (nobody
may hold during it), then hysteresis holder choice, then flag write, then
sticky anchoring of the ball at the holder's nose (overwriting the ball's
position and velocity before its own integration). -/
def World.possessionHolder (w : World) : Option ℕ :=
  match w.keepHolder w.ball.x w.ball.y with
  | some i => some i
  | none => (w.acquireHolder w.ball.x w.ball.y).map Prod.fst

/-- The field clip of the sticky anchor (`x` component): clamp inside the
field shrunk by the configured ball radius, when enabled. -/
def World.stickyClipX (w : World) (ax : ℝ) : ℝ :=
  if w.sticky_clip_field
  then max (-w.half_w + w.sticky_ball_radius) (min (w.half_w - w.sticky_ball_radius) ax)
  else ax

/-- The field clip of the sticky anchor (`y` component). -/
def World.stickyClipY (w : World) (ay : ℝ) : ℝ :=
  if w.sticky_clip_field
  then max (-w.half_h + w.sticky_ball_radius) (min (w.half_h - w.sticky_ball_radius) ay)
  else ay

/-- The ball overwritten at the holder's nose: clipped anchor position and
the anchor velocity (step 4 of `_update_possession_and_anchor`). -/
def World.anchoredBall (w : World) (hr : Robot) : Ball :=
  let a := hr.dribble_anchor w.sticky_ball_radius w.sticky_gap
  (w.ball.set_pos (w.stickyClipX a.1) (w.stickyClipY a.2.1)).set_vel a.2.2.1 a.2.2.2

/-- Steps 1-4 of `_update_possession_and_anchor` once the cooldown gate is
passed: choose the holder, write the flags, anchor the ball at the
holder's nose when sticky mode is on. -/
def World.holderStep (w0 : World) : World :=
  let holder := w0.possessionHolder
  let w1 := w0.setFlags holder
  match holder with
  | none => w1
  | some i =>
    if w1.sticky_enabled then
      -- the holder robot's pose and velocity are unchanged by the flag write
      match (w0.allRobotVals).get? i with
      | none => w1
      | some hr => { w1 with ball := w1.anchoredBall hr }
    else w1

/-- Body of `_update_possession_and_anchor` (see the module docstring of
`possessionHolder` above for steps 1 and 2). -/
def World.update_possession_and_anchor (w : World) (dt : ℝ) : World :=
  let w0 := if w.kick_cooldown > 0
            then { w with kick_cooldown := max 0 (w.kick_cooldown - dt) }
            else w
  if w0.kick_cooldown > 0 then w0.clearHasBall else w0.holderStep

/-- Explicit stream of random choices consumed by
`simulation/collisions.py`: `perm k` is the `random.shuffle` outcome of
iteration `k` (a permutation of `range n`), `ang k i j` the
`random.random() * 2π` angle drawn if the pair `(i, j)` is degenerate in
iteration `k`. -/
structure Rnd where
  perm : ℕ → List ℕ
  ang : ℕ → ℕ → ℕ → ℝ

/-- List read with the default `Robot` (indices produced by the source are
always in range). -/
def getR (l : List Robot) (i : ℕ) : Robot := l.getD i {}

/-- `clamp_robot_inside_field` of simulation/collisions.py. -/
def clamp_robot_inside_field (half_w half_h : ℝ) (r : Robot) : Robot :=
  let e := r.half_extents_xy
  { r with x := clampf r.x (-half_w + e.1) (half_w - e.1),
           y := clampf r.y (-half_h + e.2) (half_h - e.2) }

/-- One inner-loop body of `enforce_no_overlap` for the pair `(i, j)`.
`xi, yi` are the positions of robot `i` cached at the start of its outer
iteration (the source reads `xi, yi` once before the `j` loop, so pushes
applied to robot `i` during that loop are not seen by later `j`). -/
def resolvePair (rad : List ℝ) (restitution limit xi yi angv : ℝ)
    (l : List Robot) (i j : ℕ) : List Robot :=
  let ri0 := getR l i
  let rj0 := getR l j
  let dx0 := rj0.x - xi
  let dy0 := rj0.y - yi
  let d20 := dx0 * dx0 + dy0 * dy0
  let deg := d20 < 1e-12
  let eps : ℝ := 1e-3
  let ri := if deg then { ri0 with x := ri0.x - eps * Real.cos angv,
                                   y := ri0.y - eps * Real.sin angv } else ri0
  let rj := if deg then { rj0 with x := rj0.x + eps * Real.cos angv,
                                   y := rj0.y + eps * Real.sin angv } else rj0
  let dx := if deg then rj.x - ri.x else dx0
  let dy := if deg then rj.y - ri.y else dy0
  let d2 := if deg then dx * dx + dy * dy else d20
  let d := Real.sqrt d2
  let min_d := rad.getD i 0 + rad.getD j 0
  if d ≥ min_d then (l.set i ri).set j rj
  else
    let nx := if d > 1e-9 then dx / d else 1
    let ny := if d > 1e-9 then dy / d else 0
    let push := min (0.5 * (min_d - d)) limit
    let ri1 := { ri with x := ri.x - nx * push, y := ri.y - ny * push }
    let rj1 := { rj with x := rj.x + nx * push, y := rj.y + ny * push }
    let vn := (rj1.vx - ri1.vx) * nx + (rj1.vy - ri1.vy) * ny
    let jimp := -(1 + restitution) * vn * 0.5
    let ri2 := if vn < 0 then { ri1 with vx := ri1.vx - nx * jimp, vy := ri1.vy - ny * jimp }
               else ri1
    let rj2 := if vn < 0 then { rj1 with vx := rj1.vx + nx * jimp, vy := rj1.vy + ny * jimp }
               else rj1
    (l.set i ri2).set j rj2

/-- The `for j in range(i+1, n)` loop for a fixed outer index `i` of
iteration `k`. -/
def innerLoop (rad : List ℝ) (restitution limit : ℝ) (rnd : Rnd) (k n i : ℕ)
    (l : List Robot) : List Robot :=
  let xi := (getR l i).x
  let yi := (getR l i).y
  ((List.range n).drop (i + 1)).foldl
    (fun acc j => resolvePair rad restitution limit xi yi (rnd.ang k i j) acc i j) l

/-- One of the `iterations` passes: shuffled outer loop over all pairs,
then clamp every robot of the working list inside the field. -/
def passOnce (rad : List ℝ) (restitution limit half_w half_h : ℝ) (rnd : Rnd)
    (n k : ℕ) (l : List Robot) : List Robot :=
  let l1 := (rnd.perm k).foldl (fun acc i => innerLoop rad restitution limit rnd k n i acc) l
  l1.map (clamp_robot_inside_field half_w half_h)

/-- The iterative core of `enforce_no_overlap` on the filtered list of
active robots. -/
def enforceList (half_w half_h clearance restitution limit : ℝ) (iterations : ℕ)
    (rnd : Rnd) (actives : List Robot) : List Robot :=
  let n := actives.length
  let rad := actives.map (fun r => r.outer_radius + clearance * 0.5)
  (List.range (max 1 iterations)).foldl
    (fun acc k => passOnce rad restitution limit half_w half_h rnd n k acc) actives

/-- Write the resolved active robots back over the active slots of the
combined list (the source mutates the shared robot objects in place). -/
def replaceActives : List Robot → List Robot → List Robot
  | [], _ => []
  | r :: rest, news =>
      if r.active then
        match news with
        | [] => r :: rest
        | n0 :: ns => n0 :: replaceActives rest ns
      else r :: replaceActives rest news

/-- Write a combined (left ++ right) robot-value list back into the two
teams, keeping each team's ids and order. -/
def World.setAllVals (w : World) (vals : List Robot) : World :=
  let nL := w.team_left.robots.length
  { w with
    team_left := { w.team_left with
      robots := w.team_left.robots.zipWith (fun p v => (p.1, v)) (vals.take nL) },
    team_right := { w.team_right with
      robots := w.team_right.robots.zipWith (fun p v => (p.1, v)) (vals.drop nL) } }

/-- `enforce_no_overlap` of simulation/collisions.py: pairwise push-apart
of the active robots' bounding circles with a per-iteration push limit,
then clamping inside the field after every pass (and directly when at most
one robot is active). -/
def enforce_no_overlap (w : World) (rnd : Rnd) (iterations : ℕ)
    (clearance restitution limit : ℝ) : World :=
  let combined := w.allRobotVals
  let actives := combined.filter (fun r => r.active)
  if actives.length ≤ 1 then
    w.setAllVals (combined.map (fun r =>
      if r.active then clamp_robot_inside_field w.half_w w.half_h r else r))
  else
    w.setAllVals (replaceActives combined
      (enforceList w.half_w w.half_h clearance restitution limit iterations rnd actives))

/-- `World.update`: robots, overlap resolution, possession and anchoring,
ball integration, simulation time.  The `state` field is never consulted. -/
def World.update (w : World) (dt : ℝ) (rnd : Rnd) : World :=
  if dt ≤ 0 then w else
  let w1 := { w with team_left := w.team_left.update dt,
                     team_right := w.team_right.update dt }
  let w2 := enforce_no_overlap w1 rnd 6 0.01 0 0.10
  let w3 := w2.update_possession_and_anchor dt
  let w4 := { w3 with ball := w3.ball.update dt w3.half_w w3.half_h }
  { w4 with t := w4.t + dt }

/-- `World.reset_ball_center`. -/
def World.reset_ball_center (w : World) : World :=
  { w with ball := (w.ball.set_pos 0 0).set_vel 0 0 }

/-- `World.halt`: only the match state changes. -/
def World.halt (w : World) : World := { w with state := GameState.halt }

/-- `Team.robots_list`: the robots sorted by id. -/
def Team.robots_list (t : Team) : List Robot :=
  (t.robots.map Prod.snd).mergeSort (fun a b => decide (a.robot_id ≤ b.robot_id))

/-- The goalie-first ordering of `Team.auto_position_kickoff`: Python's
stable sort by the key `(0 if id == goalie else 1, id)` over the
id-sorted list, i.e. the goalie's entry followed by the rest; with no
goalie the first listed robot becomes goalie.  Returns the order and the
(possibly newly assigned) goalie id. -/
def Team.kickoffOrder (t : Team) : List Robot × Option ℕ :=
  let order := t.robots_list
  match t.goalie_id with
  | some g => (order.filter (fun r => decide (r.robot_id = g)) ++
               order.filter (fun r => decide (¬ r.robot_id = g)), some g)
  | none => (order, (order.head?).map Robot.robot_id)

/-- The kickoff position templates for `n` robots on a team with attack
sign `s`: goalkeeper, defender, two wide midfielders, forward, then extra
robots spread along `y` around the midfield `x`. -/
def kickoffTemplates (s half_w half_h : ℝ) (n : ℕ) : List (ℝ × ℝ) :=
  let x_gk := -s * (half_w - 0.5)
  let base := ([(x_gk, (0 : ℝ)), (-s * 6, 0), (-s * 3, 2), (-s * 3, -2), (-s * 1, 0)]).take n
  let extra := n - 5
  let y_max := half_h - 0.5
  let step := max 1 (y_max / (extra + 1))
  base ++ (List.range extra).map
    (fun i : ℕ => (-s * 3, ((i : ℝ) + 1) * step * (if i % 2 = 1 then (-1 : ℝ) else 1)))

/-- The border clip of `auto_position_kickoff` (0.1 m margin). -/
def clip_xy (half_w half_h x y : ℝ) : ℝ × ℝ :=
  (max (-half_w + 0.1) (min (half_w - 0.1) x),
   max (-half_h + 0.1) (min (half_h - 0.1) y))

/-- The kickoff facing angle: towards the opponent goal. -/
def Team.kickoffFace (t : Team) : ℝ := if t.attack_sign = 1 then (0 : ℝ) else π

/-- The placements built by `Team.auto_position_kickoff`: the goalie-first
order zipped with the clipped templates, keyed by robot id, each robot
re-posed facing the opponent goal with velocities and desired commands
zeroed. -/
def Team.kickoffPlaced (t : Team) (field_w field_h : ℝ) : List (ℕ × Robot) :=
  let half_w := field_w * 0.5
  let half_h := field_h * 0.5
  (t.kickoffOrder.1.zip
      (kickoffTemplates t.attack_sign half_w half_h t.kickoffOrder.1.length)).map (fun q =>
    let p := clip_xy half_w half_h q.2.1 q.2.2
    (q.1.robot_id, ((q.1.set_pose p.1 p.2 t.kickoffFace).set_vel 0 0 0).stop))

/-- `Team.auto_position_kickoff`: order the robots goalie first, build the
templates, clip them inside the field, and overwrite each robot's pose
(facing the opponent goal) with velocities and desired commands zeroed. -/
def Team.auto_position_kickoff (t : Team) (field_w field_h : ℝ) : Team :=
  let t0 := if t.robots_list.isEmpty then t.ensure_size t.max_size else t
  { t0 with goalie_id := t0.kickoffOrder.2,
            robots := t0.robots.map (fun pr =>
              match (t0.kickoffPlaced field_w field_h).lookup pr.1 with
              | some r' => (pr.1, r')
              | none => pr) }

/-- `World.auto_position_kickoff`: both teams into kickoff formation, ball
to the centre. -/
def World.auto_position_kickoff (w : World) : World :=
  World.reset_ball_center
    { w with team_left := w.team_left.auto_position_kickoff w.field_w w.field_h,
             team_right := w.team_right.auto_position_kickoff w.field_w w.field_h }

/-- `World.set_kickoff`. -/
def World.set_kickoff (w : World) (side : Side) : World :=
  World.auto_position_kickoff
    { w with state := match side with
                      | Side.left => GameState.kickoff_left
                      | Side.right => GameState.kickoff_right }

/-- `World.goal_scored`: increment the scorer's counter and give kickoff to
the conceding side. -/
def World.goal_scored (w : World) (by_side : Side) : World :=
  match by_side with
  | Side.left =>
      World.set_kickoff { w with score := { w.score with left := w.score.left + 1 } }
        Side.right
  | Side.right =>
      World.set_kickoff { w with score := { w.score with right := w.score.right + 1 } }
        Side.left

/-- `BALL_RADIUS` of actions/planning.py. -/
def BALL_RADIUS : ℝ := 0.11

/-- `_place_ball_in_front` of actions/planning.py (default gap 0.02). -/
def place_ball_in_front (r : Robot) (gap : ℝ) : ℝ × ℝ :=
  let front := r.half_side + BALL_RADIUS + gap
  (r.x + Real.cos r.theta * front, r.y + Real.sin r.theta * front)

/-- Overwrite one robot (by id) on the given side. -/
def World.withRobot (w : World) (side : Side) (rid : ℕ) (r' : Robot) : World :=
  match side with
  | Side.left => { w with team_left := { w.team_left with
      robots := w.team_left.robots.map (fun p => if p.1 = rid then (p.1, r') else p) } }
  | Side.right => { w with team_right := { w.team_right with
      robots := w.team_right.robots.map (fun p => if p.1 = rid then (p.1, r') else p) } }

/-- `exec_shoot` of actions/planning.py: drop the ball in front of the
shooter's nose, clear its `has_ball`, kick the ball at `speed` towards the
centre of the opponent goal mouth (`y = 0`), and start the 0.25 s capture
cooldown.  The robot is identified by side and id (Python passes the
object). -/
def exec_shoot (w : World) (side : Side) (rid : ℕ) (speed : ℝ) : World :=
  let tm := match side with | Side.left => w.team_left | Side.right => w.team_right
  match tm.robots.lookup rid with
  | none => w
  | some r =>
    let b := place_ball_in_front r 0.02
    let goal_x := match side with | Side.left => w.half_w | Side.right => -w.half_w
    let ang := atan2 (0 - b.2) (goal_x - b.1)
    let w1 := (w.withRobot side rid { r with has_ball := false })
    { w1 with ball := ((w1.ball.set_pos b.1 b.2).kick speed ang),
              kick_cooldown := 0.25 }

/-- `exec_pass` of actions/planning.py: like `exec_shoot` but aimed at the
given target point, same 0.25 s cooldown. -/
def exec_pass (w : World) (side : Side) (rid : ℕ) (to_xy : ℝ × ℝ) (speed : ℝ) : World :=
  let tm := match side with | Side.left => w.team_left | Side.right => w.team_right
  match tm.robots.lookup rid with
  | none => w
  | some r =>
    let b := place_ball_in_front r 0.02
    let ang := atan2 (to_xy.2 - b.2) (to_xy.1 - b.1)
    let w1 := (w.withRobot side rid { r with has_ball := false })
    { w1 with ball := ((w1.ball.set_pos b.1 b.2).kick speed ang),
              kick_cooldown := 0.25 }

/-- `linear_in_interval` of actions/planning.py. -/
def linear_in_interval (x x0 x1 y0 y1 : ℝ) : ℝ :=
  if x ≤ x0 then y0
  else if x ≥ x1 then y1
  else y0 + (y1 - y0) * (x - x0) / (x1 - x0)

/-- `_seg_point_distance`: distance from `p` to the segment `p0 p1` and the
clamped projection parameter `t`. -/
def seg_point_distance (p0 p1 p : ℝ × ℝ) : ℝ × ℝ :=
  let vx := p1.1 - p0.1
  let vy := p1.2 - p0.2
  let L2 := vx * vx + vy * vy
  if L2 ≤ 1e-12 then (hypot (p.1 - p0.1) (p.2 - p0.2), 0)
  else
    let t := clampf (((p.1 - p0.1) * vx + (p.2 - p0.2) * vy) / L2) 0 1
    (hypot (p.1 - (p0.1 + t * vx)) (p.2 - (p0.2 + t * vy)), t)

/-- The per-opponent time-to-intercept over time-to-reach quotient of
`evaluate_success_probability_absence_interception`. -/
def interceptQuotient (start cible : ℝ × ℝ) (L v_move v_opp centre_d t_react : ℝ)
    (q : ℝ × ℝ) : ℝ :=
  let dt' := seg_point_distance start cible q
  let d_eff := max 0 (dt'.1 - centre_d)
  let tr := if d_eff = 0 then 0 else t_react
  let t_opp := d_eff / max 1e-6 v_opp + tr
  let t_ball := dt'.2 * L / max 1e-6 v_move
  t_opp / max 1e-6 t_ball

/-- `evaluate_success_probability_absence_interception`: 1 for a degenerate
segment or no opponents, otherwise the `[0.8, 1.0] → [0, 1]` linear ramp of
the minimum per-opponent quotient. -/
def evaluate_success_probability_absence_interception
    (start cible : ℝ × ℝ) (interceptors : List (ℝ × ℝ))
    (v_move v_opp centre_d t_react : ℝ) : ℝ :=
  let L := hypot (cible.1 - start.1) (cible.2 - start.2)
  if L ≤ 1e-9 then 1
  else
    match interceptors.map (interceptQuotient start cible L v_move v_opp centre_d t_react) with
    | [] => 1
    | c :: cs => linear_in_interval (cs.foldl min c) 0.8 1.0 0 1

/-- Used by claim witnesses: a default robot at rest. -/
def restRobot : Robot := {}

/-!  Lemmas about the angle wrap. -/

theorem pymod_eq_fract (a m : ℝ) (hm : m ≠ 0) : pymod a m = m * Int.fract (a / m) := by
  unfold pymod Int.fract
  rw [mul_sub, mul_div_cancel₀ _ hm]

theorem pymod_nonneg (a m : ℝ) (hm : 0 < m) : 0 ≤ pymod a m := by
  rw [pymod_eq_fract a m (ne_of_gt hm)]
  exact mul_nonneg hm.le (Int.fract_nonneg _)

theorem pymod_lt (a m : ℝ) (hm : 0 < m) : pymod a m < m := by
  rw [pymod_eq_fract a m (ne_of_gt hm)]
  nlinarith [Int.fract_lt_one (a / m)]

theorem pymod_eq_self (a m : ℝ) (h0 : 0 ≤ a) (h1 : a < m) : pymod a m = a := by
  have hm : (0 : ℝ) < m := lt_of_le_of_lt h0 h1
  have hq : ⌊a / m⌋ = 0 := by
    rw [Int.floor_eq_zero_iff]
    constructor
    · positivity
    · rw [div_lt_one hm]
      exact h1
  simp [pymod, hq]

/-- Range of the wrap: `[-π, π)` (half open on the `π` side). -/
theorem wrap_pi_mem (a : ℝ) : -π ≤ wrap_pi a ∧ wrap_pi a < π := by
  unfold wrap_pi
  have h0 := pymod_nonneg (a + π) (2 * π) Real.two_pi_pos
  have h1 := pymod_lt (a + π) (2 * π) Real.two_pi_pos
  constructor <;> linarith

/-- The wrap is the identity on `[-π, π)`. -/
theorem wrap_pi_eq_self (a : ℝ) (h0 : -π ≤ a) (h1 : a < π) : wrap_pi a = a := by
  unfold wrap_pi
  rw [pymod_eq_self (a + π) (2 * π) (by linarith) (by linarith)]
  ring

theorem wrap_pi_idem (a : ℝ) : wrap_pi (wrap_pi a) = wrap_pi a :=
  wrap_pi_eq_self _ (wrap_pi_mem a).1 (wrap_pi_mem a).2

theorem wrap_pi_zero : wrap_pi 0 = 0 :=
  wrap_pi_eq_self 0 (by linarith [Real.pi_pos]) Real.pi_pos

theorem hypot_nonneg (x y : ℝ) : 0 ≤ hypot x y := Real.sqrt_nonneg _

theorem hypot_le_of_sq_le (x y M : ℝ) (h : x ^ 2 + y ^ 2 ≤ M ^ 2) (hM : 0 ≤ M) :
    hypot x y ≤ M := by
  rw [hypot, ← Real.sqrt_sq hM]
  exact Real.sqrt_le_sqrt h

theorem sq_le_of_hypot_le (x y M : ℝ) (h : hypot x y ≤ M) : x ^ 2 + y ^ 2 ≤ M ^ 2 := by
  have h0 : (0 : ℝ) ≤ x ^ 2 + y ^ 2 := by positivity
  have hs := Real.sq_sqrt h0
  have hsn := Real.sqrt_nonneg (x ^ 2 + y ^ 2)
  nlinarith [mul_self_le_mul_self hsn h]

theorem hypot_sq (x y : ℝ) : hypot x y ^ 2 = x ^ 2 + y ^ 2 :=
  Real.sq_sqrt (by positivity)

/-- A point on the segment from `(ux, uy)` to `(tx, ty)` stays inside any
disc of radius `M` containing both endpoints. -/
theorem convex_sq_bound (ux uy tx ty s M : ℝ) (hs0 : 0 ≤ s) (hs1 : s ≤ 1)
    (hu : ux ^ 2 + uy ^ 2 ≤ M ^ 2) (ht : tx ^ 2 + ty ^ 2 ≤ M ^ 2) :
    (ux + s * (tx - ux)) ^ 2 + (uy + s * (ty - uy)) ^ 2 ≤ M ^ 2 := by
  nlinarith [sq_nonneg (ux - tx), sq_nonneg (uy - ty), sq_nonneg (ux + tx),
    sq_nonneg (uy + ty), mul_nonneg hs0 (sub_nonneg.mpr hs1),
    mul_nonneg (mul_nonneg hs0 (sub_nonneg.mpr hs1)) (sq_nonneg (ux - tx)),
    mul_nonneg (mul_nonneg hs0 (sub_nonneg.mpr hs1)) (sq_nonneg (uy - ty))]

/-- The clamped velocity target never exceeds `max_speed` when the limit is
positive. -/
theorem Robot.vel_target_le (r : Robot) (dt : ℝ) (hM : 0 < r.max_speed) :
    hypot (r.vel_target dt).1 (r.vel_target dt).2 ≤ r.max_speed := by
  unfold Robot.vel_target
  set vx0 := r.vx + alphaOf r.tau_v dt * (r.desired_vx - r.vx) with hvx0
  set vy0 := r.vy + alphaOf r.tau_v dt * (r.desired_vy - r.vy) with hvy0
  by_cases h : hypot vx0 vy0 > r.max_speed ∧ r.max_speed > 0
  · rw [if_pos h]
    have hsp : 0 < hypot vx0 vy0 := lt_trans hM h.1
    apply hypot_le_of_sq_le _ _ _ _ hM.le
    have hs2 : hypot vx0 vy0 ^ 2 = vx0 ^ 2 + vy0 ^ 2 := hypot_sq _ _
    have hne : hypot vx0 vy0 ≠ 0 := ne_of_gt hsp
    have : (vx0 * (r.max_speed / hypot vx0 vy0)) ^ 2 +
           (vy0 * (r.max_speed / hypot vx0 vy0)) ^ 2 =
           (vx0 ^ 2 + vy0 ^ 2) * r.max_speed ^ 2 / hypot vx0 vy0 ^ 2 := by
      field_simp
      ring
    rw [this, hs2]
    have hA : vx0 ^ 2 + vy0 ^ 2 ≠ 0 := by
      rw [← hs2]
      exact pow_ne_zero 2 hne
    rw [mul_comm, mul_div_assoc, div_self hA, mul_one]
  · rw [if_neg h]
    apply hypot_le_of_sq_le _ _ _ _ hM.le
    have hsp : hypot vx0 vy0 ≤ r.max_speed := by
      rcases not_and_or.mp h with h1 | h2
      · exact le_of_not_lt h1
      · exact absurd hM (by simpa using h2)
    exact sq_le_of_hypot_le _ _ _ hsp

/-- The acceleration scale is in `[0, 1]`. -/
theorem Robot.accel_scale_mem (r : Robot) (dt : ℝ) :
    0 ≤ r.accel_scale dt ∧ r.accel_scale dt ≤ 1 := by
  unfold Robot.accel_scale
  set dv := hypot ((r.vel_target dt).1 - r.vx) ((r.vel_target dt).2 - r.vy) with hdv
  by_cases h : dv > r.max_accel * dt ∧ r.max_accel * dt > 0
  · rw [if_pos h]
    have hdvp : 0 < dv := lt_trans h.2 h.1
    constructor
    · exact div_nonneg h.2.le hdvp.le
    · rw [div_le_one hdvp]
      exact h.1.le
  · rw [if_neg h]
    norm_num

/-- Scaling a vector by `M / ‖·‖` caps its norm at `M`. -/
theorem hypot_scale_le (vx vy M : ℝ) (hM : 0 ≤ M) (hsp : 0 < hypot vx vy) :
    hypot (vx * (M / hypot vx vy)) (vy * (M / hypot vx vy)) ≤ M := by
  apply hypot_le_of_sq_le _ _ _ _ hM
  have hs2 := hypot_sq vx vy
  have hne : hypot vx vy ≠ 0 := ne_of_gt hsp
  have hA : vx ^ 2 + vy ^ 2 ≠ 0 := by
    rw [← hs2]
    exact pow_ne_zero 2 hne
  have hrw : (vx * (M / hypot vx vy)) ^ 2 + (vy * (M / hypot vx vy)) ^ 2 =
      (vx ^ 2 + vy ^ 2) * M ^ 2 / hypot vx vy ^ 2 := by
    field_simp
    ring
  rw [hrw, hs2, mul_comm, mul_div_assoc, div_self hA, mul_one]

/-- The desired velocity stored by `command_velocity` has magnitude at most
`max_speed` (the `1e-9` dead-band needs `max_speed` at least that large). -/
theorem Robot.command_velocity_desired_le (r : Robot) (vx vy om : ℝ)
    (h : 1e-9 ≤ r.max_speed) :
    hypot (r.command_velocity vx vy om).desired_vx
          (r.command_velocity vx vy om).desired_vy ≤ r.max_speed := by
  unfold Robot.command_velocity
  dsimp only
  by_cases hc : hypot vx vy > 1e-9 ∧ hypot vx vy > r.max_speed
  · rw [if_pos hc, if_pos hc]
    exact hypot_scale_le vx vy r.max_speed (le_trans (by norm_num) h)
      (lt_trans (by norm_num) hc.1)
  · rw [if_neg hc, if_neg hc]
    rcases not_and_or.mp hc with h1 | h2
    · exact le_trans (le_of_not_lt h1) h
    · exact le_of_not_lt h2

/-- Speed preservation of the kinematics step: with a positive speed limit,
a robot at or below `max_speed` stays at or below it after `update`. -/
theorem Robot.update_speed_le (r : Robot) (dt : ℝ) (hM : 0 < r.max_speed)
    (hsp : r.speed ≤ r.max_speed) : (r.update dt).speed ≤ r.max_speed := by
  by_cases h0 : r.active = false ∨ dt ≤ 0
  · rw [Robot.update, if_pos h0]
    exact hsp
  · rw [Robot.update, if_neg h0]
    have hs := r.accel_scale_mem dt
    have ht := r.vel_target_le dt hM
    have hv : r.vx ^ 2 + r.vy ^ 2 ≤ r.max_speed ^ 2 := sq_le_of_hypot_le _ _ _ hsp
    have ht2 : (r.vel_target dt).1 ^ 2 + (r.vel_target dt).2 ^ 2 ≤ r.max_speed ^ 2 :=
      sq_le_of_hypot_le _ _ _ ht
    exact hypot_le_of_sq_le _ _ _ (convex_sq_bound _ _ _ _ _ _ hs.1 hs.2 hv ht2) hM.le

theorem wrap_pi_pi : wrap_pi π = -π := by
  unfold wrap_pi
  have : pymod (π + π) (2 * π) = 0 := by
    have hq : ⌊(π + π) / (2 * π)⌋ = 1 := by
      have : (π + π) / (2 * π) = 1 := by
        field_simp
        ring
      rw [this]
      exact Int.floor_one
    simp [pymod, hq]
    ring
  rw [this]
  ring

/-!  Lemmas about the interception-probability primitive. -/

/-- The `[0.8, 1.0] → [0, 1]` ramp stays in `[0, 1]`. -/
theorem ramp01_mem (x : ℝ) :
    0 ≤ linear_in_interval x 0.8 1.0 0 1 ∧ linear_in_interval x 0.8 1.0 0 1 ≤ 1 := by
  unfold linear_in_interval
  by_cases h0 : x ≤ 0.8
  · rw [if_pos h0]
    norm_num
  · rw [if_neg h0]
    by_cases h1 : x ≥ 1.0
    · rw [if_pos h1]
      norm_num
    · rw [if_neg h1]
      push_neg at h0 h1
      have key : 0 + (1 - 0) * (x - 0.8) / (1.0 - 0.8) = 5 * (x - 0.8) := by
        ring
      rw [key]
      constructor
      · linarith
      · linarith

/-- The `[0.8, 1.0] → [0, 1]` ramp is monotone. -/
theorem ramp01_mono (x y : ℝ) (hxy : x ≤ y) :
    linear_in_interval x 0.8 1.0 0 1 ≤ linear_in_interval y 0.8 1.0 0 1 := by
  have hx := ramp01_mem x
  have hy := ramp01_mem y
  unfold linear_in_interval
  by_cases hy0 : y ≤ 0.8
  · rw [if_pos (le_trans hxy hy0), if_pos hy0]
  · rw [if_neg hy0]
    by_cases hy1 : y ≥ 1.0
    · rw [if_pos hy1]
      have := (ramp01_mem x).2
      unfold linear_in_interval at this
      exact this
    · rw [if_neg hy1]
      push_neg at hy0 hy1
      have keyy : 0 + (1 - 0) * (y - 0.8) / (1.0 - 0.8) = 5 * (y - 0.8) := by
        ring
      by_cases hx0 : x ≤ 0.8
      · rw [if_pos hx0, keyy]
        linarith
      · have hx1 : ¬ x ≥ 1.0 := by
          push_neg
          linarith
        rw [if_neg hx0, if_neg hx1, keyy]
        push_neg at hx0
        have keyx : 0 + (1 - 0) * (x - 0.8) / (1.0 - 0.8) = 5 * (x - 0.8) := by
          ring
        rw [keyx]
        linarith

/-- Raising the opponents' assumed maximum speed never raises the
per-opponent quotient. -/
theorem interceptQuotient_anti (start cible : ℝ × ℝ) (L v_move v1 v2 centre_d t_react : ℝ)
    (q : ℝ × ℝ) (hv : v1 ≤ v2) :
    interceptQuotient start cible L v_move v2 centre_d t_react q ≤
    interceptQuotient start cible L v_move v1 centre_d t_react q := by
  unfold interceptQuotient
  set dt' := seg_point_distance start cible q with hdt'
  set d_eff := max 0 (dt'.1 - centre_d) with hde
  have hde0 : 0 ≤ d_eff := le_max_left _ _
  have hm1 : (0 : ℝ) < max 1e-6 v1 := lt_max_of_lt_left (by norm_num)
  have hm2 : max 1e-6 v1 ≤ max 1e-6 v2 := max_le_max le_rfl hv
  have hopp : d_eff / max 1e-6 v2 ≤ d_eff / max 1e-6 v1 :=
    div_le_div_of_nonneg_left hde0 hm1 hm2
  have hball : (0 : ℝ) ≤ max 1e-6 (dt'.2 * L / max 1e-6 v_move) :=
    le_max_of_le_left (by norm_num)
  apply div_le_div_of_nonneg_right ?_ hball
  linarith

theorem foldl_min_le_foldl_min (l : List (ℝ × ℝ)) (f g : (ℝ × ℝ) → ℝ) (a b : ℝ)
    (hab : a ≤ b) (hfg : ∀ p, f p ≤ g p) :
    (l.map f).foldl min a ≤ (l.map g).foldl min b := by
  induction l generalizing a b with
  | nil => simpa using hab
  | cons q qs ih =>
      simp only [List.map_cons, List.foldl_cons]
      exact ih _ _ (min_le_min hab (hfg q))

/-- The interception probability is always in `[0, 1]`. -/
theorem eval_succprob_mem (start cible : ℝ × ℝ) (ints : List (ℝ × ℝ))
    (vm vo cd tr : ℝ) :
    0 ≤ evaluate_success_probability_absence_interception start cible ints vm vo cd tr ∧
    evaluate_success_probability_absence_interception start cible ints vm vo cd tr ≤ 1 := by
  unfold evaluate_success_probability_absence_interception
  by_cases hL : hypot (cible.1 - start.1) (cible.2 - start.2) ≤ 1e-9
  · rw [if_pos hL]
    norm_num
  · rw [if_neg hL]
    cases ints with
    | nil => exact ⟨zero_le_one, le_refl 1⟩
    | cons q qs => exact ramp01_mem _

/-- The interception probability is exactly 1 with no opponents. -/
theorem eval_succprob_empty (start cible : ℝ × ℝ) (vm vo cd tr : ℝ) :
    evaluate_success_probability_absence_interception start cible [] vm vo cd tr = 1 := by
  unfold evaluate_success_probability_absence_interception
  by_cases hL : hypot (cible.1 - start.1) (cible.2 - start.2) ≤ 1e-9
  · rw [if_pos hL]
  · rw [if_neg hL]
    rfl

/-- The interception probability is exactly 1 for a degenerate segment. -/
theorem eval_succprob_self (start : ℝ × ℝ) (ints : List (ℝ × ℝ)) (vm vo cd tr : ℝ) :
    evaluate_success_probability_absence_interception start start ints vm vo cd tr = 1 := by
  unfold evaluate_success_probability_absence_interception
  rw [if_pos]
  have : hypot (start.1 - start.1) (start.2 - start.2) = 0 := by
    simp [hypot]
  rw [this]
  norm_num

/-- The interception probability never increases when the opponents'
assumed maximum speed increases. -/
theorem eval_succprob_anti (start cible : ℝ × ℝ) (ints : List (ℝ × ℝ))
    (vm v1 v2 cd tr : ℝ) (hv : v1 ≤ v2) :
    evaluate_success_probability_absence_interception start cible ints vm v2 cd tr ≤
    evaluate_success_probability_absence_interception start cible ints vm v1 cd tr := by
  unfold evaluate_success_probability_absence_interception
  by_cases hL : hypot (cible.1 - start.1) (cible.2 - start.2) ≤ 1e-9
  · rw [if_pos hL, if_pos hL]
  · rw [if_neg hL, if_neg hL]
    cases ints with
    | nil => exact le_refl _
    | cons q qs =>
        set L := hypot (cible.1 - start.1) (cible.2 - start.2) with hLd
        show linear_in_interval
            ((qs.map (interceptQuotient start cible L vm v2 cd tr)).foldl min
              (interceptQuotient start cible L vm v2 cd tr q)) 0.8 1.0 0 1 ≤
          linear_in_interval
            ((qs.map (interceptQuotient start cible L vm v1 cd tr)).foldl min
              (interceptQuotient start cible L vm v1 cd tr q)) 0.8 1.0 0 1
        apply ramp01_mono
        exact foldl_min_le_foldl_min qs _ _ _ _
          (interceptQuotient_anti start cible L vm v1 v2 cd tr q hv)
          (fun p => interceptQuotient_anti start cible L vm v1 v2 cd tr p hv)

/-- After an effective kinematics update the heading lies in `[-π, π)`. -/
theorem Robot.update_theta_mem (r : Robot) (dt : ℝ) (hact : r.active = true)
    (hdt : 0 < dt) : -π ≤ (r.update dt).theta ∧ (r.update dt).theta < π := by
  have h : ¬ (r.active = false ∨ dt ≤ 0) := by
    push_neg
    exact ⟨by simp [hact], by linarith⟩
  rw [Robot.update, if_neg h]
  exact wrap_pi_mem _

/-!  Lemmas about possession (claims C2, C3). -/

theorem firstIdx_none_iff (p : Robot → Bool) (l : List Robot) :
    firstIdx p l = none ↔ ∀ a ∈ l, p a = false := by
  induction l with
  | nil => simp [firstIdx]
  | cons r rest ih =>
      by_cases h : p r = true
      · simp [firstIdx, h]
      · have hf : p r = false := by
          simpa using h
        simp [firstIdx, if_neg h, Option.map_eq_none', ih, hf]

theorem firstIdx_some_spec (p : Robot → Bool) (l : List Robot) (i : ℕ)
    (h : firstIdx p l = some i) :
    ∃ a, l.get? i = some a ∧ p a = true ∧
      ∀ j, j < i → ∀ b, l.get? j = some b → p b = false := by
  induction l generalizing i with
  | nil => simp [firstIdx] at h
  | cons r rest ih =>
      by_cases hr : p r = true
      · rw [firstIdx, if_pos hr] at h
        cases h
        exact ⟨r, rfl, hr, fun j hj => absurd hj (Nat.not_lt_zero j)⟩
      · rw [firstIdx, if_neg hr] at h
        rcases Option.map_eq_some'.mp h with ⟨i', hi', rfl⟩
        rcases ih i' hi' with ⟨a, ha, hpa, hmin⟩
        refine ⟨a, ha, hpa, ?_⟩
        intro j hj b hb
        cases j with
        | zero =>
            have hrb : r = b := by
              simpa using hb
            subst hrb
            simpa using hr
        | succ j' =>
            exact hmin j' (Nat.lt_of_succ_lt_succ hj) b hb

theorem firstIdx_eq_some_of (p : Robot → Bool) (l : List Robot) (i : ℕ) (a : Robot)
    (ha : l.get? i = some a) (hpa : p a = true)
    (hmin : ∀ j, j < i → ∀ b, l.get? j = some b → p b = false) :
    firstIdx p l = some i := by
  induction l generalizing i with
  | nil => simp at ha
  | cons r rest ih =>
      cases i with
      | zero =>
          cases ha
          rw [firstIdx, if_pos hpa]
      | succ i' =>
          have hr : p r = false := hmin 0 (Nat.succ_pos i') r rfl
          rw [firstIdx, if_neg (by simp [hr])]
          rw [ih i' ha (fun j hj b hb => hmin (j + 1) (Nat.succ_lt_succ hj) b hb)]
          rfl

theorem acquireStep_good_none (w : World) (bx by_ : ℝ) (p : ℕ × Robot)
    (hg : p.2.active = true ∧ w.seesOn bx by_ p.2) :
    acquireStep w bx by_ none p = some (p.1, d2ball bx by_ p.2) := by
  unfold acquireStep
  rw [if_pos hg]

theorem acquireStep_good_some (w : World) (bx by_ : ℝ) (p : ℕ × Robot) (q : ℕ × ℝ)
    (hg : p.2.active = true ∧ w.seesOn bx by_ p.2) :
    acquireStep w bx by_ (some q) p =
      if d2ball bx by_ p.2 < q.2 then some (p.1, d2ball bx by_ p.2) else some q := by
  unfold acquireStep
  rw [if_pos hg]

theorem acquireStep_bad (w : World) (bx by_ : ℝ) (p : ℕ × Robot) (acc : Option (ℕ × ℝ))
    (hg : ¬ (p.2.active = true ∧ w.seesOn bx by_ p.2)) :
    acquireStep w bx by_ acc p = acc := by
  unfold acquireStep
  rw [if_neg hg]

/-- One `acquireStep` never turns a `some` accumulator into `none`. -/
theorem acquireStep_some (w : World) (bx by_ : ℝ) (p : ℕ × Robot) (q : ℕ × ℝ) :
    ∃ q', acquireStep w bx by_ (some q) p = some q' := by
  by_cases hg : p.2.active = true ∧ w.seesOn bx by_ p.2
  · rw [acquireStep_good_some w bx by_ p q hg]
    by_cases hlt : d2ball bx by_ p.2 < q.2
    · rw [if_pos hlt]
      exact ⟨_, rfl⟩
    · rw [if_neg hlt]
      exact ⟨_, rfl⟩
  · rw [acquireStep_bad w bx by_ p (some q) hg]
    exact ⟨q, rfl⟩

theorem acquire_fold_none (w : World) (bx by_ : ℝ) (ps : List (ℕ × Robot))
    (acc : Option (ℕ × ℝ)) (h : ps.foldl (acquireStep w bx by_) acc = none) :
    acc = none ∧ ∀ p ∈ ps, ¬ (p.2.active = true ∧ w.seesOn bx by_ p.2) := by
  induction ps generalizing acc with
  | nil => exact ⟨h, by simp⟩
  | cons p ps' ih =>
      rw [List.foldl_cons] at h
      rcases ih _ h with ⟨hstep, hall⟩
      have hng : ¬ (p.2.active = true ∧ w.seesOn bx by_ p.2) := by
        intro hg
        cases hacc : acc with
        | none =>
            rw [hacc, acquireStep_good_none w bx by_ p hg] at hstep
            exact Option.noConfusion hstep
        | some q =>
            rw [hacc, acquireStep_good_some w bx by_ p q hg] at hstep
            by_cases hlt : d2ball bx by_ p.2 < q.2
            · rw [if_pos hlt] at hstep
              exact Option.noConfusion hstep
            · rw [if_neg hlt] at hstep
              exact Option.noConfusion hstep
      have hacc : acc = none := by
        cases hacc : acc with
        | none => rfl
        | some q =>
            rw [hacc, acquireStep_bad w bx by_ p (some q) hng] at hstep
            exact Option.noConfusion hstep
      refine ⟨hacc, ?_⟩
      intro p' hp'
      rcases List.mem_cons.mp hp' with rfl | hp'
      · exact hng
      · exact hall p' hp'

theorem acquire_fold_some (w : World) (bx by_ : ℝ) (ps : List (ℕ × Robot))
    (acc : Option (ℕ × ℝ)) (ri : ℕ) (rd : ℝ)
    (h : ps.foldl (acquireStep w bx by_) acc = some (ri, rd)) :
    ((acc = some (ri, rd)) ∨
      ∃ p ∈ ps, p.1 = ri ∧ (p.2.active = true ∧ w.seesOn bx by_ p.2) ∧
        rd = d2ball bx by_ p.2) ∧
    (∀ p ∈ ps, p.2.active = true → w.seesOn bx by_ p.2 → rd ≤ d2ball bx by_ p.2) ∧
    (∀ i0 d0, acc = some (i0, d0) → rd ≤ d0) := by
  induction ps generalizing acc with
  | nil =>
      refine ⟨Or.inl h, by simp, ?_⟩
      intro i0 d0 h0
      rw [h0] at h
      cases h
      exact le_refl _
  | cons p ps' ih =>
      rw [List.foldl_cons] at h
      rcases ih _ h with ⟨hsrc, hmin', hacc'⟩
      by_cases hg : p.2.active = true ∧ w.seesOn bx by_ p.2
      · cases hacc : acc with
        | none =>
            have hstep := acquireStep_good_none w bx by_ p hg
            rw [hacc, hstep] at hsrc hacc'
            have hrd_le_p : rd ≤ d2ball bx by_ p.2 := hacc' p.1 (d2ball bx by_ p.2) rfl
            refine ⟨?_, ?_, ?_⟩
            · rcases hsrc with hL | ⟨p', hp', hi', hg', hd'⟩
              · cases hL
                exact Or.inr ⟨p, List.mem_cons_self p ps', rfl, hg, rfl⟩
              · exact Or.inr ⟨p', List.mem_cons.mpr (Or.inr hp'), hi', hg', hd'⟩
            · intro p' hp' hact hsee
              rcases List.mem_cons.mp hp' with rfl | hp'
              · exact hrd_le_p
              · exact hmin' p' hp' hact hsee
            · intro i0 d0 h0
              exact Option.noConfusion h0
        | some q =>
            have hstep := acquireStep_good_some w bx by_ p q hg
            rw [hacc, hstep] at hsrc hacc'
            by_cases hlt : d2ball bx by_ p.2 < q.2
            · rw [if_pos hlt] at hsrc hacc'
              have hrd_le_p : rd ≤ d2ball bx by_ p.2 :=
                hacc' p.1 (d2ball bx by_ p.2) rfl
              refine ⟨?_, ?_, ?_⟩
              · rcases hsrc with hL | ⟨p', hp', hi', hg', hd'⟩
                · cases hL
                  exact Or.inr ⟨p, List.mem_cons_self p ps', rfl, hg, rfl⟩
                · exact Or.inr ⟨p', List.mem_cons.mpr (Or.inr hp'), hi', hg', hd'⟩
              · intro p' hp' hact hsee
                rcases List.mem_cons.mp hp' with rfl | hp'
                · exact hrd_le_p
                · exact hmin' p' hp' hact hsee
              · intro i0 d0 h0
                have hq := Option.some.inj h0
                simpa [hq] using le_trans hrd_le_p hlt.le
            · rw [if_neg hlt] at hsrc hacc'
              have hrd_le_q : rd ≤ q.2 := hacc' q.1 q.2 rfl
              refine ⟨?_, ?_, ?_⟩
              · rcases hsrc with hL | ⟨p', hp', hi', hg', hd'⟩
                · exact Or.inl (hacc ▸ hL)
                · exact Or.inr ⟨p', List.mem_cons.mpr (Or.inr hp'), hi', hg', hd'⟩
              · intro p' hp' hact hsee
                rcases List.mem_cons.mp hp' with rfl | hp'
                · exact le_trans hrd_le_q (le_of_not_lt hlt)
                · exact hmin' p' hp' hact hsee
              · intro i0 d0 h0
                have hq := Option.some.inj h0
                simpa [hq] using hrd_le_q
      · rw [acquireStep_bad w bx by_ p acc hg] at hsrc hacc'
        refine ⟨?_, ?_, hacc'⟩
        · rcases hsrc with hL | ⟨p', hp', hi', hg', hd'⟩
          · exact Or.inl hL
          · exact Or.inr ⟨p', List.mem_cons.mpr (Or.inr hp'), hi', hg', hd'⟩
        · intro p' hp' hact hsee
          rcases List.mem_cons.mp hp' with rfl | hp'
          · exact absurd ⟨hact, hsee⟩ hg
          · exact hmin' p' hp' hact hsee

theorem enum_map_vals_get? (l : List (ℕ × Robot)) (g : ℕ → Robot → Robot) (i : ℕ) :
    ((l.enum.map (fun q => (q.2.1, g q.1 q.2.2))).map Prod.snd).get? i =
      ((l.map Prod.snd).get? i).map (g i) := by
  rw [List.get?_map, List.get?_map, List.get?_enum, List.get?_map]
  cases l.get? i <;> rfl

theorem map_vals_get? (l : List (ℕ × Robot)) (g : Robot → Robot) (i : ℕ) :
    ((l.map (fun p => (p.1, g p.2))).map Prod.snd).get? i =
      ((l.map Prod.snd).get? i).map g := by
  rw [List.get?_map, List.get?_map, List.get?_map]
  cases l.get? i <;> rfl

/-- The flag write of step 3: robot `i` of the combined list gets
`has_ball = (holder == i)`, everything else about it unchanged. -/
theorem setFlags_get? (w : World) (h : Option ℕ) (i : ℕ) :
    (w.setFlags h).allRobotVals.get? i =
      (w.allRobotVals.get? i).map
        (fun r => { r with has_ball := decide (h = some i) }) := by
  unfold World.setFlags World.allRobotVals Team.vals
  dsimp only
  have hlenL : ((w.team_left.robots.enum.map
      (fun q => (q.2.1, { q.2.2 with has_ball := decide (h = some q.1) }))).map
        Prod.snd).length = w.team_left.robots.length := by
    simp
  have hlenL0 : (w.team_left.robots.map Prod.snd).length = w.team_left.robots.length := by
    simp
  by_cases hi : i < w.team_left.robots.length
  · rw [List.get?_append (by rw [hlenL]; exact hi), List.get?_append (by rw [hlenL0]; exact hi)]
    exact enum_map_vals_get? w.team_left.robots
      (fun j r => { r with has_ball := decide (h = some j) }) i
  · rw [List.get?_append_right (by rw [hlenL]; exact le_of_not_lt hi),
        List.get?_append_right (by rw [hlenL0]; exact le_of_not_lt hi), hlenL, hlenL0]
    rw [enum_map_vals_get? w.team_right.robots
      (fun j r => { r with has_ball := decide (h = some (w.team_left.robots.length + j)) })
      (i - w.team_left.robots.length)]
    have : w.team_left.robots.length + (i - w.team_left.robots.length) = i :=
      Nat.add_sub_cancel' (le_of_not_lt hi)
    rw [this]

/-- The cooldown clear: every robot's `has_ball` is forced to `false`,
everything else unchanged. -/
theorem clearHasBall_get? (w : World) (i : ℕ) :
    w.clearHasBall.allRobotVals.get? i =
      (w.allRobotVals.get? i).map (fun r => { r with has_ball := false }) := by
  unfold World.clearHasBall World.allRobotVals Team.vals
  dsimp only
  have hlenL : ((w.team_left.robots.map
      (fun p => (p.1, { p.2 with has_ball := false }))).map Prod.snd).length =
        w.team_left.robots.length := by
    simp
  have hlenL0 : (w.team_left.robots.map Prod.snd).length = w.team_left.robots.length := by
    simp
  by_cases hi : i < w.team_left.robots.length
  · rw [List.get?_append (by rw [hlenL]; exact hi), List.get?_append (by rw [hlenL0]; exact hi)]
    exact map_vals_get? w.team_left.robots (fun r => { r with has_ball := false }) i
  · rw [List.get?_append_right (by rw [hlenL]; exact le_of_not_lt hi),
        List.get?_append_right (by rw [hlenL0]; exact le_of_not_lt hi), hlenL, hlenL0]
    exact map_vals_get? w.team_right.robots (fun r => { r with has_ball := false }) _

/-- With the cooldown not positive, the possession update only rewrites the
`has_ball` flags (robot-wise) according to `possessionHolder`; the ball
anchoring does not touch the robots. -/
theorem holderStep_robots (w0 : World) :
    (w0.holderStep).allRobotVals = (w0.setFlags w0.possessionHolder).allRobotVals := by
  unfold World.holderStep
  dsimp only
  cases hh : w0.possessionHolder with
  | none => rfl
  | some i =>
      dsimp only
      by_cases hs : (w0.setFlags (some i)).sticky_enabled = true
      · rw [if_pos hs]
        cases hget : w0.allRobotVals.get? i with
        | none => rfl
        | some hr => rfl
      · rw [if_neg hs]

theorem holderStep_ball_of_holder (w0 : World) (i : ℕ) (hr : Robot)
    (hh : w0.possessionHolder = some i) (hs : w0.sticky_enabled = true)
    (hget : w0.allRobotVals.get? i = some hr) :
    (w0.holderStep).ball = w0.anchoredBall hr := by
  unfold World.holderStep
  dsimp only
  rw [hh]
  dsimp only
  rw [if_pos (show (w0.setFlags (some i)).sticky_enabled = true from hs), hget]
  rfl

theorem holderStep_dims (w0 : World) :
    (w0.holderStep).field_w = w0.field_w ∧ (w0.holderStep).field_h = w0.field_h := by
  unfold World.holderStep
  dsimp only
  cases hh : w0.possessionHolder with
  | none => exact ⟨rfl, rfl⟩
  | some i =>
      dsimp only
      by_cases hs : (w0.setFlags (some i)).sticky_enabled = true
      · rw [if_pos hs]
        cases hget : w0.allRobotVals.get? i with
        | none => exact ⟨rfl, rfl⟩
        | some hr => exact ⟨rfl, rfl⟩
      · rw [if_neg hs]
        exact ⟨rfl, rfl⟩

/-- The three possible shapes of a possession update: cooldown-clear, or
the holder step on the cooldown-decremented world, or the holder step on
the unchanged world. -/
theorem possession_eq_cases (v : World) (dt : ℝ) :
    v.update_possession_and_anchor dt =
        ({ v with kick_cooldown := max 0 (v.kick_cooldown - dt) }).clearHasBall ∨
    v.update_possession_and_anchor dt =
        ({ v with kick_cooldown := max 0 (v.kick_cooldown - dt) }).holderStep ∨
    v.update_possession_and_anchor dt = v.holderStep := by
  unfold World.update_possession_and_anchor
  by_cases h1 : v.kick_cooldown > 0
  · rw [if_pos h1]
    dsimp only
    by_cases h2 : ({ v with kick_cooldown := max 0 (v.kick_cooldown - dt) } : World).kick_cooldown > 0
    · rw [if_pos h2]
      exact Or.inl rfl
    · rw [if_neg h2]
      exact Or.inr (Or.inl rfl)
  · rw [if_neg h1]
    dsimp only
    rw [if_neg h1]
    exact Or.inr (Or.inr rfl)

/-- The anchor geometry ignores the `has_ball` flag. -/
theorem dribble_anchor_flag (r : Robot) (b : Bool) (br g : ℝ) :
    ({ r with has_ball := b } : Robot).dribble_anchor br g = r.dribble_anchor br g := rfl

theorem anchoredBall_flag (u : World) (r : Robot) (b : Bool) :
    u.anchoredBall { r with has_ball := b } = u.anchoredBall r := by
  unfold World.anchoredBall
  rw [dribble_anchor_flag]

theorem anchoredBall_congr (v v' : World) (r : Robot)
    (hb : v.ball = v'.ball) (hfw : v.field_w = v'.field_w) (hfh : v.field_h = v'.field_h)
    (hsr : v.sticky_ball_radius = v'.sticky_ball_radius) (hsg : v.sticky_gap = v'.sticky_gap)
    (hscf : v.sticky_clip_field = v'.sticky_clip_field) :
    v.anchoredBall r = v'.anchoredBall r := by
  unfold World.anchoredBall World.stickyClipX World.stickyClipY World.half_w World.half_h
  rw [hb, hfw, hfh, hsr, hsg, hscf]

/-- If a robot ends the holder step flagged, the step's ball is exactly the
ball anchored at that robot. -/
theorem holderStep_flag_ball (u : World) (i : ℕ) (r' : Robot)
    (hi : u.holderStep.allRobotVals.get? i = some r') (hb : r'.has_ball = true)
    (hsu : u.sticky_enabled = true) :
    u.holderStep.ball = u.anchoredBall r' := by
  have hi2 := hi
  rw [holderStep_robots, setFlags_get?] at hi2
  rcases Option.map_eq_some'.mp hi2 with ⟨hr, hhr, hval⟩
  have hdec : u.possessionHolder = some i := by
    apply of_decide_eq_true
    rw [← hval] at hb
    exact hb
  rw [holderStep_ball_of_holder u i hr hdec hsu hhr, ← hval]
  exact (anchoredBall_flag u hr (decide (u.possessionHolder = some i))).symm

theorem possession_robots_eq (w : World) (dt : ℝ) (hkc : w.kick_cooldown ≤ 0) :
    (w.update_possession_and_anchor dt).allRobotVals =
      (w.setFlags w.possessionHolder).allRobotVals := by
  unfold World.update_possession_and_anchor
  rw [if_neg (not_lt.mpr hkc)]
  dsimp only
  rw [if_neg (not_lt.mpr hkc)]
  exact holderStep_robots w

theorem clampf_eq_self (x lo hi : ℝ) (h1 : lo ≤ x) (h2 : x ≤ hi) : clampf x lo hi = x := by
  unfold clampf
  rw [min_eq_right h2, max_eq_right h1]

theorem hypot_zero_zero : hypot (0 : ℝ) 0 = 0 := by
  rw [hypot]
  norm_num

theorem atan2_one_zero : atan2 1 0 = π / 2 := by
  unfold atan2
  exact Complex.arg_I

/-!  Claim theorems. -/

/-- C8, counterexample to the claimed range `(-π, π]`: the wrap of `π`
itself is `-π`, which is not greater than `-π`. -/
theorem C8_cex_wrap_pi_at_pi : wrap_pi π = -π ∧ ¬ (-π < wrap_pi π) := by
  refine ⟨wrap_pi_pi, ?_⟩
  rw [wrap_pi_pi]
  exact lt_irrefl _

/-- C8 (amended): for every real `θ` the wrap satisfies
`wrap θ ∈ [-π, π)` (half open on the `π` side, closed at `-π`) and is
idempotent; `set_pose` stores the wrapped angle, and after every effective
kinematics update (`active`, `dt > 0`) the heading lies in `[-π, π)`. -/
theorem C8_wrap_range_and_idem (a x y θ dt : ℝ) (r q : Robot)
    (hact : q.active = true) (hdt : 0 < dt) :
    (-π ≤ wrap_pi a ∧ wrap_pi a < π) ∧
    wrap_pi (wrap_pi a) = wrap_pi a ∧
    (r.set_pose x y θ).theta = wrap_pi θ ∧
    (-π ≤ (q.update dt).theta ∧ (q.update dt).theta < π) :=
  ⟨wrap_pi_mem a, wrap_pi_idem a, rfl, q.update_theta_mem dt hact hdt⟩

/-- Witness for C8 at concrete inputs. -/
theorem C8_wrap_range_and_idem_witness :
    (restRobot.active = true ∧ (0 : ℝ) < 1) ∧
    ((-π ≤ wrap_pi 7 ∧ wrap_pi 7 < π) ∧
     wrap_pi (wrap_pi 7) = wrap_pi 7 ∧
     (restRobot.set_pose 1 2 7).theta = wrap_pi 7 ∧
     (-π ≤ (restRobot.update 1).theta ∧ (restRobot.update 1).theta < π)) :=
  ⟨⟨rfl, by norm_num⟩, C8_wrap_range_and_idem 7 1 2 7 1 restRobot restRobot rfl (by norm_num)⟩

/-- Fields other than the two teams survive `enforce_no_overlap`. -/
theorem enforce_preserves (w : World) (rnd : Rnd) (it : ℕ) (c re li : ℝ) :
    (enforce_no_overlap w rnd it c re li).ball = w.ball ∧
    (enforce_no_overlap w rnd it c re li).kick_cooldown = w.kick_cooldown ∧
    (enforce_no_overlap w rnd it c re li).field_w = w.field_w ∧
    (enforce_no_overlap w rnd it c re li).field_h = w.field_h ∧
    (enforce_no_overlap w rnd it c re li).t = w.t ∧
    (enforce_no_overlap w rnd it c re li).sticky_enabled = w.sticky_enabled ∧
    (enforce_no_overlap w rnd it c re li).sticky_ball_radius = w.sticky_ball_radius ∧
    (enforce_no_overlap w rnd it c re li).sticky_gap = w.sticky_gap ∧
    (enforce_no_overlap w rnd it c re li).sticky_clip_field = w.sticky_clip_field := by
  unfold enforce_no_overlap World.setAllVals
  dsimp only
  by_cases hn : (w.allRobotVals.filter (fun r => r.active)).length ≤ 1
  · rw [if_pos hn]
    exact ⟨rfl, rfl, rfl, rfl, rfl, rfl, rfl, rfl, rfl⟩
  · rw [if_neg hn]
    exact ⟨rfl, rfl, rfl, rfl, rfl, rfl, rfl, rfl, rfl⟩

/-- During a still-positive cooldown the possession update only decrements
the cooldown and clears every flag; the ball is untouched. -/
theorem possession_cooldown (v : World) (dt : ℝ) (hpos : 0 < v.kick_cooldown)
    (hstill : 0 < v.kick_cooldown - dt) :
    v.update_possession_and_anchor dt =
      ({ v with kick_cooldown := v.kick_cooldown - dt }).clearHasBall := by
  unfold World.update_possession_and_anchor
  rw [if_pos hpos]
  dsimp only
  rw [max_eq_right hstill.le]
  rw [if_pos hstill]

/-- The shape of an effective `World.update` tick. -/
theorem update_shape (w : World) (dt : ℝ) (rnd : Rnd) (h1 : 0 < dt) :
    World.update w dt rnd =
      (let w3 := (enforce_no_overlap
          { w with team_left := w.team_left.update dt,
                   team_right := w.team_right.update dt } rnd 6 0.01 0 0.10).update_possession_and_anchor dt
       { w3 with ball := w3.ball.update dt w3.half_w w3.half_h, t := w3.t + dt }) := by
  unfold World.update
  rw [if_neg (not_le.mpr h1)]

theorem hypot_one_zero : hypot 1 0 = 1 := by
  rw [hypot, show ((1 : ℝ) ^ 2 + (0 : ℝ) ^ 2) = 1 by norm_num, Real.sqrt_one]

theorem clampf_zero (a : ℝ) (ha : 0 ≤ a) : clampf 0 (-a) a = 0 := by
  unfold clampf
  rw [min_eq_right ha, max_eq_right (neg_nonpos.mpr ha)]

/-- A robot whose desired command equals its current velocities (and whose
state respects the limits) just translates: velocities unchanged, pose
integrated, all other fields untouched. -/
theorem Robot.update_steady (r : Robot) (dt : ℝ) (hcond : ¬ (r.active = false ∨ dt ≤ 0))
    (hvx : r.desired_vx = r.vx) (hvy : r.desired_vy = r.vy) (hw : r.desired_omega = r.omega)
    (hsp : ¬ (hypot r.vx r.vy > r.max_speed ∧ r.max_speed > 0))
    (hw2 : -r.max_omega ≤ r.omega) (hw3 : r.omega ≤ r.max_omega)
    (ha : 0 ≤ r.max_alpha * dt) :
    (r.update dt).x = r.x + r.vx * dt ∧ (r.update dt).y = r.y + r.vy * dt ∧
    (r.update dt).vx = r.vx ∧ (r.update dt).vy = r.vy ∧
    (r.update dt).omega = r.omega ∧
    (r.update dt).theta = wrap_pi (r.theta + r.omega * dt) ∧
    (r.update dt).has_ball = r.has_ball ∧ (r.update dt).active = r.active ∧
    (r.update dt).side_len = r.side_len ∧ (r.update dt).desired_vx = r.desired_vx ∧
    (r.update dt).desired_vy = r.desired_vy ∧
    (r.update dt).desired_omega = r.desired_omega := by
  have htgt : r.vel_target dt = (r.vx, r.vy) := by
    unfold Robot.vel_target
    dsimp only
    rw [hvx, hvy, show r.vx + alphaOf r.tau_v dt * (r.vx - r.vx) = r.vx by ring,
        show r.vy + alphaOf r.tau_v dt * (r.vy - r.vy) = r.vy by ring]
    rw [if_neg hsp]
  have hs : r.accel_scale dt = 1 := by
    unfold Robot.accel_scale
    rw [htgt]
    dsimp only
    rw [show r.vx - r.vx = 0 by ring, show r.vy - r.vy = 0 by ring, hypot_zero_zero]
    rw [if_neg]
    rintro ⟨hgt, hpos⟩
    linarith
  have homega' : r.omega + clampf
      (clampf (r.omega + alphaOf r.tau_w dt * (r.desired_omega - r.omega))
        (-r.max_omega) r.max_omega - r.omega)
      (-(r.max_alpha * dt)) (r.max_alpha * dt) = r.omega := by
    rw [hw, show r.omega + alphaOf r.tau_w dt * (r.omega - r.omega) = r.omega by ring,
        clampf_eq_self _ _ _ hw2 hw3, sub_self, clampf_zero _ ha, add_zero]
  have hvx' : r.vx + r.accel_scale dt * ((r.vel_target dt).1 - r.vx) = r.vx := by
    rw [htgt, hs]
    ring
  have hvy' : r.vy + r.accel_scale dt * ((r.vel_target dt).2 - r.vy) = r.vy := by
    rw [htgt, hs]
    ring
  rw [Robot.update, if_neg hcond]
  refine ⟨?_, ?_, ?_, ?_, ?_, ?_, ?_, ?_, ?_, ?_, ?_, ?_⟩
  · show r.x + (r.vx + r.accel_scale dt * ((r.vel_target dt).1 - r.vx)) * dt = r.x + r.vx * dt
    rw [hvx']
  · show r.y + (r.vy + r.accel_scale dt * ((r.vel_target dt).2 - r.vy)) * dt = r.y + r.vy * dt
    rw [hvy']
  · exact hvx'
  · exact hvy'
  · exact homega'
  · show wrap_pi (r.theta + (r.omega + clampf _ _ _) * dt) = wrap_pi (r.theta + r.omega * dt)
    rw [homega']
  · rfl
  · rfl
  · rfl
  · rfl
  · rfl
  · rfl

theorem zipWith_fst_snd (l1 : List (ℕ × Robot)) (l2 : List Robot)
    (hlen : l2.length ≤ l1.length) :
    (List.zipWith (fun p v => (p.1, v)) l1 l2).map Prod.snd = l2 := by
  induction l1 generalizing l2 with
  | nil =>
      cases l2 with
      | nil => rfl
      | cons b bs => simp at hlen
  | cons a as ih =>
      cases l2 with
      | nil => rfl
      | cons b bs =>
          show b :: (List.zipWith (fun p v => (p.1, v)) as bs).map Prod.snd = b :: bs
          rw [ih bs (by simpa using hlen)]

/-- Writing back a value list of the right length yields exactly that
list. -/
theorem setAllVals_vals (w : World) (vals : List Robot)
    (hlen : vals.length = w.allRobotVals.length) :
    (w.setAllVals vals).allRobotVals = vals := by
  unfold World.allRobotVals Team.vals at hlen
  unfold World.setAllVals World.allRobotVals Team.vals
  dsimp only
  rw [List.length_append, List.length_map, List.length_map] at hlen
  rw [zipWith_fst_snd _ _ (by
        rw [List.length_take]
        exact le_trans (min_le_left _ _) (le_refl _)),
      zipWith_fst_snd _ _ (by
        rw [List.length_drop, hlen]
        omega),
      List.take_append_drop]

/-- `enforce_no_overlap` on a world with exactly one (active) robot just
clamps it inside the field. -/
theorem enforce_single (w : World) (r : Robot) (rnd : Rnd) (it : ℕ) (c re li : ℝ)
    (hc : w.allRobotVals = [r]) (hact : r.active = true) :
    (enforce_no_overlap w rnd it c re li).allRobotVals =
      [clamp_robot_inside_field w.half_w w.half_h r] := by
  unfold enforce_no_overlap
  dsimp only
  rw [hc]
  have hfilter : List.filter (fun q => q.active) [r] = [r] := by
    simp [List.filter, hact]
  rw [hfilter]
  rw [if_pos (by norm_num)]
  rw [show List.map (fun q => if q.active then clamp_robot_inside_field w.half_w w.half_h q
        else q) [r] = [clamp_robot_inside_field w.half_w w.half_h r] by simp [hact]]
  apply setAllVals_vals
  rw [hc]
  rfl

/-- Deterministic stand-in for the random stream (irrelevant for worlds
with at most one active robot). -/
def rnd0 : Rnd := ⟨fun _ => [], fun _ _ _ => 0⟩

/-- A robot translating at 1 m/s whose command equals its velocity. -/
def haltRobot : Robot := { robot_id := 1, vx := 1, desired_vx := 1 }

/-- A world in the `halt` state with one moving robot and the ball far
away. -/
def haltWorld : World :=
  { state := GameState.halt,
    ball := { x := 5, y := 5 },
    team_left := { team_id := 0, robots := [(1, haltRobot)] } }

/-- First stage of the halt-world tick (robot kinematics). -/
def haltW1 : World :=
  { haltWorld with team_left := haltWorld.team_left.update 0.1,
                   team_right := haltWorld.team_right.update 0.1 }

/-- Second stage of the halt-world tick (overlap resolution). -/
def haltW2 : World := enforce_no_overlap haltW1 rnd0 6 0.01 0 0.10

theorem haltRobot_update_facts :
    (haltRobot.update 0.1).x = 0.1 ∧ (haltRobot.update 0.1).active = true ∧
    (haltRobot.update 0.1).theta = 0 ∧ (haltRobot.update 0.1).side_len = 0.45 := by
  have hcond : ¬ (haltRobot.active = false ∨ (0.1 : ℝ) ≤ 0) := by
    rintro (h | h)
    · exact Bool.noConfusion h
    · norm_num at h
  have hsp : ¬ (hypot haltRobot.vx haltRobot.vy > haltRobot.max_speed ∧
      haltRobot.max_speed > 0) := by
    intro h
    have h1 : hypot 1 0 > (2.5 : ℝ) := h.1
    rw [hypot_one_zero] at h1
    norm_num at h1
  obtain ⟨hx, hy, hvx, hvy, hom, hth, hhb, hac, hsl, h10, h11, h12⟩ :=
    Robot.update_steady haltRobot 0.1 hcond rfl rfl rfl hsp
      (by show -(6.0 : ℝ) ≤ 0; norm_num) (by show (0 : ℝ) ≤ 6.0; norm_num)
      (by show (0 : ℝ) ≤ 20.0 * 0.1; norm_num)
  refine ⟨?_, ?_, ?_, ?_⟩
  · rw [hx]
    show (0 : ℝ) + 1 * 0.1 = 0.1
    norm_num
  · rw [hac]
    rfl
  · rw [hth, show haltRobot.theta + haltRobot.omega * 0.1 = 0 by
      show (0 : ℝ) + 0 * 0.1 = 0
      norm_num]
    exact wrap_pi_zero
  · rw [hsl]
    rfl

/-- C4, the code at the failing input: `halt()` sets the match state but
`World.update` never consults it — a tick in the `halt` state still
integrates robot kinematics, moving the robot from `x = 0` to `x = 0.1`,
contradicting the claim (and the `halt` docstring "keep positions, pause
logic time"). -/
theorem C4_halt_not_frozen :
    (∀ v : World, (World.halt v).state = GameState.halt) ∧
    haltWorld.state = GameState.halt ∧
    (haltWorld.allRobotVals.get? 0).map Robot.x = some 0 ∧
    ((World.update haltWorld 0.1 rnd0).allRobotVals.get? 0).map Robot.x = some 0.1 := by
  obtain ⟨hx1, hact1, hth1, hsl1⟩ := haltRobot_update_facts
  refine ⟨fun v => rfl, rfl, rfl, ?_⟩
  have hc1 : haltW1.allRobotVals = [haltRobot.update 0.1] := rfl
  have henf : haltW2.allRobotVals =
      [clamp_robot_inside_field haltW1.half_w haltW1.half_h (haltRobot.update 0.1)] :=
    enforce_single haltW1 (haltRobot.update 0.1) rnd0 6 0.01 0 0.10 hc1 hact1
  have hkc2 : haltW2.kick_cooldown ≤ 0 := by
    have h := (enforce_preserves haltW1 rnd0 6 0.01 0 0.10).2.1
    have h0 : haltW2.kick_cooldown = (0 : ℝ) := h
    rw [h0]
  have hrcx : (clamp_robot_inside_field haltW1.half_w haltW1.half_h
      (haltRobot.update 0.1)).x = 0.1 := by
    show clampf (haltRobot.update 0.1).x
        (-haltW1.half_w + ((haltRobot.update 0.1).half_extents_xy).1)
        (haltW1.half_w - ((haltRobot.update 0.1).half_extents_xy).1) = 0.1
    have he : ((haltRobot.update 0.1).half_extents_xy).1 = 0.225 := by
      unfold Robot.half_extents_xy Robot.half_side
      dsimp only
      rw [hth1, hsl1, Real.cos_zero, Real.sin_zero]
      norm_num
    have hw1 : haltW1.half_w = 11 := by
      show (0.5 : ℝ) * 22 = 11
      norm_num
    rw [he, hw1, hx1]
    apply clampf_eq_self
    · norm_num
    · norm_num
  rw [update_shape haltWorld 0.1 rnd0 (by norm_num)]
  show (((haltW2.update_possession_and_anchor 0.1).allRobotVals.get? 0).map Robot.x) =
    some 0.1
  rw [possession_robots_eq haltW2 0.1 hkc2, setFlags_get?, henf]
  show some ((clamp_robot_inside_field haltW1.half_w haltW1.half_h
      (haltRobot.update 0.1)).x) = some (0.1 : ℝ)
  rw [hrcx]

/-- Used by the C3 witness: a world whose left team has one robot with
id 1. -/
def shooterWorld : World :=
  { team_left := { team_id := 0, side := Side.left, robots := [(1, { robot_id := 1 })] } }

/-- Used by the C3 witness: a world already in cooldown. -/
def cooldownWorld : World := { kick_cooldown := 0.25 }

/-- C3: `exec_shoot` and `exec_pass` both set the kick cooldown to the
positive duration 0.25 s, and on every `World.update` tick on which the
cooldown is still positive after its decrement, every robot's `has_ball`
is cleared and the ball is not anchored — it undergoes plain free-flight
integration of its pre-tick state; the cooldown decreases by exactly `dt`,
so no robot can acquire the ball before it reaches 0. -/
theorem C3_cooldown_blocks_capture (w v : World) (side : Side) (rid : ℕ) (speed : ℝ)
    (to_xy : ℝ × ℝ) (r : Robot) (dt : ℝ) (rnd : Rnd)
    (hr : (match side with
           | Side.left => v.team_left
           | Side.right => v.team_right).robots.lookup rid = some r)
    (h1 : 0 < dt) (h2 : dt < w.kick_cooldown) :
    (exec_shoot v side rid speed).kick_cooldown = 0.25 ∧
    (exec_pass v side rid to_xy speed).kick_cooldown = 0.25 ∧
    (∀ r' ∈ (World.update w dt rnd).allRobotVals, r'.has_ball = false) ∧
    (World.update w dt rnd).ball = w.ball.update dt w.half_w w.half_h ∧
    (World.update w dt rnd).kick_cooldown = w.kick_cooldown - dt := by
  have hshoot : (exec_shoot v side rid speed).kick_cooldown = 0.25 := by
    unfold exec_shoot
    cases side <;> (dsimp only at hr ⊢; rw [hr])
  have hpass : (exec_pass v side rid to_xy speed).kick_cooldown = 0.25 := by
    unfold exec_pass
    cases side <;> (dsimp only at hr ⊢; rw [hr])
  refine ⟨hshoot, hpass, ?_⟩
  have hpre := enforce_preserves
    { w with team_left := w.team_left.update dt, team_right := w.team_right.update dt }
    rnd 6 0.01 0 0.10
  set enf := enforce_no_overlap
    { w with team_left := w.team_left.update dt, team_right := w.team_right.update dt }
    rnd 6 0.01 0 0.10 with henf
  have hkc2 : enf.kick_cooldown = w.kick_cooldown := hpre.2.1
  have hball2 : enf.ball = w.ball := hpre.1
  have hfw : enf.field_w = w.field_w := hpre.2.2.1
  have hfh : enf.field_h = w.field_h := hpre.2.2.2.1
  have h0 : 0 < enf.kick_cooldown := by
    rw [hkc2]
    linarith
  have hst : 0 < enf.kick_cooldown - dt := by
    rw [hkc2]
    linarith
  have hposs := possession_cooldown enf dt h0 hst
  rw [update_shape w dt rnd h1]
  dsimp only
  rw [← henf, hposs]
  refine ⟨?_, ?_, ?_⟩
  · intro r' hr'
    have hmem : r' ∈ (({ enf with kick_cooldown := enf.kick_cooldown - dt }).clearHasBall).allRobotVals := hr'
    rcases List.mem_iff_get?.mp hmem with ⟨i, hi⟩
    rw [clearHasBall_get?] at hi
    rcases Option.map_eq_some'.mp hi with ⟨r0, hr0, hval⟩
    rw [← hval]
  · show ((({ enf with kick_cooldown := enf.kick_cooldown - dt }).clearHasBall).ball).update dt
        (({ enf with kick_cooldown := enf.kick_cooldown - dt }).clearHasBall).half_w
        (({ enf with kick_cooldown := enf.kick_cooldown - dt }).clearHasBall).half_h =
      w.ball.update dt w.half_w w.half_h
    have e1 : (({ enf with kick_cooldown := enf.kick_cooldown - dt }).clearHasBall).ball =
        w.ball := hball2
    have e2 : (({ enf with kick_cooldown := enf.kick_cooldown - dt }).clearHasBall).half_w =
        w.half_w := by
      unfold World.half_w
      show 0.5 * enf.field_w = 0.5 * w.field_w
      rw [hfw]
    have e3 : (({ enf with kick_cooldown := enf.kick_cooldown - dt }).clearHasBall).half_h =
        w.half_h := by
      unfold World.half_h
      show 0.5 * enf.field_h = 0.5 * w.field_h
      rw [hfh]
    rw [e1, e2, e3]
  · show enf.kick_cooldown - dt = w.kick_cooldown - dt
    rw [hkc2]

/-- Witness for C3 at concrete inputs. -/
theorem C3_cooldown_blocks_capture_witness :
    ((match Side.left with
      | Side.left => shooterWorld.team_left
      | Side.right => shooterWorld.team_right).robots.lookup 1 =
        some ({ robot_id := 1 } : Robot) ∧
     (0 : ℝ) < 0.1 ∧ (0.1 : ℝ) < cooldownWorld.kick_cooldown) ∧
    ((exec_shoot shooterWorld Side.left 1 7.5).kick_cooldown = 0.25 ∧
     (exec_pass shooterWorld Side.left 1 (1, 1) 6).kick_cooldown = 0.25 ∧
     (∀ r' ∈ (World.update cooldownWorld 0.1 ⟨fun _ => [], fun _ _ _ => 0⟩).allRobotVals,
        r'.has_ball = false) ∧
     (World.update cooldownWorld 0.1 ⟨fun _ => [], fun _ _ _ => 0⟩).ball =
       cooldownWorld.ball.update 0.1 cooldownWorld.half_w cooldownWorld.half_h ∧
     (World.update cooldownWorld 0.1 ⟨fun _ => [], fun _ _ _ => 0⟩).kick_cooldown =
       cooldownWorld.kick_cooldown - 0.1) := by
  have hr : (match Side.left with
      | Side.left => shooterWorld.team_left
      | Side.right => shooterWorld.team_right).robots.lookup 1 =
        some ({ robot_id := 1 } : Robot) := rfl
  have hd1 : (0 : ℝ) < 0.1 := by norm_num
  have hd2 : (0.1 : ℝ) < cooldownWorld.kick_cooldown := by
    show (0.1 : ℝ) < 0.25
    norm_num
  exact ⟨⟨hr, hd1, hd2⟩,
    C3_cooldown_blocks_capture cooldownWorld shooterWorld Side.left 1 7.5 (1, 1)
      { robot_id := 1 } 0.1 ⟨fun _ => [], fun _ _ _ => 0⟩ hr hd1 hd2⟩

/-- C2: with no (positive) kick cooldown, possession is decided by
hysteresis over the combined robot list (both teams, iteration order):
(i) at most one robot ends the update with `has_ball`;
(ii) the first robot already holding the ball and still inside the wide
"off" cone remains holder;
(iii) if no current holder qualifies, any robot flagged afterwards is an
active robot inside the narrow "on" cone at minimal squared distance to
the ball;
(iv) if nobody qualifies at all, nobody is flagged;
(v) if no current holder qualifies but some active robot is inside the
"on" cone, a holder exists. -/
theorem C2_possession_hysteresis (w : World) (dt : ℝ) (hkc : w.kick_cooldown ≤ 0) :
    (∀ i j ri rj,
       (w.update_possession_and_anchor dt).allRobotVals.get? i = some ri →
       (w.update_possession_and_anchor dt).allRobotVals.get? j = some rj →
       ri.has_ball = true → rj.has_ball = true → i = j) ∧
    (∀ i r, w.allRobotVals.get? i = some r → r.has_ball = true →
       w.seesOff w.ball.x w.ball.y r →
       (∀ j q, j < i → w.allRobotVals.get? j = some q →
          ¬ (q.has_ball = true ∧ w.seesOff w.ball.x w.ball.y q)) →
       ∀ r', (w.update_possession_and_anchor dt).allRobotVals.get? i = some r' →
         r'.has_ball = true) ∧
    ((∀ r ∈ w.allRobotVals, ¬ (r.has_ball = true ∧ w.seesOff w.ball.x w.ball.y r)) →
      ∀ i r', (w.update_possession_and_anchor dt).allRobotVals.get? i = some r' →
        r'.has_ball = true →
        ∃ r, w.allRobotVals.get? i = some r ∧ r.active = true ∧
          w.seesOn w.ball.x w.ball.y r ∧
          ∀ q ∈ w.allRobotVals, q.active = true → w.seesOn w.ball.x w.ball.y q →
            d2ball w.ball.x w.ball.y r ≤ d2ball w.ball.x w.ball.y q) ∧
    ((∀ r ∈ w.allRobotVals, ¬ (r.has_ball = true ∧ w.seesOff w.ball.x w.ball.y r)) →
     (∀ r ∈ w.allRobotVals, ¬ (r.active = true ∧ w.seesOn w.ball.x w.ball.y r)) →
     ∀ r' ∈ (w.update_possession_and_anchor dt).allRobotVals, r'.has_ball = false) ∧
    ((∀ r ∈ w.allRobotVals, ¬ (r.has_ball = true ∧ w.seesOff w.ball.x w.ball.y r)) →
     (∃ r ∈ w.allRobotVals, r.active = true ∧ w.seesOn w.ball.x w.ball.y r) →
     ∃ i r', (w.update_possession_and_anchor dt).allRobotVals.get? i = some r' ∧
       r'.has_ball = true) := by
  have hflag : ∀ i, (w.update_possession_and_anchor dt).allRobotVals.get? i =
      (w.allRobotVals.get? i).map
        (fun r => { r with has_ball := decide (w.possessionHolder = some i) }) := by
    intro i
    rw [possession_robots_eq w dt hkc, setFlags_get?]
  have hkeep_none : (∀ r ∈ w.allRobotVals,
      ¬ (r.has_ball = true ∧ w.seesOff w.ball.x w.ball.y r)) →
      w.keepHolder w.ball.x w.ball.y = none := by
    intro hno
    unfold World.keepHolder
    rw [firstIdx_none_iff]
    intro a ha
    rw [Bool.eq_false_iff]
    intro hpt
    rw [Bool.and_eq_true] at hpt
    exact hno a ha ⟨hpt.1, of_decide_eq_true hpt.2⟩
  refine ⟨?_, ?_, ?_, ?_, ?_⟩
  · -- (i) at most one holder
    intro i j ri rj hi hj hbi hbj
    rw [hflag i] at hi
    rw [hflag j] at hj
    rcases Option.map_eq_some'.mp hi with ⟨r1, hr1, hri⟩
    rcases Option.map_eq_some'.mp hj with ⟨r2, hr2, hrj⟩
    rw [← hri] at hbi
    rw [← hrj] at hbj
    have h1 : w.possessionHolder = some i := of_decide_eq_true hbi
    have h2 : w.possessionHolder = some j := of_decide_eq_true hbj
    exact Option.some.inj (h1 ▸ h2)
  · -- (ii) hysteresis keeps the first qualifying current holder
    intro i r hr hb hoff hmin r' hr'
    have hkeep : w.keepHolder w.ball.x w.ball.y = some i := by
      apply firstIdx_eq_some_of _ _ i r hr
      · rw [Bool.and_eq_true]
        exact ⟨hb, decide_eq_true hoff⟩
      · intro j hj b hbj
        rw [Bool.eq_false_iff]
        intro hpt
        rw [Bool.and_eq_true] at hpt
        exact hmin j b hj hbj ⟨hpt.1, of_decide_eq_true hpt.2⟩
    have hhold : w.possessionHolder = some i := by
      unfold World.possessionHolder
      rw [hkeep]
    rw [hflag i] at hr'
    rcases Option.map_eq_some'.mp hr' with ⟨r0, hr0, hval⟩
    rw [← hval]
    show decide (w.possessionHolder = some i) = true
    rw [hhold]
    simp
  · -- (iii) acquisition picks an active on-cone robot of minimal distance
    intro hno i r' hr' hb
    have hhold : w.possessionHolder = (w.acquireHolder w.ball.x w.ball.y).map Prod.fst := by
      unfold World.possessionHolder
      rw [hkeep_none hno]
    rw [hflag i] at hr'
    rcases Option.map_eq_some'.mp hr' with ⟨r0, hr0, hval⟩
    have hdec : w.possessionHolder = some i := by
      apply of_decide_eq_true
      rw [← hval] at hb
      exact hb
    rw [hhold] at hdec
    rcases Option.map_eq_some'.mp hdec with ⟨pr, hpr, hpr1⟩
    have hfold := acquire_fold_some w w.ball.x w.ball.y w.allRobotVals.enum none pr.1 pr.2
      (by simpa using hpr)
    rcases hfold.1 with hL | ⟨p, hpmem, hpi, hgood, hd⟩
    · simp at hL
    · have hget : w.allRobotVals.get? p.1 = some p.2 := List.mem_enum_iff_get?.mp hpmem
      have hip : p.1 = i := by
        rw [hpi, hpr1]
      refine ⟨p.2, by rw [← hip]; exact hget, hgood.1, hgood.2, ?_⟩
      intro q hq hact hsee
      rcases List.mem_iff_get?.mp hq with ⟨j, hj⟩
      have hqen : ((j, q) : ℕ × Robot) ∈ w.allRobotVals.enum :=
        List.mem_enum_iff_get?.mpr hj
      have := hfold.2.1 (j, q) hqen hact hsee
      rw [← hd]
      exact this
  · -- (iv) nobody qualifies, nobody holds
    intro hno hnoon r' hr'mem
    rcases List.mem_iff_get?.mp hr'mem with ⟨i, hi⟩
    rw [hflag i] at hi
    rcases Option.map_eq_some'.mp hi with ⟨r0, hr0, hval⟩
    rw [← hval]
    show decide (w.possessionHolder = some i) = false
    have hacq : w.acquireHolder w.ball.x w.ball.y = none := by
      cases hacq : w.acquireHolder w.ball.x w.ball.y with
      | none => rfl
      | some pr =>
          have hfold := acquire_fold_some w w.ball.x w.ball.y w.allRobotVals.enum none pr.1 pr.2
            (by simpa using hacq)
          rcases hfold.1 with hL | ⟨p, hpmem, _, hgood, _⟩
          · simp at hL
          · have hget : w.allRobotVals.get? p.1 = some p.2 :=
              List.mem_enum_iff_get?.mp hpmem
            have hmem : p.2 ∈ w.allRobotVals := List.mem_iff_get?.mpr ⟨p.1, hget⟩
            exact absurd hgood (hnoon p.2 hmem)
    have hnone : w.possessionHolder = none := by
      unfold World.possessionHolder
      rw [hkeep_none hno, hacq]
      rfl
    rw [hnone]
    simp
  · -- (v) a qualifying robot guarantees a holder
    rintro hno ⟨q, hqmem, hqgood⟩
    rcases List.mem_iff_get?.mp hqmem with ⟨j, hj⟩
    cases hacq : w.acquireHolder w.ball.x w.ball.y with
    | none =>
        have hall := (acquire_fold_none w w.ball.x w.ball.y w.allRobotVals.enum none
          hacq).2
        have hqen : ((j, q) : ℕ × Robot) ∈ w.allRobotVals.enum :=
          List.mem_enum_iff_get?.mpr hj
        exact absurd hqgood (hall (j, q) hqen)
    | some pr =>
        have hhold : w.possessionHolder = some pr.1 := by
          unfold World.possessionHolder
          rw [hkeep_none hno, hacq]
          rfl
        have hfold := acquire_fold_some w w.ball.x w.ball.y w.allRobotVals.enum none pr.1 pr.2
          (by simpa using hacq)
        rcases hfold.1 with hL | ⟨p, hpmem, hpi, hgood, hd⟩
        · simp at hL
        · have hget : w.allRobotVals.get? p.1 = some p.2 :=
            List.mem_enum_iff_get?.mp hpmem
          refine ⟨pr.1, { p.2 with has_ball := decide (w.possessionHolder = some pr.1) }, ?_, ?_⟩
          · rw [hflag pr.1, ← hpi, hget]
            rfl
          · show decide (w.possessionHolder = some pr.1) = true
            rw [hhold]
            simp

/-- Witness for C2 on the default world (cooldown 0). -/
theorem C2_possession_hysteresis_witness :
    (({} : World).kick_cooldown ≤ 0) ∧
    (∀ i j ri rj,
       (({} : World).update_possession_and_anchor 0.05).allRobotVals.get? i = some ri →
       (({} : World).update_possession_and_anchor 0.05).allRobotVals.get? j = some rj →
       ri.has_ball = true → rj.has_ball = true → i = j) := by
  have hkc : ({} : World).kick_cooldown ≤ 0 := by
    show (0 : ℝ) ≤ 0
    norm_num
  exact ⟨hkc, (C2_possession_hysteresis {} 0.05 hkc).1⟩

/-- C6: the interception-probability primitive always returns a value in
`[0, 1]`; it returns exactly 1 with no opponents and for a degenerate
segment (start = target); raising the opponents' assumed maximum speed
never raises it; and on a non-degenerate segment with opponents it is the
`[0.8, 1.0] → [0, 1]` linear ramp of the minimum per-opponent quotient of
opponent time to intercept over mover time to reach. -/
theorem C6_intercept_probability (start cible q : ℝ × ℝ) (qs ints : List (ℝ × ℝ))
    (vm v1 v2 cd tr : ℝ) (hv : v1 ≤ v2)
    (hL : ¬ hypot (cible.1 - start.1) (cible.2 - start.2) ≤ 1e-9) :
    (0 ≤ evaluate_success_probability_absence_interception start cible ints vm v1 cd tr ∧
     evaluate_success_probability_absence_interception start cible ints vm v1 cd tr ≤ 1) ∧
    evaluate_success_probability_absence_interception start cible [] vm v1 cd tr = 1 ∧
    evaluate_success_probability_absence_interception start start ints vm v1 cd tr = 1 ∧
    evaluate_success_probability_absence_interception start cible ints vm v2 cd tr ≤
      evaluate_success_probability_absence_interception start cible ints vm v1 cd tr ∧
    evaluate_success_probability_absence_interception start cible (q :: qs) vm v1 cd tr =
      linear_in_interval
        ((qs.map (interceptQuotient start cible
            (hypot (cible.1 - start.1) (cible.2 - start.2)) vm v1 cd tr)).foldl min
          (interceptQuotient start cible
            (hypot (cible.1 - start.1) (cible.2 - start.2)) vm v1 cd tr q)) 0.8 1.0 0 1 := by
  refine ⟨eval_succprob_mem start cible ints vm v1 cd tr,
          eval_succprob_empty start cible vm v1 cd tr,
          eval_succprob_self start ints vm v1 cd tr,
          eval_succprob_anti start cible ints vm v1 v2 cd tr hv, ?_⟩
  unfold evaluate_success_probability_absence_interception
  rw [if_neg hL]
  rfl

/-- Witness for C6 at concrete inputs (segment from the origin to `(1, 0)`,
one opponent at `(2, 3)`, opponent speeds 1 and 2). -/
theorem C6_intercept_probability_witness :
    ((1 : ℝ) ≤ 2 ∧ ¬ hypot ((1 : ℝ) - 0) ((0 : ℝ) - 0) ≤ 1e-9) ∧
    (0 ≤ evaluate_success_probability_absence_interception (0, 0) (1, 0) [(2, 3)] 1 1 0.35 0.1 ∧
     evaluate_success_probability_absence_interception (0, 0) (1, 0) [(2, 3)] 1 1 0.35 0.1 ≤ 1) := by
  have hL : ¬ hypot ((1 : ℝ) - 0) ((0 : ℝ) - 0) ≤ 1e-9 := by
    rw [hypot, show ((1 : ℝ) - 0) ^ 2 + ((0 : ℝ) - 0) ^ 2 = 1 by norm_num, Real.sqrt_one]
    norm_num
  exact ⟨⟨by norm_num, hL⟩,
    (C6_intercept_probability (0, 0) (1, 0) (5, 5) [] [(2, 3)] 1 1 2 0.35 0.1
      (by norm_num) hL).1⟩

/-- C7: `command_velocity` stores a desired velocity of magnitude at most
`max_speed` (given the limit is at least the `1e-9` dead band), and an
agent whose speed is at most its (positive) `max_speed` still respects the
bound after `Robot.update` — exactly, not merely within an `ε`. -/
theorem C7_speed_bound (r q : Robot) (vx vy om dt : ℝ)
    (h1 : 1e-9 ≤ r.max_speed) (h2 : 0 < q.max_speed) (h3 : 0 < dt)
    (h4 : q.speed ≤ q.max_speed) :
    hypot (r.command_velocity vx vy om).desired_vx
          (r.command_velocity vx vy om).desired_vy ≤ r.max_speed ∧
    (q.update dt).speed ≤ q.max_speed :=
  ⟨r.command_velocity_desired_le vx vy om h1, q.update_speed_le dt h2 h4⟩

/-- C10, counterexample to "clamped to max_rate": with `max_rate = 0.0`
given explicitly, `command_face_point` on the default robot towards
`(0, 1)` stores `desired_omega = 3π/2` — Python's `max_rate or max_omega`
treats the given `0.0` as falsy and clamps to `±max_omega` instead of
`±max_rate = 0`. -/
theorem C10_cex_zero_max_rate :
    (restRobot.command_face_point 0 1 3 (some 0)).desired_omega = 3 * (π / 2) ∧
    ¬ |(restRobot.command_face_point 0 1 3 (some 0)).desired_omega| ≤ 0 := by
  have harg : atan2 (1 - (0 : ℝ)) (0 - (0 : ℝ)) = π / 2 := by
    rw [show (1 - (0 : ℝ)) = 1 by norm_num, show (0 - (0 : ℝ)) = 0 by norm_num]
    exact atan2_one_zero
  have hwrap : wrap_pi (π / 2 - 0) = π / 2 := by
    rw [sub_zero]
    exact wrap_pi_eq_self _ (by linarith [Real.pi_pos]) (by linarith [Real.pi_pos])
  have hrate : pyOrRate (some 0) restRobot.max_omega = 6 := by
    show (if (0 : ℝ) = 0 then restRobot.max_omega else 0) = 6
    rw [if_pos rfl]
    show (6.0 : ℝ) = 6
    norm_num
  have hval : (restRobot.command_face_point 0 1 3 (some 0)).desired_omega = 3 * (π / 2) := by
    show clampf (3 * wrap_pi (atan2 (1 - (0 : ℝ)) (0 - (0 : ℝ)) - 0))
        (-(pyOrRate (some 0) restRobot.max_omega)) (pyOrRate (some 0) restRobot.max_omega) =
      3 * (π / 2)
    rw [harg, hwrap, hrate]
    exact clampf_eq_self _ _ _ (by nlinarith [Real.pi_pos]) (by nlinarith [Real.pi_le_four])
  refine ⟨hval, ?_⟩
  rw [hval, abs_of_pos (by positivity)]
  push_neg
  positivity

/-- C10 (amended): `command_face_point` writes only `desired_omega`
(pose, velocities and the linear desired commands are untouched), clamping
the proportional rate to `±max_rate` when a nonzero `max_rate` is given and
to `±max_omega` when `max_rate` is absent or zero (Python falsiness); and
`command_move_towards` with a target closer than `1e-6` commands zero
linear velocity, passing `desired_omega` through the `±max_omega` clamp —
preserved exactly when it is already within that range. -/
theorem C10_face_point_frame (r r2 : Robot) (tx ty kp tx2 ty2 : ℝ)
    (mr : Option ℝ) (sp : Option ℝ)
    (hd : hypot (tx2 - r2.x) (ty2 - r2.y) < 1e-6)
    (hw : |r2.desired_omega| ≤ r2.max_omega) :
    ((r.command_face_point tx ty kp mr).x = r.x ∧
     (r.command_face_point tx ty kp mr).y = r.y ∧
     (r.command_face_point tx ty kp mr).theta = r.theta ∧
     (r.command_face_point tx ty kp mr).vx = r.vx ∧
     (r.command_face_point tx ty kp mr).vy = r.vy ∧
     (r.command_face_point tx ty kp mr).omega = r.omega ∧
     (r.command_face_point tx ty kp mr).desired_vx = r.desired_vx ∧
     (r.command_face_point tx ty kp mr).desired_vy = r.desired_vy ∧
     (r.command_face_point tx ty kp mr).desired_omega =
       clampf (kp * wrap_pi (atan2 (ty - r.y) (tx - r.x) - r.theta))
         (-(pyOrRate mr r.max_omega)) (pyOrRate mr r.max_omega)) ∧
    ((r2.command_move_towards tx2 ty2 sp).desired_vx = 0 ∧
     (r2.command_move_towards tx2 ty2 sp).desired_vy = 0 ∧
     (r2.command_move_towards tx2 ty2 sp).desired_omega = r2.desired_omega) := by
  constructor
  · exact ⟨rfl, rfl, rfl, rfl, rfl, rfl, rfl, rfl, rfl⟩
  · unfold Robot.command_move_towards
    rw [if_pos hd]
    unfold Robot.command_velocity
    dsimp only
    have hb := abs_le.mp hw
    have hc : ¬ (hypot (0 : ℝ) 0 > 1e-9 ∧ hypot (0 : ℝ) 0 > r2.max_speed) := by
      rw [hypot_zero_zero]
      rintro ⟨h, -⟩
      norm_num at h
    refine ⟨?_, ?_, clampf_eq_self _ _ _ (by linarith [hb.1]) hb.2⟩
    · rw [if_neg hc]
    · rw [if_neg hc]

/-- Witness for C10 at concrete inputs (default robots; face `(3, 4)`,
move towards the robot's own position). -/
theorem C10_face_point_frame_witness :
    (hypot ((0 : ℝ) - restRobot.x) ((0 : ℝ) - restRobot.y) < 1e-6 ∧
     |restRobot.desired_omega| ≤ restRobot.max_omega) ∧
    ((restRobot.command_move_towards 0 0 none).desired_vx = 0 ∧
     (restRobot.command_move_towards 0 0 none).desired_vy = 0 ∧
     (restRobot.command_move_towards 0 0 none).desired_omega = restRobot.desired_omega) := by
  have hd : hypot ((0 : ℝ) - restRobot.x) ((0 : ℝ) - restRobot.y) < 1e-6 := by
    show hypot ((0 : ℝ) - 0) ((0 : ℝ) - 0) < 1e-6
    rw [show ((0 : ℝ) - 0) = 0 by norm_num, hypot_zero_zero]
    norm_num
  have hw : |restRobot.desired_omega| ≤ restRobot.max_omega := by
    show |(0 : ℝ)| ≤ (6.0 : ℝ)
    rw [abs_zero]
    norm_num
  exact ⟨⟨hd, hw⟩,
    (C10_face_point_frame restRobot restRobot 3 4 1 0 0 none none hd hw).2⟩

/-!  C1: the ball at the end of a tick with a holder. -/

/-- The world as it stands right before the possession step of an
effective tick: robot kinematics integrated, overlaps resolved. -/
def World.preBall (w : World) (dt : ℝ) (rnd : Rnd) : World :=
  enforce_no_overlap { w with team_left := w.team_left.update dt,
                              team_right := w.team_right.update dt } rnd 6 0.01 0 0.10

/-- `update_shape` with the intermediate world named. -/
theorem update_shape2 (w : World) (dt : ℝ) (rnd : Rnd) (h1 : 0 < dt) :
    World.update w dt rnd =
      { (w.preBall dt rnd).update_possession_and_anchor dt with
        ball := ((w.preBall dt rnd).update_possession_and_anchor dt).ball.update dt
                  ((w.preBall dt rnd).update_possession_and_anchor dt).half_w
                  ((w.preBall dt rnd).update_possession_and_anchor dt).half_h,
        t := ((w.preBall dt rnd).update_possession_and_anchor dt).t + dt } :=
  update_shape w dt rnd h1

/-- The possession step keeps the field dimensions. -/
theorem possession_dims (v : World) (dt : ℝ) :
    (v.update_possession_and_anchor dt).field_w = v.field_w ∧
    (v.update_possession_and_anchor dt).field_h = v.field_h := by
  rcases possession_eq_cases v dt with h | h | h
  · rw [h]
    exact ⟨rfl, rfl⟩
  · rw [h]
    exact holderStep_dims { v with kick_cooldown := max 0 (v.kick_cooldown - dt) }
  · rw [h]
    exact holderStep_dims v

/-- If a robot ends the possession step flagged and sticky mode is on, the
step's ball is the ball anchored at that robot (whatever the cooldown
did, since a flagged robot rules out the cooldown-clear branch). -/
theorem possession_flag_ball (v : World) (dt : ℝ) (i : ℕ) (r' : Robot)
    (hst : v.sticky_enabled = true)
    (hi : (v.update_possession_and_anchor dt).allRobotVals.get? i = some r')
    (hb : r'.has_ball = true) :
    (v.update_possession_and_anchor dt).ball = v.anchoredBall r' := by
  rcases possession_eq_cases v dt with h | h | h
  · rw [h] at hi
    rw [clearHasBall_get?] at hi
    rcases Option.map_eq_some'.mp hi with ⟨q, hq, hval⟩
    rw [← hval] at hb
    have hb2 : false = true := hb
    exact Bool.noConfusion hb2
  · rw [h] at hi ⊢
    exact (holderStep_flag_ball { v with kick_cooldown := max 0 (v.kick_cooldown - dt) }
        i r' hi hb hst).trans
      (anchoredBall_congr { v with kick_cooldown := max 0 (v.kick_cooldown - dt) } v r'
        rfl rfl rfl rfl rfl rfl)
  · rw [h] at hi ⊢
    exact holderStep_flag_ball v i r' hi hb hst

/-- The possession-cone configuration also survives `enforce_no_overlap`. -/
theorem enforce_preserves_cones (w : World) (rnd : Rnd) (it : ℕ) (c re li : ℝ) :
    (enforce_no_overlap w rnd it c re li).cone_dist_on = w.cone_dist_on ∧
    (enforce_no_overlap w rnd it c re li).cone_angle_on_deg = w.cone_angle_on_deg ∧
    (enforce_no_overlap w rnd it c re li).cone_dist_off = w.cone_dist_off ∧
    (enforce_no_overlap w rnd it c re li).cone_angle_off_deg = w.cone_angle_off_deg := by
  unfold enforce_no_overlap World.setAllVals
  dsimp only
  by_cases hn : (w.allRobotVals.filter (fun r => r.active)).length ≤ 1
  · rw [if_pos hn]
    exact ⟨rfl, rfl, rfl, rfl⟩
  · rw [if_neg hn]
    exact ⟨rfl, rfl, rfl, rfl⟩

theorem hypot_x_zero (x : ℝ) (hx : 0 ≤ x) : hypot x 0 = x := by
  rw [hypot, show x ^ 2 + (0 : ℝ) ^ 2 = x ^ 2 by ring, Real.sqrt_sq hx]

theorem atan2_zero_pos (x : ℝ) (hx : 0 < x) : atan2 0 x = 0 := by
  unfold atan2
  rw [show (⟨x, 0⟩ : ℂ) = (x : ℂ) from Complex.ext (by simp) (by simp)]
  exact Complex.arg_ofReal_of_nonneg hx.le

/-- `Ball.update` in `clip` mode when the integrated position stays inside
the shrunk field: the position is the plain Euler step. -/
theorem Ball.update_inside (b : Ball) (dt hw hh : ℝ) (hdt : 0 < dt)
    (hx1 : ¬ b.x + b.vx * dt > hw - b.radius) (hx2 : ¬ b.x + b.vx * dt < -(hw - b.radius))
    (hy1 : ¬ b.y + b.vy * dt > hh - b.radius) (hy2 : ¬ b.y + b.vy * dt < -(hh - b.radius)) :
    (b.update dt hw hh).x = b.x + b.vx * dt ∧ (b.update dt hw hh).y = b.y + b.vy * dt := by
  unfold Ball.update
  rw [if_neg (not_le.mpr hdt)]
  dsimp only
  rw [if_neg hx1, if_neg hx2, if_neg hy1, if_neg hy2]
  exact ⟨rfl, rfl⟩

/-- A robot with the ball, driving right at 1 m/s with a matching desired
command. -/
def moveRobot : Robot := { robot_id := 1, vx := 1, desired_vx := 1, has_ball := true }

/-- One holder robot at the origin, ball 0.4 m ahead of it (inside the wide
cone), everything else at the dataclass defaults. -/
def moveWorld : World :=
  { ball := { x := 0.4 },
    team_left := { team_id := 0, robots := [(1, moveRobot)] } }

/-- First stage of the tick (robot kinematics). -/
def moveW1 : World :=
  { moveWorld with team_left := moveWorld.team_left.update 0.1,
                   team_right := moveWorld.team_right.update 0.1 }

/-- Second stage of the tick (overlap resolution). -/
def moveW2 : World := enforce_no_overlap moveW1 rnd0 6 0.01 0 0.10

/-- The moved robot after the in-field clamp. -/
def mrc : Robot := clamp_robot_inside_field moveW1.half_w moveW1.half_h (moveRobot.update 0.1)

/-- The robot as it ends the tick: moved, clamped and flagged as holder. -/
def movedRobot : Robot := { mrc with has_ball := true }

theorem moveRobot_update_facts :
    (moveRobot.update 0.1).x = 0.1 ∧ (moveRobot.update 0.1).y = 0 ∧
    (moveRobot.update 0.1).theta = 0 ∧ (moveRobot.update 0.1).vx = 1 ∧
    (moveRobot.update 0.1).vy = 0 ∧ (moveRobot.update 0.1).omega = 0 ∧
    (moveRobot.update 0.1).side_len = 0.45 ∧ (moveRobot.update 0.1).active = true ∧
    (moveRobot.update 0.1).has_ball = true := by
  have hcond : ¬ (moveRobot.active = false ∨ (0.1 : ℝ) ≤ 0) := by
    rintro (h | h)
    · exact Bool.noConfusion h
    · norm_num at h
  have hsp : ¬ (hypot moveRobot.vx moveRobot.vy > moveRobot.max_speed ∧
      moveRobot.max_speed > 0) := by
    intro h
    have h1 : hypot 1 0 > (2.5 : ℝ) := h.1
    rw [hypot_one_zero] at h1
    norm_num at h1
  obtain ⟨hx, hy, hvx, hvy, hom, hth, hhb, hac, hsl, h10, h11, h12⟩ :=
    Robot.update_steady moveRobot 0.1 hcond rfl rfl rfl hsp
      (by show -(6.0 : ℝ) ≤ 0; norm_num) (by show (0 : ℝ) ≤ 6.0; norm_num)
      (by show (0 : ℝ) ≤ 20.0 * 0.1; norm_num)
  refine ⟨?_, ?_, ?_, ?_, ?_, ?_, ?_, ?_, ?_⟩
  · rw [hx]
    show (0 : ℝ) + 1 * 0.1 = 0.1
    norm_num
  · rw [hy]
    show (0 : ℝ) + 0 * 0.1 = 0
    norm_num
  · rw [hth, show moveRobot.theta + moveRobot.omega * 0.1 = 0 by
      show (0 : ℝ) + 0 * 0.1 = 0
      norm_num]
    exact wrap_pi_zero
  · rw [hvx]
    rfl
  · rw [hvy]
    rfl
  · rw [hom]
    rfl
  · rw [hsl]
    rfl
  · rw [hac]
    rfl
  · rw [hhb]
    rfl

theorem mrc_facts :
    mrc.x = 0.1 ∧ mrc.y = 0 ∧ mrc.theta = 0 ∧ mrc.vx = 1 ∧ mrc.vy = 0 ∧
    mrc.omega = 0 ∧ mrc.side_len = 0.45 ∧ mrc.active = true ∧ mrc.has_ball = true := by
  obtain ⟨hx, hy, hth, hvx, hvy, hom, hsl, hac, hhb⟩ := moveRobot_update_facts
  have he : ((moveRobot.update 0.1).half_extents_xy).1 = 0.225 := by
    unfold Robot.half_extents_xy Robot.half_side
    dsimp only
    rw [hth, hsl, Real.cos_zero, Real.sin_zero]
    norm_num
  have he2 : ((moveRobot.update 0.1).half_extents_xy).2 = 0.225 := by
    unfold Robot.half_extents_xy Robot.half_side
    dsimp only
    rw [hth, hsl, Real.cos_zero, Real.sin_zero]
    norm_num
  have hw1 : moveW1.half_w = 11 := by
    show (0.5 : ℝ) * 22 = 11
    norm_num
  have hh1 : moveW1.half_h = 7 := by
    show (0.5 : ℝ) * 14 = 7
    norm_num
  refine ⟨?_, ?_, hth, hvx, hvy, hom, hsl, hac, hhb⟩
  · show clampf (moveRobot.update 0.1).x
        (-moveW1.half_w + ((moveRobot.update 0.1).half_extents_xy).1)
        (moveW1.half_w - ((moveRobot.update 0.1).half_extents_xy).1) = 0.1
    rw [he, hw1, hx]
    apply clampf_eq_self <;> norm_num
  · show clampf (moveRobot.update 0.1).y
        (-moveW1.half_h + ((moveRobot.update 0.1).half_extents_xy).2)
        (moveW1.half_h - ((moveRobot.update 0.1).half_extents_xy).2) = 0
    rw [he2, hh1, hy]
    apply clampf_eq_self <;> norm_num

theorem moveW2_vals : moveW2.allRobotVals = [mrc] :=
  enforce_single moveW1 (moveRobot.update 0.1) rnd0 6 0.01 0 0.10 rfl
    moveRobot_update_facts.2.2.2.2.2.2.2.1

theorem moveW2_kc : moveW2.kick_cooldown ≤ 0 :=
  le_of_eq ((enforce_preserves moveW1 rnd0 6 0.01 0 0.10).2.1)

theorem moveW2_ball : moveW2.ball = moveWorld.ball :=
  (enforce_preserves moveW1 rnd0 6 0.01 0 0.10).1

theorem moveW2_sticky : moveW2.sticky_enabled = true :=
  (enforce_preserves moveW1 rnd0 6 0.01 0 0.10).2.2.2.2.2.1

theorem moveW2_sbr : moveW2.sticky_ball_radius = 0.11 :=
  (enforce_preserves moveW1 rnd0 6 0.01 0 0.10).2.2.2.2.2.2.1

theorem moveW2_sgap : moveW2.sticky_gap = 0.015 :=
  (enforce_preserves moveW1 rnd0 6 0.01 0 0.10).2.2.2.2.2.2.2.1

theorem moveW2_sclip : moveW2.sticky_clip_field = true :=
  (enforce_preserves moveW1 rnd0 6 0.01 0 0.10).2.2.2.2.2.2.2.2

theorem moveW2_fw : moveW2.field_w = 22 :=
  (enforce_preserves moveW1 rnd0 6 0.01 0 0.10).2.2.1

theorem moveW2_fh : moveW2.field_h = 14 :=
  (enforce_preserves moveW1 rnd0 6 0.01 0 0.10).2.2.2.1

theorem moveW2_coneOff : moveW2.cone_dist_off = 0.45 :=
  (enforce_preserves_cones moveW1 rnd0 6 0.01 0 0.10).2.2.1

theorem moveW2_coneOffAng : moveW2.cone_angle_off_deg = 60 :=
  (enforce_preserves_cones moveW1 rnd0 6 0.01 0 0.10).2.2.2

theorem moveW2_sees : moveW2.seesOff moveW2.ball.x moveW2.ball.y mrc := by
  obtain ⟨hmx, hmy, hmth, hmvx, hmvy, hmom, hmsl, hmact, hmhb⟩ := mrc_facts
  have hbx : moveW2.ball.x = 0.4 := by
    rw [moveW2_ball]
    rfl
  have hby : moveW2.ball.y = 0 := by
    rw [moveW2_ball]
    rfl
  constructor
  · show hypot (moveW2.ball.x - mrc.x) (moveW2.ball.y - mrc.y) ≤ moveW2.cone_dist_off
    rw [hbx, hby, hmx, hmy, moveW2_coneOff]
    rw [show (0.4 : ℝ) - 0.1 = 0.3 by norm_num, show (0 : ℝ) - 0 = 0 by norm_num,
        hypot_x_zero 0.3 (by norm_num)]
    norm_num
  · show |wrap_pi (atan2 (moveW2.ball.y - mrc.y) (moveW2.ball.x - mrc.x) - mrc.theta)| ≤
      radians moveW2.cone_angle_off_deg
    rw [hbx, hby, hmx, hmy, hmth]
    rw [show (0 : ℝ) - 0 = 0 by norm_num, show (0.4 : ℝ) - 0.1 = 0.3 by norm_num]
    rw [atan2_zero_pos 0.3 (by norm_num), sub_zero, wrap_pi_zero, abs_zero, moveW2_coneOffAng]
    show (0 : ℝ) ≤ 60 * π / 180
    positivity

theorem moveWorld_holder : moveW2.possessionHolder = some 0 := by
  have hkeep : moveW2.keepHolder moveW2.ball.x moveW2.ball.y = some 0 := by
    unfold World.keepHolder
    rw [moveW2_vals]
    refine firstIdx_eq_some_of _ _ 0 mrc ?_ ?_ ?_
    · rfl
    · rw [Bool.and_eq_true]
      exact ⟨mrc_facts.2.2.2.2.2.2.2.2, decide_eq_true moveW2_sees⟩
    · intro j hj b hbj
      exact absurd hj (Nat.not_lt_zero j)
  unfold World.possessionHolder
  rw [hkeep]

theorem moveW3_eq : moveW2.update_possession_and_anchor 0.1 = moveW2.holderStep := by
  unfold World.update_possession_and_anchor
  rw [if_neg (not_lt.mpr moveW2_kc)]
  dsimp only
  rw [if_neg (not_lt.mpr moveW2_kc)]

theorem moveW3_ball :
    (moveW2.update_possession_and_anchor 0.1).ball = moveW2.anchoredBall mrc := by
  rw [moveW3_eq]
  exact holderStep_ball_of_holder moveW2 0 mrc moveWorld_holder moveW2_sticky
    (by rw [moveW2_vals]; rfl)

theorem moveW2_anchor_facts :
    (moveW2.anchoredBall mrc).x = 0.45 ∧ (moveW2.anchoredBall mrc).y = 0 ∧
    (moveW2.anchoredBall mrc).vx = 1 ∧ (moveW2.anchoredBall mrc).vy = 0 ∧
    (moveW2.anchoredBall mrc).radius = 0.11 := by
  obtain ⟨hmx, hmy, hmth, hmvx, hmvy, hmom, hmsl, hmact, hmhb⟩ := mrc_facts
  have hhw : moveW2.half_w = 11 := by
    unfold World.half_w
    rw [moveW2_fw]
    norm_num
  have hhh : moveW2.half_h = 7 := by
    unfold World.half_h
    rw [moveW2_fh]
    norm_num
  have hfront : mrc.half_side + moveW2.sticky_ball_radius + moveW2.sticky_gap = 0.35 := by
    unfold Robot.half_side
    rw [hmsl, moveW2_sbr, moveW2_sgap]
    norm_num
  refine ⟨?_, ?_, ?_, ?_, ?_⟩
  · show moveW2.stickyClipX (mrc.x + Real.cos mrc.theta *
        (mrc.half_side + moveW2.sticky_ball_radius + moveW2.sticky_gap)) = 0.45
    rw [hfront, hmx, hmth, Real.cos_zero]
    unfold World.stickyClipX
    rw [if_pos moveW2_sclip, hhw, moveW2_sbr]
    rw [show (0.1 : ℝ) + 1 * 0.35 = 0.45 by norm_num]
    rw [min_eq_right (by norm_num), max_eq_right (by norm_num)]
  · show moveW2.stickyClipY (mrc.y + Real.sin mrc.theta *
        (mrc.half_side + moveW2.sticky_ball_radius + moveW2.sticky_gap)) = 0
    rw [hmy, hmth, Real.sin_zero, zero_mul, add_zero]
    unfold World.stickyClipY
    rw [if_pos moveW2_sclip, hhh, moveW2_sbr]
    rw [min_eq_right (by norm_num), max_eq_right (by norm_num)]
  · show mrc.vx - mrc.omega * (Real.sin mrc.theta *
        (mrc.half_side + moveW2.sticky_ball_radius + moveW2.sticky_gap)) = 1
    rw [hmvx, hmom, zero_mul, sub_zero]
  · show mrc.vy + mrc.omega * (Real.cos mrc.theta *
        (mrc.half_side + moveW2.sticky_ball_radius + moveW2.sticky_gap)) = 0
    rw [hmvy, hmom, zero_mul, add_zero]
  · show moveW2.ball.radius = 0.11
    rw [moveW2_ball]
    rfl

theorem moveWorld_holder_fact :
    (moveWorld.update 0.1 rnd0).allRobotVals.get? 0 = some movedRobot := by
  rw [update_shape2 moveWorld 0.1 rnd0 (by norm_num)]
  show (moveW2.update_possession_and_anchor 0.1).allRobotVals.get? 0 = some movedRobot
  rw [possession_robots_eq moveW2 0.1 moveW2_kc, setFlags_get?, moveW2_vals]
  show some ({ mrc with has_ball := decide (moveW2.possessionHolder = some 0) }) =
    some movedRobot
  rw [moveWorld_holder]
  rfl

theorem moveWorld_final_ball_x : (moveWorld.update 0.1 rnd0).ball.x = 0.55 := by
  obtain ⟨hax, hay, havx, havy, harad⟩ := moveW2_anchor_facts
  rw [update_shape2 moveWorld 0.1 rnd0 (by norm_num)]
  show ((moveW2.update_possession_and_anchor 0.1).ball.update 0.1
      (moveW2.update_possession_and_anchor 0.1).half_w
      (moveW2.update_possession_and_anchor 0.1).half_h).x = 0.55
  have hw3 : (moveW2.update_possession_and_anchor 0.1).half_w = 11 := by
    unfold World.half_w
    rw [(possession_dims moveW2 0.1).1, moveW2_fw]
    norm_num
  have hh3 : (moveW2.update_possession_and_anchor 0.1).half_h = 7 := by
    unfold World.half_h
    rw [(possession_dims moveW2 0.1).2, moveW2_fh]
    norm_num
  rw [moveW3_ball, hw3, hh3]
  have hb := Ball.update_inside (moveW2.anchoredBall mrc) 0.1 11 7 (by norm_num)
    (by rw [hax, havx, harad]; norm_num)
    (by rw [hax, havx, harad]; norm_num)
    (by rw [hay, havy, harad]; norm_num)
    (by rw [hay, havy, harad]; norm_num)
  rw [hb.1, hax, havx]
  norm_num

/-- C1, counterexample to "the ball's position at the end of the tick
equals the holder's anchor point": one robot driving right at 1 m/s keeps
the ball through the 0.1 s tick; at the end of the tick it is the holder,
its anchor point sits at `x = 0.45`, but the tick's final ball sits at
`x = 0.55` — the ball is anchored *before* the ball physics of the same
tick, which then integrates the anchor velocity for another `dt`. -/
theorem C1_cex_ball_beyond_anchor :
    (moveWorld.update 0.1 rnd0).allRobotVals.get? 0 = some movedRobot ∧
    movedRobot.has_ball = true ∧
    ((moveWorld.preBall 0.1 rnd0).anchoredBall movedRobot).x = 0.45 ∧
    (moveWorld.update 0.1 rnd0).ball.x = 0.55 ∧
    ¬ (moveWorld.update 0.1 rnd0).ball.x =
        ((moveWorld.preBall 0.1 rnd0).anchoredBall movedRobot).x := by
  have hanch : ((moveWorld.preBall 0.1 rnd0).anchoredBall movedRobot).x = 0.45 := by
    have h : moveW2.anchoredBall movedRobot = moveW2.anchoredBall mrc :=
      anchoredBall_flag moveW2 mrc true
    show (moveW2.anchoredBall movedRobot).x = 0.45
    rw [h]
    exact moveW2_anchor_facts.1
  refine ⟨moveWorld_holder_fact, rfl, hanch, moveWorld_final_ball_x, ?_⟩
  rw [moveWorld_final_ball_x, hanch]
  norm_num

/-- C1 (amended): on an effective tick (`dt > 0`) of a sticky-enabled
world, if a robot ends the tick flagged `has_ball`, the tick's final ball
is not the anchor point itself but one `Ball.update` step of the ball
anchored at that holder: the anchoring happens before the ball's own
physics inside the tick, so the anchored ball still integrates its anchor
velocity for `dt` (with damping and boundary handling) before the tick
ends.  Only the holder-anchoring *writes* of the tick precede the ball
integration; the integration itself is not suppressed. -/
theorem C1_anchored_ball_formula (w : World) (dt : ℝ) (rnd : Rnd) (i : ℕ) (r' : Robot)
    (hdt : 0 < dt) (hst : w.sticky_enabled = true)
    (hi : (w.update dt rnd).allRobotVals.get? i = some r') (hb : r'.has_ball = true) :
    (w.update dt rnd).ball =
      ((w.preBall dt rnd).anchoredBall r').update dt w.half_w w.half_h := by
  have hpre := enforce_preserves
    { w with team_left := w.team_left.update dt, team_right := w.team_right.update dt }
    rnd 6 0.01 0 0.10
  have hst2 : (w.preBall dt rnd).sticky_enabled = true :=
    (show (w.preBall dt rnd).sticky_enabled = w.sticky_enabled from hpre.2.2.2.2.2.1).trans hst
  rw [update_shape2 w dt rnd hdt] at hi ⊢
  have hi3 : ((w.preBall dt rnd).update_possession_and_anchor dt).allRobotVals.get? i
      = some r' := hi
  show ((w.preBall dt rnd).update_possession_and_anchor dt).ball.update dt
      ((w.preBall dt rnd).update_possession_and_anchor dt).half_w
      ((w.preBall dt rnd).update_possession_and_anchor dt).half_h =
    ((w.preBall dt rnd).anchoredBall r').update dt w.half_w w.half_h
  have hfw : ((w.preBall dt rnd).update_possession_and_anchor dt).half_w = w.half_w := by
    unfold World.half_w
    rw [(possession_dims (w.preBall dt rnd) dt).1,
        show (w.preBall dt rnd).field_w = w.field_w from hpre.2.2.1]
  have hfh : ((w.preBall dt rnd).update_possession_and_anchor dt).half_h = w.half_h := by
    unfold World.half_h
    rw [(possession_dims (w.preBall dt rnd) dt).2,
        show (w.preBall dt rnd).field_h = w.field_h from hpre.2.2.2.1]
  rw [possession_flag_ball (w.preBall dt rnd) dt i r' hst2 hi3 hb, hfw, hfh]

/-- Witness for C1 at the concrete moving-holder world. -/
theorem C1_anchored_ball_formula_witness :
    ((0 : ℝ) < 0.1 ∧ moveWorld.sticky_enabled = true ∧
     (moveWorld.update 0.1 rnd0).allRobotVals.get? 0 = some movedRobot ∧
     movedRobot.has_ball = true) ∧
    (moveWorld.update 0.1 rnd0).ball =
      ((moveWorld.preBall 0.1 rnd0).anchoredBall movedRobot).update 0.1
        moveWorld.half_w moveWorld.half_h :=
  ⟨⟨by norm_num, rfl, moveWorld_holder_fact, rfl⟩,
   C1_anchored_ball_formula moveWorld 0.1 rnd0 0 movedRobot (by norm_num) rfl
     moveWorld_holder_fact rfl⟩

/-!  C5: collision resolution. -/

theorem clampf_mem (x lo hi : ℝ) (h : lo ≤ hi) :
    lo ≤ clampf x lo hi ∧ clampf x lo hi ≤ hi := by
  unfold clampf
  exact ⟨le_max_left lo _, max_le h (min_le_left hi x)⟩

/-- The clamped robot sits inside the field shrunk by its own axis-aligned
half-extent, as long as that half-extent fits the half-field (guaranteed
when the robot's side is at most the half-field). -/
theorem clamp_robot_mem (hw hh : ℝ) (r : Robot) (h0 : 0 ≤ r.side_len)
    (h1 : r.side_len ≤ hw) (h2 : r.side_len ≤ hh) :
    -hw + ((clamp_robot_inside_field hw hh r).half_extents_xy).1 ≤
        (clamp_robot_inside_field hw hh r).x ∧
    (clamp_robot_inside_field hw hh r).x ≤
        hw - ((clamp_robot_inside_field hw hh r).half_extents_xy).1 ∧
    -hh + ((clamp_robot_inside_field hw hh r).half_extents_xy).2 ≤
        (clamp_robot_inside_field hw hh r).y ∧
    (clamp_robot_inside_field hw hh r).y ≤
        hh - ((clamp_robot_inside_field hw hh r).half_extents_xy).2 := by
  have habs : |Real.cos r.theta| + |Real.sin r.theta| ≤ 2 := by
    have h3 := abs_cos_le_one r.theta
    have h4 := abs_sin_le_one r.theta
    linarith
  have hhs : 0 ≤ r.half_side := by
    unfold Robot.half_side
    linarith
  have hmul : r.half_side * (|Real.cos r.theta| + |Real.sin r.theta|) ≤ r.side_len := by
    have h5 : r.half_side * (|Real.cos r.theta| + |Real.sin r.theta|) ≤ r.half_side * 2 :=
      mul_le_mul_of_nonneg_left habs hhs
    have h6 : r.half_side * 2 = r.side_len := by
      unfold Robot.half_side
      ring
    linarith
  refine ⟨?_, ?_, ?_, ?_⟩
  · show -hw + r.half_side * (|Real.cos r.theta| + |Real.sin r.theta|) ≤
      clampf r.x (-hw + r.half_side * (|Real.cos r.theta| + |Real.sin r.theta|))
        (hw - r.half_side * (|Real.cos r.theta| + |Real.sin r.theta|))
    exact (clampf_mem _ _ _ (by linarith)).1
  · show clampf r.x (-hw + r.half_side * (|Real.cos r.theta| + |Real.sin r.theta|))
        (hw - r.half_side * (|Real.cos r.theta| + |Real.sin r.theta|)) ≤
      hw - r.half_side * (|Real.cos r.theta| + |Real.sin r.theta|)
    exact (clampf_mem _ _ _ (by linarith)).2
  · show -hh + r.half_side * (|Real.cos r.theta| + |Real.sin r.theta|) ≤
      clampf r.y (-hh + r.half_side * (|Real.cos r.theta| + |Real.sin r.theta|))
        (hh - r.half_side * (|Real.cos r.theta| + |Real.sin r.theta|))
    exact (clampf_mem _ _ _ (by linarith)).1
  · show clampf r.y (-hh + r.half_side * (|Real.cos r.theta| + |Real.sin r.theta|))
        (hh - r.half_side * (|Real.cos r.theta| + |Real.sin r.theta|)) ≤
      hh - r.half_side * (|Real.cos r.theta| + |Real.sin r.theta|)
    exact (clampf_mem _ _ _ (by linarith)).2

theorem foldl_length_inv {α : Type} (f : List Robot → α → List Robot)
    (hf : ∀ l a, (f l a).length = l.length) :
    ∀ (xs : List α) (l : List Robot), (xs.foldl f l).length = l.length := by
  intro xs
  induction xs with
  | nil =>
      intro l
      rfl
  | cons x xs ih =>
      intro l
      rw [List.foldl_cons, ih, hf]

theorem resolvePair_length (rad : List ℝ) (re li xi yi angv : ℝ) (l : List Robot)
    (i j : ℕ) : (resolvePair rad re li xi yi angv l i j).length = l.length := by
  unfold resolvePair
  dsimp only
  simp [apply_ite List.length, List.length_set]

theorem innerLoop_length (rad : List ℝ) (re li : ℝ) (rnd : Rnd) (k n i : ℕ)
    (l : List Robot) : (innerLoop rad re li rnd k n i l).length = l.length := by
  unfold innerLoop
  exact foldl_length_inv _ (fun l' a => resolvePair_length rad re li _ _ _ l' i a) _ l

theorem passOnce_length (rad : List ℝ) (re li hw hh : ℝ) (rnd : Rnd) (n k : ℕ)
    (l : List Robot) : (passOnce rad re li hw hh rnd n k l).length = l.length := by
  unfold passOnce
  dsimp only
  rw [List.length_map]
  exact foldl_length_inv _ (fun l' a => innerLoop_length rad re li rnd k n a l') _ l

theorem enforceList_length (hw hh c re li : ℝ) (it : ℕ) (rnd : Rnd)
    (actives : List Robot) :
    (enforceList hw hh c re li it rnd actives).length = actives.length := by
  unfold enforceList
  dsimp only
  exact foldl_length_inv _ (fun l' a => passOnce_length _ re li hw hh rnd _ a l') _ actives

theorem replaceActives_length : ∀ (l news : List Robot),
    (replaceActives l news).length = l.length := by
  intro l
  induction l with
  | nil =>
      intro news
      rfl
  | cons r rest ih =>
      intro news
      unfold replaceActives
      by_cases hr : r.active = true
      · rw [if_pos hr]
        cases news with
        | nil => rfl
        | cons n0 ns =>
            show (n0 :: replaceActives rest ns).length = (r :: rest).length
            rw [List.length_cons, List.length_cons, ih]
      · rw [if_neg hr]
        show (r :: replaceActives rest news).length = (r :: rest).length
        rw [List.length_cons, List.length_cons, ih]

/-- Active slots of the write-back receive resolved robots as long as the
resolved list is long enough (it always is: lengths are preserved). -/
theorem replaceActives_forall (P : Robot → Prop) :
    ∀ (l news : List Robot),
      (l.filter (fun r => r.active)).length ≤ news.length →
      (∀ x ∈ news, P x) →
      ∀ r' ∈ replaceActives l news, r'.active = true → P r' := by
  intro l
  induction l with
  | nil =>
      intro news _ _ r' hr'
      exact absurd hr' (List.not_mem_nil r')
  | cons r rest ih =>
      intro news hlen hP r' hr' hact
      by_cases hr : r.active = true
      · cases news with
        | nil =>
            exfalso
            have hmem : r ∈ List.filter (fun q => q.active) (r :: rest) :=
              List.mem_filter.mpr ⟨List.mem_cons_self r rest, hr⟩
            have hpos : 0 < (List.filter (fun q => q.active) (r :: rest)).length :=
              List.length_pos_of_mem hmem
            have h0 : (List.filter (fun q => q.active) (r :: rest)).length ≤ 0 := hlen
            omega
        | cons n0 ns =>
            have hstep : replaceActives (r :: rest) (n0 :: ns) =
                n0 :: replaceActives rest ns := by
              conv_lhs => unfold replaceActives
              rw [if_pos hr]
            rw [hstep] at hr'
            rcases List.mem_cons.mp hr' with h | h
            · subst h
              exact hP _ (List.mem_cons_self _ _)
            · have hflen : (List.filter (fun q => q.active) (r :: rest)).length =
                  (List.filter (fun q => q.active) rest).length + 1 := by
                simp [List.filter_cons, hr]
              refine ih ns ?_ (fun x hx => hP x (List.mem_cons_of_mem n0 hx)) r' h hact
              have hl2 : (List.filter (fun q => q.active) (r :: rest)).length ≤
                  ns.length + 1 := by
                simpa using hlen
              omega
      · have hstep : replaceActives (r :: rest) news =
            r :: replaceActives rest news := by
          conv_lhs => unfold replaceActives
          rw [if_neg hr]
        rw [hstep] at hr'
        rcases List.mem_cons.mp hr' with h | h
        · subst h
          exact absurd hact hr
        · have hfe : List.filter (fun q => q.active) (r :: rest) =
              List.filter (fun q => q.active) rest := by
            simp [List.filter_cons, hr]
          rw [hfe] at hlen
          exact ih news hlen hP r' h hact

/-- Every robot of a pass's output has just been clamped inside the field. -/
theorem passOnce_mem (rad : List ℝ) (re li hw hh : ℝ) (rnd : Rnd) (n k : ℕ)
    (l : List Robot) :
    ∀ x ∈ passOnce rad re li hw hh rnd n k l,
      ∃ r, x = clamp_robot_inside_field hw hh r := by
  intro x hx
  have hx2 : x ∈ ((rnd.perm k).foldl (fun acc i => innerLoop rad re li rnd k n i acc) l).map
      (clamp_robot_inside_field hw hh) := hx
  rcases List.mem_map.mp hx2 with ⟨r, hr, hxr⟩
  exact ⟨r, hxr.symm⟩

theorem foldl_pass_mem (rad : List ℝ) (re li hw hh : ℝ) (rnd : Rnd) (n : ℕ) :
    ∀ (ks : List ℕ) (l : List Robot), ks ≠ [] →
      ∀ x ∈ ks.foldl (fun acc k => passOnce rad re li hw hh rnd n k acc) l,
        ∃ r, x = clamp_robot_inside_field hw hh r := by
  intro ks
  induction ks with
  | nil =>
      intro l h
      exact absurd rfl h
  | cons k ks ih =>
      intro l _ x hx
      rw [List.foldl_cons] at hx
      cases ks with
      | nil =>
          rw [List.foldl_nil] at hx
          exact passOnce_mem rad re li hw hh rnd n k l x hx
      | cons k2 ks2 =>
          exact ih _ (by simp) x hx

theorem enforceList_mem_clamp (hw hh c re li : ℝ) (it : ℕ) (rnd : Rnd)
    (actives : List Robot) :
    ∀ x ∈ enforceList hw hh c re li it rnd actives,
      ∃ r, x = clamp_robot_inside_field hw hh r := by
  intro x hx
  have hx2 : x ∈ (List.range (max 1 it)).foldl
      (fun acc k => passOnce (actives.map (fun r => r.outer_radius + c * 0.5)) re li hw hh
        rnd actives.length k acc) actives := hx
  refine foldl_pass_mem _ re li hw hh rnd actives.length (List.range (max 1 it)) actives
    ?_ x hx2
  intro hnil
  have hz : max 1 it = 0 := List.range_eq_nil.mp hnil
  omega

/-- C5 (amended): only the in-field half of the claim holds.  Every active
robot of the resolver's output has just been clamped inside the field
shrunk by its own axis-aligned half-extent (for robots whose footprint
fits the half-field); the no-residual-overlap half of the claim is false
(see the corner-jam counterexample): 6 push-limited passes need not
separate robots jammed against the boundary. -/
theorem C5_in_field_clamp (w : World) (rnd : Rnd) (it : ℕ) (c re li : ℝ) :
    ∀ r' ∈ (enforce_no_overlap w rnd it c re li).allRobotVals, r'.active = true →
      0 ≤ r'.side_len → r'.side_len ≤ w.half_w → r'.side_len ≤ w.half_h →
      (-w.half_w + (r'.half_extents_xy).1 ≤ r'.x ∧
       r'.x ≤ w.half_w - (r'.half_extents_xy).1 ∧
       -w.half_h + (r'.half_extents_xy).2 ≤ r'.y ∧
       r'.y ≤ w.half_h - (r'.half_extents_xy).2) := by
  intro r' hr' hact h0 h1 h2
  unfold enforce_no_overlap at hr'
  dsimp only at hr'
  by_cases hn : (w.allRobotVals.filter (fun r => r.active)).length ≤ 1
  · rw [if_pos hn] at hr'
    rw [setAllVals_vals w _ (by rw [List.length_map])] at hr'
    rcases List.mem_map.mp hr' with ⟨r, hrmem, hrr⟩
    by_cases hra : r.active = true
    · rw [if_pos hra] at hrr
      rw [← hrr] at h0 h1 h2 ⊢
      exact clamp_robot_mem w.half_w w.half_h r h0 h1 h2
    · rw [if_neg hra] at hrr
      rw [← hrr] at hact
      exact absurd hact hra
  · rw [if_neg hn] at hr'
    rw [setAllVals_vals w _ (by rw [replaceActives_length])] at hr'
    have hlen : (w.allRobotVals.filter (fun r => r.active)).length ≤
        (enforceList w.half_w w.half_h c re li it rnd
          (w.allRobotVals.filter (fun r => r.active))).length := by
      rw [enforceList_length]
    have hP := replaceActives_forall
      (fun x => ∃ r, x = clamp_robot_inside_field w.half_w w.half_h r)
      w.allRobotVals _ hlen
      (enforceList_mem_clamp w.half_w w.half_h c re li it rnd _)
      r' hr' hact
    rcases hP with ⟨r, hrr⟩
    rw [hrr] at h0 h1 h2 ⊢
    exact clamp_robot_mem w.half_w w.half_h r h0 h1 h2

theorem sqrt_two_gt : (1.414 : ℝ) < Real.sqrt 2 := by
  have h : (1.414 : ℝ) = Real.sqrt (1.414 ^ 2) := (Real.sqrt_sq (by norm_num)).symm
  rw [h]
  apply Real.sqrt_lt_sqrt (by norm_num)
  norm_num

theorem sqrt_two_lt : Real.sqrt 2 < 1.415 := by
  have h : (1.415 : ℝ) = Real.sqrt (1.415 ^ 2) := (Real.sqrt_sq (by norm_num)).symm
  rw [h]
  apply Real.sqrt_lt_sqrt (by norm_num)
  norm_num

theorem hypot_zero_left (y : ℝ) (hy : 0 ≤ y) : hypot 0 y = y := by
  rw [hypot, show (0 : ℝ) ^ 2 + y ^ 2 = y ^ 2 from by ring, Real.sqrt_sq hy]

/-- The half-diagonal of the default square footprint. -/
theorem default_outer : hypot (0.5 * (0.45 : ℝ)) (0.5 * 0.45) = 0.225 * Real.sqrt 2 := by
  rw [hypot]
  rw [show (0.5 * (0.45 : ℝ)) ^ 2 + (0.5 * 0.45) ^ 2 = 0.225 ^ 2 * 2 from by norm_num]
  rw [Real.sqrt_mul (by positivity) 2]
  rw [Real.sqrt_sq (by norm_num)]

/-- The random stream of the corner-jam run: every shuffle returns the
identity order of the two robots. -/
def rndC : Rnd := ⟨fun _ => [0, 1], fun _ _ _ => 0⟩

/-- Top robot of the corner jam, wedged into the top-right corner. -/
def jamA : Robot := { robot_id := 1, x := 10.775, y := 6.775 }

/-- Bottom robot of the corner jam, `d` metres below the top one. -/
def jamB (d : ℝ) : Robot := { robot_id := 2, x := 10.775, y := 6.775 - d }

/-- Two active robots jammed vertically against the top-right corner,
overlapping almost completely. -/
def jamWorld : World :=
  { team_left := { team_id := 0, robots := [(1, jamA), (2, jamB 0.001)] } }

/-- One pair resolution of the vertical jam: a push of
`min (0.5·(min_d − d)) limit` on each robot along `±y`, no impulse (both
at rest). -/
theorem resolvePair_jam (rad : List ℝ) (d : ℝ)
    (hrad : rad.getD 0 0 + rad.getD 1 0 = 0.45 * Real.sqrt 2 + 0.01)
    (h1 : 0.001 ≤ d) (h2 : d < 0.45 * Real.sqrt 2 + 0.01) :
    resolvePair rad 0 0.10 10.775 6.775 0 [jamA, jamB d] 0 1 =
      [{ jamA with y := 6.775 + min (0.5 * (0.45 * Real.sqrt 2 + 0.01 - d)) 0.10 },
       { jamB d with y := 6.775 - d - min (0.5 * (0.45 * Real.sqrt 2 + 0.01 - d)) 0.10 }] := by
  have hd0 : (0 : ℝ) < d := by linarith
  unfold resolvePair
  rw [show getR [jamA, jamB d] 0 = jamA from rfl,
      show getR [jamA, jamB d] 1 = jamB d from rfl]
  simp only [jamA, jamB]
  rw [show (10.775 : ℝ) - 10.775 = 0 from by norm_num]
  rw [show (6.775 : ℝ) - d - 6.775 = -d from by ring]
  rw [show (0 : ℝ) * 0 + -d * -d = d * d from by ring]
  have hdeg : ¬ (d * d < 1e-12) := by nlinarith
  simp only [if_neg hdeg]
  rw [show Real.sqrt (d * d) = d from by
    rw [show d * d = d ^ 2 from by ring]
    exact Real.sqrt_sq (by linarith)]
  rw [hrad]
  rw [if_neg (not_le.mpr h2)]
  have h19 : d > 1e-9 := by linarith
  simp only [if_pos h19]
  rw [zero_div, neg_div, div_self (ne_of_gt hd0)]
  rw [show ((0 : ℝ) - 0) * 0 + ((0 : ℝ) - 0) * -1 = 0 from by norm_num]
  simp only [if_neg (lt_irrefl (0 : ℝ))]
  have hset : ∀ (a b a' b' : Robot), (([a, b] : List Robot).set 0 a').set 1 b' = [a', b'] :=
    fun _ _ _ _ => rfl
  rw [hset]
  congr 1
  · congr 1 <;> ring
  · congr 1
    congr 1 <;> ring

/-- Clamping sends the pushed-up top robot straight back to the corner. -/
theorem clamp_jamA (p : ℝ) (hp : 0 ≤ p) :
    clamp_robot_inside_field 11 7 { jamA with y := 6.775 + p } = jamA := by
  unfold clamp_robot_inside_field Robot.half_extents_xy Robot.half_side
  simp only [jamA]
  rw [Real.cos_zero, Real.sin_zero, abs_one, abs_zero]
  rw [show (0.5 : ℝ) * 0.45 * (1 + 0) = 0.225 from by norm_num]
  rw [show (-11 : ℝ) + 0.225 = -10.775 from by norm_num,
      show (11 : ℝ) - 0.225 = 10.775 from by norm_num,
      show (-7 : ℝ) + 0.225 = -6.775 from by norm_num,
      show (7 : ℝ) - 0.225 = 6.775 from by norm_num]
  rw [clampf_eq_self 10.775 (-10.775) 10.775 (by norm_num) (by norm_num)]
  rw [show clampf (6.775 + p) (-6.775) 6.775 = 6.775 from by
    unfold clampf
    rw [min_eq_left (by linarith), max_eq_right (by norm_num)]]

/-- Clamping leaves the pushed-down bottom robot where it is. -/
theorem clamp_jamB (d p : ℝ) (h1 : 0.001 ≤ d) (h2 : d ≤ 0.501) (hp : 0 ≤ p)
    (hp2 : p ≤ 0.1) :
    clamp_robot_inside_field 11 7 { jamB d with y := 6.775 - d - p } = jamB (d + p) := by
  unfold clamp_robot_inside_field Robot.half_extents_xy Robot.half_side
  simp only [jamB]
  rw [Real.cos_zero, Real.sin_zero, abs_one, abs_zero]
  rw [show (0.5 : ℝ) * 0.45 * (1 + 0) = 0.225 from by norm_num]
  rw [show (-11 : ℝ) + 0.225 = -10.775 from by norm_num,
      show (11 : ℝ) - 0.225 = 10.775 from by norm_num,
      show (-7 : ℝ) + 0.225 = -6.775 from by norm_num,
      show (7 : ℝ) - 0.225 = 6.775 from by norm_num]
  rw [clampf_eq_self 10.775 (-10.775) 10.775 (by norm_num) (by norm_num)]
  rw [clampf_eq_self (6.775 - d - p) (-6.775) 6.775 (by linarith) (by linarith)]
  congr 1
  ring

/-- One full pass of the corner jam: the gap between the two robots grows
by exactly the push (the top robot's share is undone by the clamp). -/
theorem jamPass (rad : List ℝ) (k : ℕ) (d : ℝ)
    (hrad : rad.getD 0 0 + rad.getD 1 0 = 0.45 * Real.sqrt 2 + 0.01)
    (h1 : 0.001 ≤ d) (h2 : d ≤ 0.501) :
    passOnce rad 0 0.10 11 7 rndC 2 k [jamA, jamB d] =
      [jamA, jamB (d + min (0.5 * (0.45 * Real.sqrt 2 + 0.01 - d)) 0.10)] := by
  have hs2l : (1.414 : ℝ) < Real.sqrt 2 := sqrt_two_gt
  have hlt : d < 0.45 * Real.sqrt 2 + 0.01 := by linarith
  have hp0 : 0 ≤ min (0.5 * (0.45 * Real.sqrt 2 + 0.01 - d)) 0.10 :=
    le_min (by linarith) (by norm_num)
  have hp1 : min (0.5 * (0.45 * Real.sqrt 2 + 0.01 - d)) 0.10 ≤ 0.1 :=
    le_trans (min_le_right _ _) (by norm_num)
  show (resolvePair rad 0 0.10 10.775 6.775 0 [jamA, jamB d] 0 1).map
      (clamp_robot_inside_field 11 7) =
    [jamA, jamB (d + min (0.5 * (0.45 * Real.sqrt 2 + 0.01 - d)) 0.10)]
  rw [resolvePair_jam rad d hrad h1 hlt]
  rw [List.map_cons, List.map_cons, List.map_nil]
  rw [clamp_jamA _ hp0, clamp_jamB d _ h1 h2 hp0 hp1]

/-- Six passes of the corner jam: the gap only reaches
`0.501 + 0.5·(min_d − 0.501)`, still far short of `min_d`. -/
theorem jam_enforce :
    enforceList 11 7 0.01 0 0.10 6 rndC [jamA, jamB 0.001] =
      [jamA, jamB (0.501 + 0.5 * (0.45 * Real.sqrt 2 + 0.01 - 0.501))] := by
  have hs2l : (1.414 : ℝ) < Real.sqrt 2 := sqrt_two_gt
  have hs2u : Real.sqrt 2 < 1.415 := sqrt_two_lt
  unfold enforceList
  dsimp only
  have hrad : ([jamA, jamB 0.001].map (fun r => r.outer_radius + 0.01 * 0.5)).getD 0 0 +
      ([jamA, jamB 0.001].map (fun r => r.outer_radius + 0.01 * 0.5)).getD 1 0 =
      0.45 * Real.sqrt 2 + 0.01 := by
    show (hypot (0.5 * (0.45 : ℝ)) (0.5 * 0.45) + 0.01 * 0.5) +
        (hypot (0.5 * (0.45 : ℝ)) (0.5 * 0.45) + 0.01 * 0.5) = 0.45 * Real.sqrt 2 + 0.01
    rw [default_outer]
    ring
  have hP : ∀ (k : ℕ) (d : ℝ), 0.001 ≤ d → d ≤ 0.501 →
      passOnce ([jamA, jamB 0.001].map (fun r => r.outer_radius + 0.01 * 0.5)) 0 0.10 11 7
        rndC 2 k [jamA, jamB d] =
      [jamA, jamB (d + min (0.5 * (0.45 * Real.sqrt 2 + 0.01 - d)) 0.10)] :=
    fun k d h1 h2 => jamPass _ k d hrad h1 h2
  rw [show List.range (max 1 6) = [0, 1, 2, 3, 4, 5] from rfl]
  rw [show ([jamA, jamB 0.001] : List Robot).length = 2 from rfl]
  simp only [List.foldl_cons, List.foldl_nil]
  rw [hP 0 0.001 (by norm_num) (by norm_num)]
  rw [min_eq_right (show (0.10 : ℝ) ≤ 0.5 * (0.45 * Real.sqrt 2 + 0.01 - 0.001) from
    by linarith)]
  rw [show (0.001 : ℝ) + 0.10 = 0.101 from by norm_num]
  rw [hP 1 0.101 (by norm_num) (by norm_num)]
  rw [min_eq_right (show (0.10 : ℝ) ≤ 0.5 * (0.45 * Real.sqrt 2 + 0.01 - 0.101) from
    by linarith)]
  rw [show (0.101 : ℝ) + 0.10 = 0.201 from by norm_num]
  rw [hP 2 0.201 (by norm_num) (by norm_num)]
  rw [min_eq_right (show (0.10 : ℝ) ≤ 0.5 * (0.45 * Real.sqrt 2 + 0.01 - 0.201) from
    by linarith)]
  rw [show (0.201 : ℝ) + 0.10 = 0.301 from by norm_num]
  rw [hP 3 0.301 (by norm_num) (by norm_num)]
  rw [min_eq_right (show (0.10 : ℝ) ≤ 0.5 * (0.45 * Real.sqrt 2 + 0.01 - 0.301) from
    by linarith)]
  rw [show (0.301 : ℝ) + 0.10 = 0.401 from by norm_num]
  rw [hP 4 0.401 (by norm_num) (by norm_num)]
  rw [min_eq_right (show (0.10 : ℝ) ≤ 0.5 * (0.45 * Real.sqrt 2 + 0.01 - 0.401) from
    by linarith)]
  rw [show (0.401 : ℝ) + 0.10 = 0.501 from by norm_num]
  rw [hP 5 0.501 (by norm_num) (by norm_num)]
  rw [min_eq_left (show (0.5 * (0.45 * Real.sqrt 2 + 0.01 - 0.501) : ℝ) ≤ 0.10 from
    by linarith)]

/-- The resolved corner-jam world, elementwise. -/
theorem jam_cex_vals :
    (enforce_no_overlap jamWorld rndC 6 0.01 0 0.10).allRobotVals =
      [jamA, jamB (0.501 + 0.5 * (0.45 * Real.sqrt 2 + 0.01 - 0.501))] := by
  unfold enforce_no_overlap
  dsimp only
  rw [show jamWorld.allRobotVals = [jamA, jamB 0.001] from rfl]
  rw [show List.filter (fun r => r.active) [jamA, jamB 0.001] = [jamA, jamB 0.001] from rfl]
  rw [if_neg (show ¬ (([jamA, jamB 0.001] : List Robot).length ≤ 1) from by
    show ¬ ((2 : ℕ) ≤ 1)
    norm_num)]
  rw [show jamWorld.half_w = (11 : ℝ) from by
        show (0.5 : ℝ) * 22 = 11
        norm_num,
      show jamWorld.half_h = (7 : ℝ) from by
        show (0.5 : ℝ) * 14 = 7
        norm_num]
  rw [jam_enforce]
  rw [show replaceActives [jamA, jamB 0.001]
      [jamA, jamB (0.501 + 0.5 * (0.45 * Real.sqrt 2 + 0.01 - 0.501))] =
      [jamA, jamB (0.501 + 0.5 * (0.45 * Real.sqrt 2 + 0.01 - 0.501))] from rfl]
  exact setAllVals_vals jamWorld _ rfl

/-- C5, counterexample to "no two active agents' bounding circles overlap
by more than the configured clearance after resolution": two active
robots jammed against the top-right corner are pushed apart along `y`, but
every pass's push on the top robot is undone by the in-field clamp and the
per-pass push is capped at 0.10 m, so after the 6 passes of
`enforce_no_overlap(iterations=6, clearance=0.01, limit=0.10)` their
centre distance is `0.2555 + 0.225·√2 ≈ 0.574 m`, still below
`2·outer_radius − clearance = 0.45·√2 − 0.01 ≈ 0.626 m`: the circles
overlap by ≈ 0.062 m, six times the clearance. -/
theorem C5_cex_corner_jam :
    (enforce_no_overlap jamWorld rndC 6 0.01 0 0.10).allRobotVals.get? 0 = some jamA ∧
    (enforce_no_overlap jamWorld rndC 6 0.01 0 0.10).allRobotVals.get? 1 =
      some (jamB (0.501 + 0.5 * (0.45 * Real.sqrt 2 + 0.01 - 0.501))) ∧
    jamA.active = true ∧
    (jamB (0.501 + 0.5 * (0.45 * Real.sqrt 2 + 0.01 - 0.501))).active = true ∧
    hypot (jamA.x - (jamB (0.501 + 0.5 * (0.45 * Real.sqrt 2 + 0.01 - 0.501))).x)
          (jamA.y - (jamB (0.501 + 0.5 * (0.45 * Real.sqrt 2 + 0.01 - 0.501))).y) <
      jamA.outer_radius +
        (jamB (0.501 + 0.5 * (0.45 * Real.sqrt 2 + 0.01 - 0.501))).outer_radius - 0.01 := by
  have hs2l : (1.414 : ℝ) < Real.sqrt 2 := sqrt_two_gt
  refine ⟨?_, ?_, rfl, rfl, ?_⟩
  · rw [jam_cex_vals]
    rfl
  · rw [jam_cex_vals]
    rfl
  · show hypot (10.775 - 10.775)
        (6.775 - (6.775 - (0.501 + 0.5 * (0.45 * Real.sqrt 2 + 0.01 - 0.501)))) <
      hypot (0.5 * (0.45 : ℝ)) (0.5 * 0.45) +
        hypot (0.5 * (0.45 : ℝ)) (0.5 * 0.45) - 0.01
    rw [show (10.775 : ℝ) - 10.775 = 0 from by norm_num]
    rw [show (6.775 : ℝ) - (6.775 - (0.501 + 0.5 * (0.45 * Real.sqrt 2 + 0.01 - 0.501))) =
        0.501 + 0.5 * (0.45 * Real.sqrt 2 + 0.01 - 0.501) from by ring]
    rw [hypot_zero_left _ (by linarith), default_outer]
    linarith

/-- Witness for C5 at a concrete single-robot world. -/
theorem C5_in_field_clamp_witness :
    ((clamp_robot_inside_field shooterWorld.half_w shooterWorld.half_h
        ({ robot_id := 1 } : Robot) ∈
        (enforce_no_overlap shooterWorld rnd0 6 0.01 0 0.10).allRobotVals) ∧
     (clamp_robot_inside_field shooterWorld.half_w shooterWorld.half_h
        ({ robot_id := 1 } : Robot)).active = true ∧
     0 ≤ (clamp_robot_inside_field shooterWorld.half_w shooterWorld.half_h
        ({ robot_id := 1 } : Robot)).side_len ∧
     (clamp_robot_inside_field shooterWorld.half_w shooterWorld.half_h
        ({ robot_id := 1 } : Robot)).side_len ≤ shooterWorld.half_w ∧
     (clamp_robot_inside_field shooterWorld.half_w shooterWorld.half_h
        ({ robot_id := 1 } : Robot)).side_len ≤ shooterWorld.half_h) ∧
    (-shooterWorld.half_w + ((clamp_robot_inside_field shooterWorld.half_w
        shooterWorld.half_h ({ robot_id := 1 } : Robot)).half_extents_xy).1 ≤
        (clamp_robot_inside_field shooterWorld.half_w shooterWorld.half_h
          ({ robot_id := 1 } : Robot)).x ∧
     (clamp_robot_inside_field shooterWorld.half_w shooterWorld.half_h
        ({ robot_id := 1 } : Robot)).x ≤
        shooterWorld.half_w - ((clamp_robot_inside_field shooterWorld.half_w
          shooterWorld.half_h ({ robot_id := 1 } : Robot)).half_extents_xy).1 ∧
     -shooterWorld.half_h + ((clamp_robot_inside_field shooterWorld.half_w
        shooterWorld.half_h ({ robot_id := 1 } : Robot)).half_extents_xy).2 ≤
        (clamp_robot_inside_field shooterWorld.half_w shooterWorld.half_h
          ({ robot_id := 1 } : Robot)).y ∧
     (clamp_robot_inside_field shooterWorld.half_w shooterWorld.half_h
        ({ robot_id := 1 } : Robot)).y ≤
        shooterWorld.half_h - ((clamp_robot_inside_field shooterWorld.half_w
          shooterWorld.half_h ({ robot_id := 1 } : Robot)).half_extents_xy).2) := by
  have hmem : clamp_robot_inside_field shooterWorld.half_w shooterWorld.half_h
      ({ robot_id := 1 } : Robot) ∈
      (enforce_no_overlap shooterWorld rnd0 6 0.01 0 0.10).allRobotVals := by
    rw [enforce_single shooterWorld { robot_id := 1 } rnd0 6 0.01 0 0.10 rfl rfl]
    exact List.mem_singleton.mpr rfl
  have hs0 : (0 : ℝ) ≤ (clamp_robot_inside_field shooterWorld.half_w shooterWorld.half_h
      ({ robot_id := 1 } : Robot)).side_len := by
    show (0 : ℝ) ≤ 0.45
    norm_num
  have hs1 : (clamp_robot_inside_field shooterWorld.half_w shooterWorld.half_h
      ({ robot_id := 1 } : Robot)).side_len ≤ shooterWorld.half_w := by
    show (0.45 : ℝ) ≤ 0.5 * 22
    norm_num
  have hs2 : (clamp_robot_inside_field shooterWorld.half_w shooterWorld.half_h
      ({ robot_id := 1 } : Robot)).side_len ≤ shooterWorld.half_h := by
    show (0.45 : ℝ) ≤ 0.5 * 14
    norm_num
  exact ⟨⟨hmem, rfl, hs0, hs1, hs2⟩,
    C5_in_field_clamp shooterWorld rnd0 6 0.01 0 0.10 _ hmem rfl hs0 hs1 hs2⟩

/-!  C9: goal, kickoff formation reset. -/

theorem lookup_mem {β : Type} (k : ℕ) (v : β) :
    ∀ l : List (ℕ × β), l.lookup k = some v → ∃ q, q ∈ l ∧ q.1 = k ∧ q.2 = v := by
  intro l
  induction l with
  | nil =>
      intro h
      exact absurd h (by simp [List.lookup])
  | cons a as ih =>
      obtain ⟨ka, va⟩ := a
      intro h
      simp only [List.lookup] at h
      by_cases hk : (k == ka) = true
      · rw [hk] at h
        exact ⟨(ka, va), List.mem_cons_self _ _, (eq_of_beq hk).symm,
          Option.some.inj h⟩
      · have hk' : (k == ka) = false := by
          cases hbe : (k == ka) with
          | true => exact absurd hbe hk
          | false => rfl
        rw [hk'] at h
        rcases ih h with ⟨q, hq, hqk, hqv⟩
        exact ⟨q, List.mem_cons_of_mem _ hq, hqk, hqv⟩

theorem lookup_ne_none {β : Type} (k : ℕ) :
    ∀ l : List (ℕ × β), (∃ q, q ∈ l ∧ q.1 = k) → l.lookup k ≠ none := by
  intro l
  induction l with
  | nil =>
      rintro ⟨q, hq, _⟩
      exact absurd hq (List.not_mem_nil q)
  | cons a as ih =>
      obtain ⟨ka, va⟩ := a
      rintro ⟨q, hq, hqk⟩
      simp only [List.lookup]
      by_cases hk : (k == ka) = true
      · rw [hk]
        exact Option.some_ne_none va
      · have hk' : (k == ka) = false := by
          cases hbe : (k == ka) with
          | true => exact absurd hbe hk
          | false => rfl
        rw [hk']
        apply ih
        rcases List.mem_cons.mp hq with h | h
        · exfalso
          rw [h] at hqk
          have : ka = k := hqk
          rw [this] at hk'
          simp at hk'
        · exact ⟨q, h, hqk⟩

theorem zip_mem_of_get? {α β : Type} :
    ∀ (l1 : List α) (l2 : List β) (i : ℕ) (a : α) (b : β),
      l1.get? i = some a → l2.get? i = some b → (a, b) ∈ l1.zip l2 := by
  intro l1
  induction l1 with
  | nil =>
      intro l2 i a b h1 _
      simp at h1
  | cons x xs ih =>
      intro l2 i a b h1 h2
      cases l2 with
      | nil => simp at h2
      | cons y ys =>
          cases i with
          | zero =>
              have hxa : x = a := Option.some.inj h1
              have hyb : y = b := Option.some.inj h2
              subst hxa
              subst hyb
              exact List.mem_cons_self _ _
          | succ n =>
              have h1' : xs.get? n = some a := h1
              have h2' : ys.get? n = some b := h2
              exact List.mem_cons_of_mem _ (ih ys n a b h1' h2')

theorem kickoffTemplates_length (s hw hh : ℝ) (n : ℕ) :
    (kickoffTemplates s hw hh n).length = n := by
  simp only [kickoffTemplates, List.length_append, List.length_take, List.length_map,
    List.length_range, List.length_cons, List.length_nil]
  omega

theorem kickoffTemplates_head (s hw hh : ℝ) (m : ℕ) :
    ∃ tl, kickoffTemplates s hw hh (m + 1) = (-s * (hw - 0.5), 0) :: tl := by
  unfold kickoffTemplates
  dsimp only
  rw [List.take_succ_cons]
  exact ⟨_, List.cons_append _ _ _⟩

theorem kickoffOrder_perm (t : Team) : t.kickoffOrder.1.Perm t.robots_list := by
  unfold Team.kickoffOrder
  cases t.goalie_id with
  | none => exact List.Perm.refl _
  | some g =>
      dsimp only
      rw [show (fun r : Robot => decide (¬ r.robot_id = g)) =
          (fun r : Robot => ! decide (r.robot_id = g)) from by
        funext r
        exact decide_not]
      exact List.filter_append_perm _ t.robots_list

theorem mem_kickoffOrder (t : Team) (r : Robot) (h : r ∈ t.vals) : r ∈ t.kickoffOrder.1 :=
  ((kickoffOrder_perm t).trans (List.mergeSort_perm _ _)).mem_iff.mpr h

theorem robots_list_ne (t : Team) (hne : t.robots ≠ []) :
    ¬ (t.robots_list.isEmpty = true) := by
  have hvne : t.robots_list ≠ [] := by
    intro h
    have hperm := List.mergeSort_perm (t.robots.map Prod.snd)
      (fun a b => decide (a.robot_id ≤ b.robot_id))
    rw [show (t.robots.map Prod.snd).mergeSort
        (fun a b => decide (a.robot_id ≤ b.robot_id)) = t.robots_list from rfl, h] at hperm
    have hmap : t.robots.map Prod.snd = [] := (hperm.symm).eq_nil
    exact hne (List.map_eq_nil.mp hmap)
  cases hl : t.robots_list with
  | nil => exact absurd hl hvne
  | cons a as =>
      intro hfalse
      exact Bool.noConfusion hfalse

theorem attack_sign_cases (t : Team) : t.attack_sign = 1 ∨ t.attack_sign = -1 := by
  unfold Team.attack_sign
  cases t.side
  · exact Or.inl rfl
  · exact Or.inr rfl

theorem own_goal_eq (t : Team) : t.own_goal_x = -t.attack_sign * 11 := by
  unfold Team.own_goal_x Team.attack_sign
  cases t.side <;> norm_num

/-- The value found by a successful lookup in the placement list is a
placed robot of the order-template zip, keyed by its id. -/
theorem kickoffPlaced_val (t : Team) (fw fh : ℝ) (k : ℕ) (rp : Robot)
    (h : (t.kickoffPlaced fw fh).lookup k = some rp) :
    ∃ z, z ∈ t.kickoffOrder.1.zip (kickoffTemplates t.attack_sign (fw * 0.5) (fh * 0.5)
        t.kickoffOrder.1.length) ∧
      rp = ((z.1.set_pose (clip_xy (fw * 0.5) (fh * 0.5) z.2.1 z.2.2).1
            (clip_xy (fw * 0.5) (fh * 0.5) z.2.1 z.2.2).2 t.kickoffFace).set_vel 0 0 0).stop ∧
      z.1.robot_id = k := by
  rcases lookup_mem k rp _ h with ⟨q, hq, hqk, hqv⟩
  rcases List.mem_map.mp hq with ⟨z, hz, hzq⟩
  refine ⟨z, hz, ?_, ?_⟩
  · rw [← hqv, ← hzq]
  · rw [← hzq] at hqk
    exact hqk

/-- Every robot of the kickoff order has an entry in the placement list. -/
theorem kickoffPlaced_covers (t : Team) (fw fh : ℝ) (r : Robot)
    (hr : r ∈ t.kickoffOrder.1) :
    ∃ q, q ∈ t.kickoffPlaced fw fh ∧ q.1 = r.robot_id := by
  rcases List.mem_iff_get?.mp hr with ⟨i, hi⟩
  have hlen : (kickoffTemplates t.attack_sign (fw * 0.5) (fh * 0.5)
      t.kickoffOrder.1.length).length = t.kickoffOrder.1.length :=
    kickoffTemplates_length _ _ _ _
  have hilt : i < t.kickoffOrder.1.length := by
    rcases List.get?_eq_some.mp hi with ⟨h, _⟩
    exact h
  cases htp : (kickoffTemplates t.attack_sign (fw * 0.5) (fh * 0.5)
      t.kickoffOrder.1.length).get? i with
  | none =>
      exfalso
      rw [List.get?_eq_none] at htp
      rw [hlen] at htp
      omega
  | some tp =>
      have hzip := zip_mem_of_get? _ _ i r tp hi htp
      exact ⟨_, List.mem_map_of_mem _ hzip, rfl⟩

/-- Every robot of the repositioned team is a placed robot of the
order-template zip. -/
theorem kickoff_vals_mem (t : Team) (fw fh : ℝ)
    (hid : ∀ p ∈ t.robots, p.2.robot_id = p.1) (hne : t.robots ≠ []) :
    ∀ r' ∈ (t.auto_position_kickoff fw fh).vals,
      ∃ z, z ∈ t.kickoffOrder.1.zip (kickoffTemplates t.attack_sign (fw * 0.5) (fh * 0.5)
          t.kickoffOrder.1.length) ∧
        r' = ((z.1.set_pose (clip_xy (fw * 0.5) (fh * 0.5) z.2.1 z.2.2).1
              (clip_xy (fw * 0.5) (fh * 0.5) z.2.1 z.2.2).2
              t.kickoffFace).set_vel 0 0 0).stop := by
  have hcond := robots_list_ne t hne
  intro r' hr'
  unfold Team.auto_position_kickoff at hr'
  dsimp only at hr'
  rw [if_neg hcond] at hr'
  rcases List.mem_map.mp hr' with ⟨pr2, hpr2, hsnd⟩
  rcases List.mem_map.mp hpr2 with ⟨pr, hpr, hF⟩
  cases hlk : (t.kickoffPlaced fw fh).lookup pr.1 with
  | none =>
      exfalso
      have hmem : pr.2 ∈ t.kickoffOrder.1 :=
        mem_kickoffOrder t pr.2 (List.mem_map_of_mem Prod.snd hpr)
      rcases kickoffPlaced_covers t fw fh pr.2 hmem with ⟨q, hq, hqk⟩
      refine lookup_ne_none pr.1 (t.kickoffPlaced fw fh) ⟨q, hq, ?_⟩ hlk
      rw [hqk]
      exact hid pr hpr
  | some rp =>
      rcases kickoffPlaced_val t fw fh pr.1 rp hlk with ⟨z, hz, hrp, _⟩
      refine ⟨z, hz, ?_⟩
      rw [← hsnd, ← hF]
      rw [hlk]
      exact hrp

/-- Field projections of every robot of the repositioned team. -/
theorem kickoff_robot_props (t : Team) (fw fh : ℝ)
    (hid : ∀ p ∈ t.robots, p.2.robot_id = p.1) (hne : t.robots ≠ []) :
    ∀ r' ∈ (t.auto_position_kickoff fw fh).vals,
      r'.vx = 0 ∧ r'.vy = 0 ∧ r'.omega = 0 ∧ r'.desired_vx = 0 ∧ r'.desired_vy = 0 ∧
      r'.desired_omega = 0 ∧ r'.theta = wrap_pi t.kickoffFace ∧
      ∃ p ∈ kickoffTemplates t.attack_sign (fw * 0.5) (fh * 0.5) t.kickoffOrder.1.length,
        r'.x = (clip_xy (fw * 0.5) (fh * 0.5) p.1 p.2).1 ∧
        r'.y = (clip_xy (fw * 0.5) (fh * 0.5) p.1 p.2).2 := by
  intro r' hr'
  rcases kickoff_vals_mem t fw fh hid hne r' hr' with ⟨z, hz, heq⟩
  obtain ⟨zr, zt⟩ := z
  subst heq
  exact ⟨rfl, rfl, rfl, rfl, rfl, rfl, rfl, zt, (List.mem_zip hz).2, rfl, rfl⟩

/-- Distance bound via the `x` coordinate only (the clipped `y` never
lowers a squared distance below the `x` contribution). -/
theorem clip_far (x y og : ℝ)
    (h : 0.25 ≤ ((max (-(22 * 0.5) + 0.1) (min (22 * 0.5 - 0.1) x)) - og) ^ 2) :
    0.25 ≤ ((clip_xy (22 * 0.5) (14 * 0.5) x y).1 - og) ^ 2 +
      ((clip_xy (22 * 0.5) (14 * 0.5) x y).2) ^ 2 := by
  unfold clip_xy
  dsimp only
  have h2 := sq_nonneg (max (-(14 * 0.5) + 0.1) (min (14 * 0.5 - 0.1) y))
  linarith

/-- On the hard-coded 22 × 14 pitch, every clipped kickoff template is at
squared distance at least 0.25 from the own goal mouth `(-s·11, 0)`. -/
theorem kickoffTemplates_dist (s : ℝ) (hs : s = 1 ∨ s = -1) (n : ℕ) :
    ∀ p ∈ kickoffTemplates s (22 * 0.5) (14 * 0.5) n,
      0.25 ≤ ((clip_xy (22 * 0.5) (14 * 0.5) p.1 p.2).1 - (-s * 11)) ^ 2 +
        ((clip_xy (22 * 0.5) (14 * 0.5) p.1 p.2).2) ^ 2 := by
  intro p hp
  unfold kickoffTemplates at hp
  dsimp only at hp
  rcases List.mem_append.mp hp with hb | he
  · have hb2 := List.mem_of_mem_take hb
    simp only [List.mem_cons, List.not_mem_nil, or_false] at hb2
    rcases hs with hs | hs <;> subst hs <;>
      rcases hb2 with h | h | h | h | h <;> subst h <;>
        refine clip_far _ _ _ ?_ <;> norm_num [min_def, max_def]
  · rcases List.mem_map.mp he with ⟨i, hi, hip⟩
    rw [← hip]
    refine clip_far _ _ _ ?_
    rcases hs with hs | hs <;> subst hs <;> norm_num [min_def, max_def]

/-- With distinct ids matching the stored `robot_id`s, the robots whose id
is the goalie's form a singleton. -/
theorem filter_id_singleton (g : ℕ) :
    ∀ l : List (ℕ × Robot),
      (∀ p ∈ l, p.2.robot_id = p.1) → (l.map Prod.fst).Nodup →
      ∀ pr, pr ∈ l → pr.1 = g →
      ∃ rg0, (l.map Prod.snd).filter (fun r => decide (r.robot_id = g)) = [rg0] ∧
        rg0.robot_id = g := by
  intro l
  induction l with
  | nil =>
      intro _ _ pr hpr
      exact absurd hpr (List.not_mem_nil pr)
  | cons a as ih =>
      intro hid hnd pr hpr hprg
      obtain ⟨ka, va⟩ := a
      by_cases hk : ka = g
      · have hva : va.robot_id = g := by
          have h := hid (ka, va) (List.mem_cons_self _ _)
          rw [h]
          exact hk
        refine ⟨va, ?_, hva⟩
        show List.filter (fun r => decide (r.robot_id = g)) (va :: as.map Prod.snd) = [va]
        rw [List.filter_cons, if_pos (decide_eq_true hva)]
        have hkan : ka ∉ as.map Prod.fst := (List.nodup_cons.mp hnd).1
        have htail : List.filter (fun r => decide (r.robot_id = g)) (as.map Prod.snd) = [] := by
          rw [List.filter_eq_nil_iff]
          intro r hrmem hdec
          rcases List.mem_map.mp hrmem with ⟨q, hq, hqr⟩
          have hrg : r.robot_id = g := of_decide_eq_true hdec
          have hq1 : q.2.robot_id = q.1 := hid q (List.mem_cons_of_mem _ hq)
          have hqg : q.1 = g := by
            rw [← hq1, hqr]
            exact hrg
          apply hkan
          rw [hk]
          exact hqg ▸ List.mem_map_of_mem Prod.fst hq
        rw [htail]
      · have hvan : ¬ (va.robot_id = g) := by
          have h := hid (ka, va) (List.mem_cons_self _ _)
          rw [h]
          exact hk
        rcases List.mem_cons.mp hpr with h | h
        · exfalso
          rw [h] at hprg
          exact hk hprg
        · rcases ih (fun p hp => hid p (List.mem_cons_of_mem _ hp))
              ((List.nodup_cons.mp hnd).2) pr h hprg with ⟨rg0, hf, hr⟩
          refine ⟨rg0, ?_, hr⟩
          show List.filter (fun r => decide (r.robot_id = g)) (va :: as.map Prod.snd) = [rg0]
          rw [List.filter_cons, if_neg (by
            intro hdec
            exact hvan (of_decide_eq_true hdec))]
          exact hf

/-- With a goalie present, the kickoff order starts with the goalie's
robot. -/
theorem kickoffOrder_goalie_head (t : Team) (g : ℕ)
    (hid : ∀ p ∈ t.robots, p.2.robot_id = p.1)
    (hnd : (t.robots.map Prod.fst).Nodup)
    (hg : t.goalie_id = some g)
    (pr : ℕ × Robot) (hpr : pr ∈ t.robots) (hprg : pr.1 = g) :
    ∃ rg0 rest, t.kickoffOrder.1 = rg0 :: rest ∧ rg0.robot_id = g := by
  rcases filter_id_singleton g t.robots hid hnd pr hpr hprg with ⟨rg0, hf, hgid⟩
  have hperm : (t.robots_list.filter (fun r => decide (r.robot_id = g))).Perm
      ((t.robots.map Prod.snd).filter (fun r => decide (r.robot_id = g))) :=
    (List.mergeSort_perm _ _).filter _
  rw [hf] at hperm
  have hsing : t.robots_list.filter (fun r => decide (r.robot_id = g)) = [rg0] :=
    List.perm_singleton.mp hperm
  unfold Team.kickoffOrder
  rw [hg]
  dsimp only
  rw [hsing]
  exact ⟨rg0, _, rfl, hgid⟩

/-- On the hard-coded pitch, the goalie's robot is placed at the first
template, 0.5 m from the own goal mouth, and no placed robot is closer to
it. -/
theorem kickoff_goalie_spec (t : Team) (g : ℕ)
    (hid : ∀ p ∈ t.robots, p.2.robot_id = p.1)
    (hnd : (t.robots.map Prod.fst).Nodup)
    (hg : t.goalie_id = some g)
    (pr : ℕ × Robot) (hpr : pr ∈ t.robots) (hprg : pr.1 = g) :
    ∃ rg, rg ∈ (t.auto_position_kickoff 22 14).vals ∧ rg.robot_id = g ∧
      (rg.x - t.own_goal_x) ^ 2 + rg.y ^ 2 = 0.25 ∧
      ∀ r' ∈ (t.auto_position_kickoff 22 14).vals,
        (rg.x - t.own_goal_x) ^ 2 + rg.y ^ 2 ≤ (r'.x - t.own_goal_x) ^ 2 + r'.y ^ 2 := by
  have hne : t.robots ≠ [] := by
    intro h
    rw [h] at hpr
    exact List.not_mem_nil pr hpr
  have hcond := robots_list_ne t hne
  rcases kickoffOrder_goalie_head t g hid hnd hg pr hpr hprg with ⟨rg0, rest, horder, hgid⟩
  rcases kickoffTemplates_head t.attack_sign (22 * 0.5) (14 * 0.5) rest.length with ⟨tl, htl⟩
  have hlook : (t.kickoffPlaced 22 14).lookup g =
      some (((rg0.set_pose
          (clip_xy (22 * 0.5) (14 * 0.5) (-t.attack_sign * (22 * 0.5 - 0.5)) 0).1
          (clip_xy (22 * 0.5) (14 * 0.5) (-t.attack_sign * (22 * 0.5 - 0.5)) 0).2
          t.kickoffFace).set_vel 0 0 0).stop) := by
    unfold Team.kickoffPlaced
    dsimp only
    rw [horder, List.length_cons, htl]
    rw [List.zip_cons_cons, List.map_cons]
    dsimp only
    rw [hgid]
    simp only [List.lookup, beq_self_eq_true]
  have hgmem : (((rg0.set_pose
      (clip_xy (22 * 0.5) (14 * 0.5) (-t.attack_sign * (22 * 0.5 - 0.5)) 0).1
      (clip_xy (22 * 0.5) (14 * 0.5) (-t.attack_sign * (22 * 0.5 - 0.5)) 0).2
      t.kickoffFace).set_vel 0 0 0).stop) ∈ (t.auto_position_kickoff 22 14).vals := by
    unfold Team.auto_position_kickoff
    dsimp only
    rw [if_neg hcond]
    have himg : (fun pr' : ℕ × Robot =>
        match (t.kickoffPlaced 22 14).lookup pr'.1 with
        | some r'' => (pr'.1, r'')
        | none => pr') pr =
        (pr.1, (((rg0.set_pose
          (clip_xy (22 * 0.5) (14 * 0.5) (-t.attack_sign * (22 * 0.5 - 0.5)) 0).1
          (clip_xy (22 * 0.5) (14 * 0.5) (-t.attack_sign * (22 * 0.5 - 0.5)) 0).2
          t.kickoffFace).set_vel 0 0 0).stop)) := by
      dsimp only
      rw [hprg, hlook]
    have h1 := List.mem_map_of_mem (fun pr' : ℕ × Robot =>
        match (t.kickoffPlaced 22 14).lookup pr'.1 with
        | some r'' => (pr'.1, r'')
        | none => pr') hpr
    rw [himg] at h1
    exact List.mem_map_of_mem Prod.snd h1
  have hsgn := attack_sign_cases t
  have hog := own_goal_eq t
  have hGK : ((((rg0.set_pose
      (clip_xy (22 * 0.5) (14 * 0.5) (-t.attack_sign * (22 * 0.5 - 0.5)) 0).1
      (clip_xy (22 * 0.5) (14 * 0.5) (-t.attack_sign * (22 * 0.5 - 0.5)) 0).2
      t.kickoffFace).set_vel 0 0 0).stop).x - t.own_goal_x) ^ 2 +
      ((((rg0.set_pose
      (clip_xy (22 * 0.5) (14 * 0.5) (-t.attack_sign * (22 * 0.5 - 0.5)) 0).1
      (clip_xy (22 * 0.5) (14 * 0.5) (-t.attack_sign * (22 * 0.5 - 0.5)) 0).2
      t.kickoffFace).set_vel 0 0 0).stop).y) ^ 2 = 0.25 := by
    show ((clip_xy (22 * 0.5) (14 * 0.5) (-t.attack_sign * (22 * 0.5 - 0.5)) 0).1
        - t.own_goal_x) ^ 2 +
      ((clip_xy (22 * 0.5) (14 * 0.5) (-t.attack_sign * (22 * 0.5 - 0.5)) 0).2) ^ 2 = 0.25
    rw [hog]
    rcases hsgn with h | h <;> rw [h] <;> norm_num [clip_xy, min_def, max_def]
  refine ⟨_, hgmem, hgid, hGK, ?_⟩
  intro r' hr'
  rcases kickoff_vals_mem t 22 14 hid hne r' hr' with ⟨z, hz, heq⟩
  obtain ⟨zr, zt⟩ := z
  have hzt := (List.mem_zip hz).2
  have hdist := kickoffTemplates_dist t.attack_sign hsgn t.kickoffOrder.1.length zt hzt
  rw [hGK, heq]
  show 0.25 ≤ ((clip_xy (22 * 0.5) (14 * 0.5) zt.1 zt.2).1 - t.own_goal_x) ^ 2 +
    ((clip_xy (22 * 0.5) (14 * 0.5) zt.1 zt.2).2) ^ 2
  rw [hog]
  exact hdist

/-- C9: `goal_scored(side)` increments the scorer's counter, switches to
the conceding side's kickoff state, recentres the ball with zero velocity,
and (via `set_kickoff` / `auto_position_kickoff`) overwrites every robot
of both teams: pose taken from the clipped kickoff templates facing the
opponent goal, linear and angular velocities and all desired commands
zeroed, and the goalkeeper placed nearest its own goal (0.5 m in front of
the goal mouth; no other template is closer).  Hypotheses: stored ids
match the dict keys and are distinct, each team is nonempty with its
goalie present, and the pitch is the hard-coded 22 × 14 one. -/
theorem C9_goal_scored_kickoff (w : World) (side : Side) (gL gR : ℕ)
    (hidL : ∀ p ∈ w.team_left.robots, p.2.robot_id = p.1)
    (hidR : ∀ p ∈ w.team_right.robots, p.2.robot_id = p.1)
    (hndL : (w.team_left.robots.map Prod.fst).Nodup)
    (hndR : (w.team_right.robots.map Prod.fst).Nodup)
    (hgL : w.team_left.goalie_id = some gL)
    (hgR : w.team_right.goalie_id = some gR)
    (hkL : ∃ pr, pr ∈ w.team_left.robots ∧ pr.1 = gL)
    (hkR : ∃ pr, pr ∈ w.team_right.robots ∧ pr.1 = gR)
    (hfw : w.field_w = 22) (hfh : w.field_h = 14) :
    ((w.goal_scored Side.left).score.left = w.score.left + 1 ∧
     (w.goal_scored Side.left).score.right = w.score.right ∧
     (w.goal_scored Side.right).score.right = w.score.right + 1 ∧
     (w.goal_scored Side.right).score.left = w.score.left) ∧
    ((w.goal_scored Side.left).state = GameState.kickoff_right ∧
     (w.goal_scored Side.right).state = GameState.kickoff_left) ∧
    (w.goal_scored side).ball = (w.ball.set_pos 0 0).set_vel 0 0 ∧
    (∀ r' ∈ (w.goal_scored side).team_left.vals,
      r'.vx = 0 ∧ r'.vy = 0 ∧ r'.omega = 0 ∧ r'.desired_vx = 0 ∧ r'.desired_vy = 0 ∧
      r'.desired_omega = 0 ∧ r'.theta = wrap_pi w.team_left.kickoffFace ∧
      ∃ p ∈ kickoffTemplates w.team_left.attack_sign (22 * 0.5) (14 * 0.5)
          w.team_left.kickoffOrder.1.length,
        r'.x = (clip_xy (22 * 0.5) (14 * 0.5) p.1 p.2).1 ∧
        r'.y = (clip_xy (22 * 0.5) (14 * 0.5) p.1 p.2).2) ∧
    (∀ r' ∈ (w.goal_scored side).team_right.vals,
      r'.vx = 0 ∧ r'.vy = 0 ∧ r'.omega = 0 ∧ r'.desired_vx = 0 ∧ r'.desired_vy = 0 ∧
      r'.desired_omega = 0 ∧ r'.theta = wrap_pi w.team_right.kickoffFace ∧
      ∃ p ∈ kickoffTemplates w.team_right.attack_sign (22 * 0.5) (14 * 0.5)
          w.team_right.kickoffOrder.1.length,
        r'.x = (clip_xy (22 * 0.5) (14 * 0.5) p.1 p.2).1 ∧
        r'.y = (clip_xy (22 * 0.5) (14 * 0.5) p.1 p.2).2) ∧
    (∃ rg, rg ∈ (w.goal_scored side).team_left.vals ∧ rg.robot_id = gL ∧
      (rg.x - w.team_left.own_goal_x) ^ 2 + rg.y ^ 2 = 0.25 ∧
      ∀ r' ∈ (w.goal_scored side).team_left.vals,
        (rg.x - w.team_left.own_goal_x) ^ 2 + rg.y ^ 2 ≤
          (r'.x - w.team_left.own_goal_x) ^ 2 + r'.y ^ 2) ∧
    (∃ rg, rg ∈ (w.goal_scored side).team_right.vals ∧ rg.robot_id = gR ∧
      (rg.x - w.team_right.own_goal_x) ^ 2 + rg.y ^ 2 = 0.25 ∧
      ∀ r' ∈ (w.goal_scored side).team_right.vals,
        (rg.x - w.team_right.own_goal_x) ^ 2 + rg.y ^ 2 ≤
          (r'.x - w.team_right.own_goal_x) ^ 2 + r'.y ^ 2) := by
  have hneL : w.team_left.robots ≠ [] := by
    rcases hkL with ⟨pr, hpr, _⟩
    intro h
    rw [h] at hpr
    exact List.not_mem_nil pr hpr
  have hneR : w.team_right.robots ≠ [] := by
    rcases hkR with ⟨pr, hpr, _⟩
    intro h
    rw [h] at hpr
    exact List.not_mem_nil pr hpr
  have hTL : (w.goal_scored side).team_left = w.team_left.auto_position_kickoff 22 14 := by
    cases side
    · show w.team_left.auto_position_kickoff w.field_w w.field_h = _
      rw [hfw, hfh]
    · show w.team_left.auto_position_kickoff w.field_w w.field_h = _
      rw [hfw, hfh]
  have hTR : (w.goal_scored side).team_right = w.team_right.auto_position_kickoff 22 14 := by
    cases side
    · show w.team_right.auto_position_kickoff w.field_w w.field_h = _
      rw [hfw, hfh]
    · show w.team_right.auto_position_kickoff w.field_w w.field_h = _
      rw [hfw, hfh]
  refine ⟨⟨rfl, rfl, rfl, rfl⟩, ⟨rfl, rfl⟩, ?_, ?_, ?_, ?_, ?_⟩
  · cases side <;> rfl
  · rw [hTL]
    exact kickoff_robot_props w.team_left 22 14 hidL hneL
  · rw [hTR]
    exact kickoff_robot_props w.team_right 22 14 hidR hneR
  · rw [hTL]
    rcases hkL with ⟨pr, hpr, hprg⟩
    exact kickoff_goalie_spec w.team_left gL hidL hndL hgL pr hpr hprg
  · rw [hTR]
    rcases hkR with ⟨pr, hpr, hprg⟩
    exact kickoff_goalie_spec w.team_right gR hidR hndR hgR pr hpr hprg

/-- One-goalie-per-side world used by the C9 witness (left team robot id 1,
right team robot id 3). -/
def kickTeamL : Team :=
  { team_id := 0, side := Side.left, robots := [(1, { robot_id := 1 })], goalie_id := some 1 }

/-- Right team of the C9 witness world. -/
def kickTeamR : Team :=
  { team_id := 1, side := Side.right, robots := [(3, { robot_id := 3, team_id := 1 })],
    goalie_id := some 3 }

/-- The C9 witness world (default 22 × 14 pitch). -/
def kickWorld : World := { team_left := kickTeamL, team_right := kickTeamR }

/-- Witness for C9 at the concrete two-goalie world, scoring side left. -/
theorem C9_goal_scored_kickoff_witness :
    ((∀ p ∈ kickWorld.team_left.robots, p.2.robot_id = p.1) ∧
     (∀ p ∈ kickWorld.team_right.robots, p.2.robot_id = p.1) ∧
     (kickWorld.team_left.robots.map Prod.fst).Nodup ∧
     (kickWorld.team_right.robots.map Prod.fst).Nodup ∧
     kickWorld.team_left.goalie_id = some 1 ∧
     kickWorld.team_right.goalie_id = some 3 ∧
     (∃ pr, pr ∈ kickWorld.team_left.robots ∧ pr.1 = 1) ∧
     (∃ pr, pr ∈ kickWorld.team_right.robots ∧ pr.1 = 3) ∧
     kickWorld.field_w = 22 ∧ kickWorld.field_h = 14) ∧
    (((kickWorld.goal_scored Side.left).score.left = kickWorld.score.left + 1 ∧
      (kickWorld.goal_scored Side.left).score.right = kickWorld.score.right ∧
      (kickWorld.goal_scored Side.right).score.right = kickWorld.score.right + 1 ∧
      (kickWorld.goal_scored Side.right).score.left = kickWorld.score.left) ∧
     ((kickWorld.goal_scored Side.left).state = GameState.kickoff_right ∧
      (kickWorld.goal_scored Side.right).state = GameState.kickoff_left) ∧
     (kickWorld.goal_scored Side.left).ball = (kickWorld.ball.set_pos 0 0).set_vel 0 0 ∧
     (∀ r' ∈ (kickWorld.goal_scored Side.left).team_left.vals,
       r'.vx = 0 ∧ r'.vy = 0 ∧ r'.omega = 0 ∧ r'.desired_vx = 0 ∧ r'.desired_vy = 0 ∧
       r'.desired_omega = 0 ∧ r'.theta = wrap_pi kickWorld.team_left.kickoffFace ∧
       ∃ p ∈ kickoffTemplates kickWorld.team_left.attack_sign (22 * 0.5) (14 * 0.5)
           kickWorld.team_left.kickoffOrder.1.length,
         r'.x = (clip_xy (22 * 0.5) (14 * 0.5) p.1 p.2).1 ∧
         r'.y = (clip_xy (22 * 0.5) (14 * 0.5) p.1 p.2).2) ∧
     (∀ r' ∈ (kickWorld.goal_scored Side.left).team_right.vals,
       r'.vx = 0 ∧ r'.vy = 0 ∧ r'.omega = 0 ∧ r'.desired_vx = 0 ∧ r'.desired_vy = 0 ∧
       r'.desired_omega = 0 ∧ r'.theta = wrap_pi kickWorld.team_right.kickoffFace ∧
       ∃ p ∈ kickoffTemplates kickWorld.team_right.attack_sign (22 * 0.5) (14 * 0.5)
           kickWorld.team_right.kickoffOrder.1.length,
         r'.x = (clip_xy (22 * 0.5) (14 * 0.5) p.1 p.2).1 ∧
         r'.y = (clip_xy (22 * 0.5) (14 * 0.5) p.1 p.2).2) ∧
     (∃ rg, rg ∈ (kickWorld.goal_scored Side.left).team_left.vals ∧ rg.robot_id = 1 ∧
       (rg.x - kickWorld.team_left.own_goal_x) ^ 2 + rg.y ^ 2 = 0.25 ∧
       ∀ r' ∈ (kickWorld.goal_scored Side.left).team_left.vals,
         (rg.x - kickWorld.team_left.own_goal_x) ^ 2 + rg.y ^ 2 ≤
           (r'.x - kickWorld.team_left.own_goal_x) ^ 2 + r'.y ^ 2) ∧
     (∃ rg, rg ∈ (kickWorld.goal_scored Side.left).team_right.vals ∧ rg.robot_id = 3 ∧
       (rg.x - kickWorld.team_right.own_goal_x) ^ 2 + rg.y ^ 2 = 0.25 ∧
       ∀ r' ∈ (kickWorld.goal_scored Side.left).team_right.vals,
         (rg.x - kickWorld.team_right.own_goal_x) ^ 2 + rg.y ^ 2 ≤
           (r'.x - kickWorld.team_right.own_goal_x) ^ 2 + r'.y ^ 2)) := by
  have hidL : ∀ p ∈ kickWorld.team_left.robots, p.2.robot_id = p.1 := by
    intro p hp
    rw [List.mem_singleton.mp hp]
  have hidR : ∀ p ∈ kickWorld.team_right.robots, p.2.robot_id = p.1 := by
    intro p hp
    rw [List.mem_singleton.mp hp]
  have hndL : (kickWorld.team_left.robots.map Prod.fst).Nodup := List.nodup_singleton 1
  have hndR : (kickWorld.team_right.robots.map Prod.fst).Nodup := List.nodup_singleton 3
  have hkL : ∃ pr, pr ∈ kickWorld.team_left.robots ∧ pr.1 = 1 :=
    ⟨(1, { robot_id := 1 }), List.mem_singleton.mpr rfl, rfl⟩
  have hkR : ∃ pr, pr ∈ kickWorld.team_right.robots ∧ pr.1 = 3 :=
    ⟨(3, { robot_id := 3, team_id := 1 }), List.mem_singleton.mpr rfl, rfl⟩
  exact ⟨⟨hidL, hidR, hndL, hndR, rfl, rfl, hkL, hkR, rfl, rfl⟩,
    C9_goal_scored_kickoff kickWorld Side.left 1 3 hidL hidR hndL hndR rfl rfl hkL hkR
      rfl rfl⟩

/-- Witness for C7 at concrete inputs (the default robot, command 3, 4, 5,
step 1). -/
theorem C7_speed_bound_witness :
    ((1e-9 : ℝ) ≤ restRobot.max_speed ∧ (0 : ℝ) < restRobot.max_speed ∧
      (0 : ℝ) < 1 ∧ restRobot.speed ≤ restRobot.max_speed) ∧
    (hypot (restRobot.command_velocity 3 4 5).desired_vx
           (restRobot.command_velocity 3 4 5).desired_vy ≤ restRobot.max_speed ∧
     (restRobot.update 1).speed ≤ restRobot.max_speed) := by
  have hsp : restRobot.speed ≤ restRobot.max_speed := by
    show Real.sqrt ((0 : ℝ) ^ 2 + (0 : ℝ) ^ 2) ≤ (2.5 : ℝ)
    rw [show ((0 : ℝ) ^ 2 + (0 : ℝ) ^ 2) = 0 by norm_num, Real.sqrt_zero]
    norm_num
  have e1 : (1e-9 : ℝ) ≤ (2.5 : ℝ) := by norm_num
  have e2 : (0 : ℝ) < (2.5 : ℝ) := by norm_num
  exact ⟨⟨e1, e2, by norm_num, hsp⟩,
    C7_speed_bound restRobot restRobot 3 4 5 1 e1 e2 (by norm_num) hsp⟩

end
